import Mathlib

/-!
# Write-behind click buffer (`internal/domain/click`)

A shallow embedding of `entity.go` and `service.go`.

* Go `int64` / `int` values are integers (`Int`); the code does no arithmetic on them.
* `time.Time` is an instant in nanoseconds, `time.Duration` a number of nanoseconds.
* A `context.Context` is represented by an identifier, so that it can be told
  which context reached the repository.
* The `Repository` interface is a transition function on an arbitrary repository state.
* The Go runtime's timers are an explicit list of armed timers; `time.AfterFunc`
  arms a timer with a fresh identifier, `Stop` disarms it, and a firing timer
  leaves the list and runs its closure.
* Every exported operation is one atomic step (the mutex serialises them); the
  field `batchMutex` records whether the mutex is held, and each call of the
  repository is logged together with that flag.
-/

namespace click

/-- Identity of a `context.Context` value. -/
abbrev Ctx := Nat

/-- An instant (`time.Time`), in nanoseconds. -/
abbrev Time := Int

/-- A `time.Duration`, in nanoseconds. -/
abbrev Duration := Int

/-- The constant `time.Second`. -/
def Second : Duration := 1000000000

/-- Go `error` values: the three domain errors of `entity.go`, any other error
(for instance one produced by a repository), and `fmt.Errorf("msg: %w", inner)`. -/
inductive GoError where
  | ErrInvalidBannerID
  | ErrInvalidTimestamp
  | ErrClickNotFound
  | other (msg : String)
  | wrap (msg : String) (inner : GoError)
  deriving DecidableEq, Repr

/-- The function `errors.Is`: the error itself or one in its `%w` chain equals the target. -/
def GoError.Is : GoError → GoError → Bool
  | .wrap m e, target => decide (GoError.wrap m e = target) || GoError.Is e target
  | e, target => decide (e = target)

/-- The struct `Click` of `entity.go`. -/
structure Click where
  ID : Int
  BannerID : Int
  Timestamp : Time
  UserIP : String
  UserAgent : String
  deriving DecidableEq, Repr

/-- The function `NewClick`; `now` is the value of `time.Now()`. -/
def NewClick (now : Time) (bannerID : Int) : Except GoError Click :=
  if bannerID ≤ 0 then
    .error .ErrInvalidBannerID
  else
    .ok { ID := 0, BannerID := bannerID, Timestamp := now, UserIP := "", UserAgent := "" }

/-- The function `NewClickWithMetadata`. -/
def NewClickWithMetadata (now : Time) (bannerID : Int) (userIP userAgent : String) :
    Except GoError Click :=
  match NewClick now bannerID with
  | .error err => .error err
  | .ok click => .ok { click with UserIP := userIP, UserAgent := userAgent }

/-- The interface `Repository`, restricted to the method the service calls:
`CreateBatch` maps the repository's state, the context and the batch to the
new state and the returned error (`none` for `nil`). -/
structure Repository (ρ : Type) where
  CreateBatch : ρ → Ctx → List Click → ρ × Option GoError

/-- An armed runtime timer created by `time.AfterFunc(d, f)`: its identity, its
length `d`, and the context captured by the closure `f` of `resetFlushTimer`. -/
structure Timer where
  id : Nat
  d : Duration
  ctx : Ctx
  deriving DecidableEq, Repr

/-- One call of `repo.CreateBatch`: the context and batch it received and whether
`batchMutex` was held when the call was made. -/
structure SinkCall where
  ctx : Ctx
  clicks : List Click
  lockHeld : Bool
  deriving DecidableEq, Repr

/-- The struct `Service` together with the part of the environment it acts on.
`repo` is the state behind the repository interface, `batchMutex` tells whether
the mutex is held, `flushTimer` is the `*time.Timer` field (`none` for `nil`,
otherwise the identity of the timer pointed to). `timers` are the timers that
are armed in the runtime, `nextTimer` the next fresh timer identity, and `calls`
the log of repository calls so far. -/
structure Service (ρ : Type) where
  repo : ρ
  batchMutex : Bool
  batchQueue : List Click
  batchSize : Int
  flushInterval : Duration
  flushTimer : Option Nat
  timers : List Timer
  nextTimer : Nat
  calls : List SinkCall

/-- The function `NewService`, in a runtime with no armed timer and an empty call log. -/
def NewService {ρ : Type} (repo : ρ) (batchSize : Int) (flushInterval : Duration) : Service ρ :=
  let batchSize := if batchSize ≤ 0 then 100 else batchSize
  let flushInterval := if flushInterval ≤ 0 then 2 * Second else flushInterval
  { repo := repo
    batchMutex := false
    batchQueue := []
    batchSize := batchSize
    flushInterval := flushInterval
    flushTimer := none
    timers := []
    nextTimer := 0
    calls := [] }

/-- The call `s.batchMutex.Lock()`. -/
def Lock {ρ : Type} (s : Service ρ) : Service ρ :=
  { s with batchMutex := true }

/-- The call `s.batchMutex.Unlock()`. -/
def Unlock {ρ : Type} (s : Service ρ) : Service ρ :=
  { s with batchMutex := false }

/-- The method `(*time.Timer).Stop` on the timer `id`: it is no longer armed. -/
def stopTimer (id : Nat) (timers : List Timer) : List Timer :=
  timers.filter (fun t => decide (t.id ≠ id))

/-- The method `flushBatchUnsafe`. -/
def flushBatchUnsafe {ρ : Type} (R : Repository ρ) (ctx : Ctx) (s : Service ρ) :
    Service ρ × Option GoError :=
  if s.batchQueue.length = 0 then
    (s, none)
  else
    let batchToFlush := s.batchQueue
    let s1 := { s with batchQueue := [] }
    let s2 :=
      match s1.flushTimer with
      | some id => { s1 with timers := stopTimer id s1.timers, flushTimer := none }
      | none => s1
    let res := R.CreateBatch s2.repo ctx batchToFlush
    let s3 := { s2 with repo := res.1, calls := s2.calls ++ [⟨ctx, batchToFlush, s2.batchMutex⟩] }
    match res.2 with
    | some err => (s3, some (.wrap "failed to save batch clicks" err))
    | none => (s3, none)

/-- The method `resetFlushTimer`: stop the timer of the field, if any, then arm a
new one of length `flushInterval` whose closure captures `ctx`. -/
def resetFlushTimer {ρ : Type} (ctx : Ctx) (s : Service ρ) : Service ρ :=
  let s1 :=
    match s.flushTimer with
    | some id => { s with timers := stopTimer id s.timers }
    | none => s
  { s1 with
    timers := s1.timers ++ [⟨s1.nextTimer, s1.flushInterval, ctx⟩]
    flushTimer := some s1.nextTimer
    nextTimer := s1.nextTimer + 1 }

/-- The method `RegisterClick`; `now` is the value `time.Now()` returns inside `NewClick`. -/
def RegisterClick {ρ : Type} (R : Repository ρ) (ctx : Ctx) (now : Time) (bannerID : Int)
    (userIP userAgent : String) (s : Service ρ) : Service ρ × Except GoError Click :=
  match NewClickWithMetadata now bannerID userIP userAgent with
  | .error err => (s, .error (.wrap "failed to create click" err))
  | .ok click =>
    let s1 := Lock s
    let s2 := { s1 with batchQueue := s1.batchQueue ++ [click] }
    if s2.batchSize ≤ (s2.batchQueue.length : Int) then
      match flushBatchUnsafe R ctx s2 with
      | (s3, some err) => (Unlock s3, .error (.wrap "failed to flush batch" err))
      | (s3, none) => (Unlock s3, .ok click)
    else
      (Unlock (resetFlushTimer ctx s2), .ok click)

/-- The method `FlushPendingClicks`. -/
def FlushPendingClicks {ρ : Type} (R : Repository ρ) (ctx : Ctx) (s : Service ρ) :
    Service ρ × Option GoError :=
  let r := flushBatchUnsafe R ctx (Lock s)
  (Unlock r.1, r.2)

/-- The closure armed by `resetFlushTimer`, run when timer `id` fires. A timer
that is not armed (never created, stopped, or already fired) does not fire. The
firing timer leaves the armed timers; the closure locks, flushes with the
captured context, drops the result and unlocks. -/
def timerFire {ρ : Type} (R : Repository ρ) (id : Nat) (s : Service ρ) : Service ρ :=
  match s.timers.find? (fun t => decide (t.id = id)) with
  | none => s
  | some t =>
    let s1 := { s with timers := stopTimer id s.timers }
    Unlock (flushBatchUnsafe R t.ctx (Lock s1)).1

/-- One step of the buffer's environment. -/
inductive Action where
  | register (ctx : Ctx) (now : Time) (bannerID : Int) (userIP userAgent : String)
  | flush (ctx : Ctx)
  | fire (id : Nat)
  deriving DecidableEq, Repr

/-- The state after one step. -/
def step {ρ : Type} (R : Repository ρ) (s : Service ρ) : Action → Service ρ
  | .register ctx now bannerID userIP userAgent =>
    (RegisterClick R ctx now bannerID userIP userAgent s).1
  | .flush ctx => (FlushPendingClicks R ctx s).1
  | .fire id => timerFire R id s

/-- The state after a sequence of steps. -/
def run {ρ : Type} (R : Repository ρ) (s : Service ρ) (acts : List Action) : Service ρ :=
  acts.foldl (step R) s

/-- A state is reachable when some sequence of steps leads to it from a buffer
built by `NewService`. -/
def Reachable {ρ : Type} (R : Repository ρ) (s : Service ρ) : Prop :=
  ∃ (repo : ρ) (batchSize : Int) (flushInterval : Duration) (acts : List Action),
    s = run R (NewService repo batchSize flushInterval) acts

/-- The events a sequence of steps appends to the queue, in order: the click built
by each `RegisterClick` whose identifier passes validation. -/
def accepted : List Action → List Click
  | [] => []
  | .register _ now bannerID userIP userAgent :: rest =>
    match NewClickWithMetadata now bannerID userIP userAgent with
    | .ok click => click :: accepted rest
    | .error _ => accepted rest
  | _ :: rest => accepted rest

/-- A step is a valid submission: a `RegisterClick` with a positive identifier. -/
def validSubmit : Action → Bool
  | .register _ _ bannerID _ _ => decide (0 < bannerID)
  | _ => false

/-- The batches handed to the repository so far, concatenated in call order. -/
def flushed {ρ : Type} (s : Service ρ) : List Click :=
  (s.calls.map (fun c => c.clicks)).flatten

/-- A repository that stores nothing and always succeeds. -/
def okRepo : Repository Unit :=
  { CreateBatch := fun _ _ _ => ((), none) }

/-- A repository that stores nothing and always fails. -/
def failRepo : Repository Unit :=
  { CreateBatch := fun _ _ _ => ((), some (.other "db down")) }

/-- The condition that holds between operations: the mutex is free, the queue is
shorter than the positive batch size, either no timer is armed and the queue is
empty or exactly one timer is armed, it is the one of the field `flushTimer`, it
has length `flushInterval` and the queue is non-empty, and the timer of the
field was created earlier. -/
structure Inv {ρ : Type} (s : Service ρ) : Prop where
  unlocked : s.batchMutex = false
  size_pos : 0 < s.batchSize
  below : (s.batchQueue.length : Int) < s.batchSize
  armed : (s.timers = [] ∧ s.batchQueue = []) ∨
    (∃ t, s.timers = [t] ∧ s.flushTimer = some t.id ∧ s.batchQueue ≠ [] ∧ t.d = s.flushInterval)
  fresh : ∀ id, s.flushTimer = some id → id < s.nextTimer

end click

/-!
# In-memory TTL store and its facades (`internal/infrastructure/cache/memory`)

A shallow embedding of `connection.go`, `banner_cache.go` and `stats_cache.go`.

* The Go map `data` is a list of entries; `mapSet` and `mapDelete` keep at most
  one entry per key, and the order of the list stands for the unspecified
  iteration order of the map.
* Each operation reads the clock once: `now` is the value of `time.Now()`.
* An `interface{}` value carries its dynamic type.
* `int64` arithmetic wraps modulo `2^64`.
* The mutex, the ticker and the logger are left out: every operation is one atomic step.
* `encoding/json` is a parameter of the banner facade.
-/

namespace banner

/-- The struct `Banner` of `domain/banner/entity.go`. -/
structure Banner where
  ID : Int
  Name : String
  CreatedAt : click.Time
  UpdatedAt : click.Time
  IsActive : Bool
  deriving DecidableEq, Repr

end banner

namespace memory

open click (Time Duration Second)

/-- The constant `time.Hour`. -/
def Hour : Duration := 3600 * Second

/-- Go `error` values met by the cache: the sentinel errors of `errors.go`,
`banner.ErrBannerNotFound`, `stats.ErrStatNotFound`, and any other error (for
instance one of `encoding/json`). -/
inductive Error where
  | ErrKeyNotFound
  | ErrInvalidType
  | ErrCacheClosed
  | ErrBannerNotFound
  | ErrStatNotFound
  | other (msg : String)
  deriving DecidableEq, Repr

/-- A value of type `interface{}` with its dynamic type: an `int64`, an `int`, a
`string`, or a value of some other type. -/
inductive GoValue where
  | int64 (v : Int)
  | int (v : Int)
  | string (s : String)
  | other (tag : Nat)
  deriving DecidableEq, Repr

/-- The value is a number (of dynamic type `int64` or `int`). -/
def GoValue.isNumeric : GoValue → Bool
  | .int64 _ => true
  | .int _ => true
  | _ => false

/-- The integer is in the range of `int64`. -/
def inInt64 (x : Int) : Prop := -(2 ^ 63) ≤ x ∧ x < 2 ^ 63

/-- The result of an `int64` operation whose exact value is `x`: wrapping modulo `2^64`. -/
def wrapInt64 (x : Int) : Int := (x + 2 ^ 63) % 2 ^ 64 - 2 ^ 63

/-- The struct `CacheItem`. -/
structure CacheItem where
  Value : GoValue
  ExpiresAt : Time
  deriving DecidableEq, Repr

/-- The method `IsExpired`: `time.Now().After(item.ExpiresAt)`. -/
def CacheItem.IsExpired (item : CacheItem) (now : Time) : Bool :=
  decide (item.ExpiresAt < now)

/-- The map read `data[key]`: the entry of the key, if present. -/
def mapGet (key : String) : List (String × CacheItem) → Option CacheItem
  | [] => none
  | e :: rest => if e.1 = key then some e.2 else mapGet key rest

/-- The builtin `delete(data, key)`. -/
def mapDelete (key : String) (data : List (String × CacheItem)) : List (String × CacheItem) :=
  data.filter (fun e => decide (e.1 ≠ key))

/-- The map write `data[key] = item`. -/
def mapSet (key : String) (item : CacheItem) (data : List (String × CacheItem)) :
    List (String × CacheItem) :=
  (key, item) :: mapDelete key data

/-- The struct `MemoryCache`: its map `data`. -/
structure MemoryCache where
  data : List (String × CacheItem)
  deriving DecidableEq, Repr

/-- A Go map holds at most one entry per key. -/
def MemoryCache.WF (c : MemoryCache) : Prop :=
  (c.data.map Prod.fst).Nodup

/-- The function `NewMemoryCache`: an empty map. -/
def NewMemoryCache : MemoryCache :=
  { data := [] }

/-- The method `cleanupExpired`. -/
def MemoryCache.cleanupExpired (c : MemoryCache) (now : Time) : MemoryCache :=
  { data := c.data.filter (fun e => !e.2.IsExpired now) }

/-- The method `Set`. -/
def MemoryCache.Set (c : MemoryCache) (key : String) (value : GoValue) (ttl : Duration)
    (now : Time) : MemoryCache × Option Error :=
  ({ data := mapSet key { Value := value, ExpiresAt := now + ttl } c.data }, none)

/-- The method `Get`. -/
def MemoryCache.Get (c : MemoryCache) (key : String) (now : Time) :
    MemoryCache × Except Error GoValue :=
  match mapGet key c.data with
  | none => (c, .error .ErrKeyNotFound)
  | some item =>
    if item.IsExpired now then
      ({ data := mapDelete key c.data }, .error .ErrKeyNotFound)
    else
      (c, .ok item.Value)

/-- The method `Delete`. -/
def MemoryCache.Delete (c : MemoryCache) (key : String) : MemoryCache × Option Error :=
  ({ data := mapDelete key c.data }, none)

/-- The method `IncrBy`; the result is the returned `int64` and the returned error.
The assignment `item.Value = newValue` through the pointer held by the map is the
map write of the item with its new value and its old expiration. -/
def MemoryCache.IncrBy (c : MemoryCache) (key : String) (value : Int) (now : Time) :
    MemoryCache × Int × Option Error :=
  match mapGet key c.data with
  | none =>
    ({ data := mapSet key { Value := .int64 value, ExpiresAt := now + Hour } c.data }, value, none)
  | some item =>
    if item.IsExpired now then
      ({ data := mapSet key { Value := .int64 value, ExpiresAt := now + Hour } c.data },
        value, none)
    else
      match item.Value with
      | .int64 currentValue =>
        let newValue := wrapInt64 (currentValue + value)
        ({ data := mapSet key { item with Value := .int64 newValue } c.data }, newValue, none)
      | _ => (c, 0, some .ErrInvalidType)

/-- The method `Clear`. -/
def MemoryCache.Clear (_c : MemoryCache) : MemoryCache × Option Error :=
  ({ data := [] }, none)

/-- The method `Size`. -/
def MemoryCache.Size (c : MemoryCache) : Nat :=
  c.data.length

/-- The method `Keys`; the pattern is not used. -/
def MemoryCache.Keys (c : MemoryCache) (_pattern : String) : List String × Option Error :=
  (c.data.map Prod.fst, none)

/-- One operation on the store. -/
inductive Op where
  | Set (key : String) (value : GoValue) (ttl : Duration) (now : Time)
  | Get (key : String) (now : Time)
  | Delete (key : String)
  | IncrBy (key : String) (value : Int) (now : Time)
  | cleanupExpired (now : Time)
  deriving DecidableEq, Repr

/-- The store after one operation. -/
def MemoryCache.apply (c : MemoryCache) : Op → MemoryCache
  | .Set key value ttl now => (c.Set key value ttl now).1
  | .Get key now => (c.Get key now).1
  | .Delete key => (c.Delete key).1
  | .IncrBy key value now => (c.IncrBy key value now).1
  | .cleanupExpired now => c.cleanupExpired now

/-- The store after a sequence of operations. -/
def MemoryCache.run (c : MemoryCache) (ops : List Op) : MemoryCache :=
  ops.foldl MemoryCache.apply c

/-- The operation is not a write to `key` and does not happen after the instant
`t`: a `Set`, `Delete` or `IncrBy` of another key, a `Get` of another key or at an
instant up to `t`, or a sweep at an instant up to `t`. -/
def Op.keeps (key : String) (t : Time) : Op → Bool
  | .Set k _ _ _ => decide (k ≠ key)
  | .Get k now => decide (k ≠ key) || decide (now ≤ t)
  | .Delete k => decide (k ≠ key)
  | .IncrBy k _ _ => decide (k ≠ key)
  | .cleanupExpired now => decide (now ≤ t)

/-- The operation creates an entry for `key`: a `Set` or an `IncrBy` of that key. -/
def Op.creates (key : String) : Op → Bool
  | .Set k _ _ _ => decide (k = key)
  | .IncrBy k _ _ => decide (k = key)
  | _ => false

/-- The decimal digits of a natural number, most significant first. -/
def decimal (n : Nat) : List Char :=
  if n = 0 then [Nat.digitChar 0] else (Nat.digits 10 n).reverse.map Nat.digitChar

/-- The verb `%d` of `fmt.Sprintf` on an integer: a minus sign for a negative
number, then the decimal digits of its absolute value. -/
def formatInt (i : Int) : String :=
  if i < 0 then String.mk ('-' :: decimal i.natAbs) else String.mk (decimal i.natAbs)

/-- The method `(time.Time).Unix`: whole seconds since the epoch, rounded down. -/
def Unix (t : Time) : Int :=
  t / 1000000000

/-- The method `bannerKey`: `fmt.Sprintf("banner:%d", id)`. -/
def bannerKey (id : Int) : String :=
  "banner:" ++ formatInt id

/-- The method `statsKey`: `fmt.Sprintf("stats:%d:%d:%d", bannerID, from.Unix(), to.Unix())`. -/
def statsKey (bannerID : Int) (fromT toT : Time) : String :=
  "stats:" ++ formatInt bannerID ++ ":" ++ formatInt (Unix fromT) ++ ":" ++ formatInt (Unix toT)

/-- The functions `json.Marshal` and `json.Unmarshal` on banners. -/
structure BannerJSON where
  Marshal : banner.Banner → Except Error String
  Unmarshal : String → Except Error banner.Banner

/-- The struct `BannerCache`: the store and the facade's TTL. -/
structure BannerCache where
  cache : MemoryCache
  ttl : Duration
  deriving DecidableEq, Repr

/-- The function `NewBannerCache`. -/
def NewBannerCache (cache : MemoryCache) (ttl : Duration) : BannerCache :=
  { cache := cache, ttl := ttl }

/-- The method `BannerCache.Get`. -/
def BannerCache.Get (J : BannerJSON) (c : BannerCache) (id : Int) (now : Time) :
    BannerCache × Except Error banner.Banner :=
  let key := bannerKey id
  match c.cache.Get key now with
  | (cache, .error err) =>
    if err = .ErrKeyNotFound then
      ({ c with cache := cache }, .error .ErrBannerNotFound)
    else
      ({ c with cache := cache }, .error err)
  | (cache, .ok data) =>
    match data with
    | .string jsonData =>
      match J.Unmarshal jsonData with
      | .error err => ({ c with cache := cache }, .error err)
      | .ok b => ({ c with cache := cache }, .ok b)
    | _ => ({ c with cache := cache }, .error .ErrInvalidType)

/-- The method `BannerCache.Set`. -/
def BannerCache.Set (J : BannerJSON) (c : BannerCache) (b : banner.Banner) (now : Time) :
    BannerCache × Option Error :=
  let key := bannerKey b.ID
  match J.Marshal b with
  | .error err => (c, some err)
  | .ok data =>
    match c.cache.Set key (.string data) c.ttl now with
    | (cache, some err) => ({ c with cache := cache }, some err)
    | (cache, none) => ({ c with cache := cache }, none)

/-- The first instant of the year 0 in UTC, in nanoseconds since the Unix epoch
(0000-01-01T00:00:00Z is second -62167219200). -/
def yearZero : Time := -62167219200 * Second

/-- The first instant of the year 10000 in UTC, in nanoseconds since the Unix
epoch (10000-01-01T00:00:00Z is second 253402300800). -/
def yearTenThousand : Time := 253402300800 * Second

/-- The check of `(time.Time).MarshalJSON` on a UTC time: the year is in
`[0, 9999]`; outside of it the method returns an error. -/
def jsonTimeOK (t : Time) : Bool :=
  decide (yearZero ≤ t) && decide (t < yearTenThousand)

/-- The number that a non-empty list of decimal digits denotes. -/
def parseNat (cs : List Char) : Option Nat :=
  if cs ≠ [] ∧ cs.all Char.isDigit = true then
    some (cs.foldl (fun acc ch => 10 * acc + (ch.toNat - '0'.toNat)) 0)
  else none

/-- The integer that a decimal rendering denotes: an optional minus sign, then
digits. -/
def parseInt (cs : List Char) : Option Int :=
  if cs.head? = some '-' then (parseNat cs.tail).map (fun (n : Nat) => -Int.ofNat n)
  else (parseNat cs).map (fun (n : Nat) => Int.ofNat n)

/-- The boolean that `true` or `false` denotes. -/
def parseBool (cs : List Char) : Option Bool :=
  if cs = "true".data then some true
  else if cs = "false".data then some false
  else none

/-- The text up to the first comma, and the text after that comma. -/
def field (cs : List Char) : Option (List Char × List Char) :=
  match cs.dropWhile (fun ch => ch != ',') with
  | [] => none
  | _ :: rest => some (cs.takeWhile (fun ch => ch != ','), rest)

/-- The document that stands for the JSON text of a banner: the identifier, the
two time stamps (nanoseconds since the epoch) and the flag, each followed by a
comma, then the name. The document is only stored by `Set` and decoded by `Get`;
its syntax is not that of JSON, its content is: the five exported fields. -/
def encodeBanner (b : banner.Banner) : String :=
  formatInt b.ID ++ "," ++ formatInt b.CreatedAt ++ "," ++ formatInt b.UpdatedAt ++ "," ++
    (if b.IsActive then "true" else "false") ++ "," ++ b.Name

/-- The banner that a document denotes, or an error for a text that is not a
document. -/
def decodeBanner (js : String) : Except Error banner.Banner :=
  let parsed : Option banner.Banner := do
    let f1 ← field js.data
    let f2 ← field f1.2
    let f3 ← field f2.2
    let f4 ← field f3.2
    let id ← parseInt f1.1
    let created ← parseInt f2.1
    let updated ← parseInt f3.1
    let active ← parseBool f4.1
    pure ⟨id, String.mk f4.2, created, updated, active⟩
  match parsed with
  | some b => .ok b
  | none => .error (.other "json: cannot unmarshal into Go value of type banner.Banner")

/-- The functions `json.Marshal` and `json.Unmarshal` on a `Banner`, after the
documentation of `encoding/json` and of `(time.Time).MarshalJSON`: encoding
fails when the year of `CreatedAt` or of `UpdatedAt` is outside `[0, 9999]`, and
otherwise writes the five fields; decoding reads them back. A name is a Lean
string, that is valid Unicode (a name with invalid UTF-8, which `encoding/json`
rewrites, is outside the model), and a time is an instant in UTC. -/
def goJSON : BannerJSON :=
  { Marshal := fun b =>
      if jsonTimeOK b.CreatedAt && jsonTimeOK b.UpdatedAt then .ok (encodeBanner b)
      else .error (.other
        "json: error calling MarshalJSON for type time.Time: year outside of range [0,9999]")
    Unmarshal := decodeBanner }

end memory

namespace memory

/-- The method `BannerCache.Clear`. The Go test `len(key) > len(bannerKeyPrefix) &&
key[:len(bannerKeyPrefix)] == bannerKeyPrefix` counts bytes; the prefix is ASCII,
so on the characters of the key it is the same test. -/
def BannerCache.Clear (c : BannerCache) : BannerCache × Option Error :=
  match c.cache.Keys "" with
  | (_, some err) => (c, some err)
  | (keys, none) =>
    let bannerKeyPrefix := "banner:"
    let cache := keys.foldl
      (fun (cache : MemoryCache) (key : String) =>
        if bannerKeyPrefix.length < key.length ∧
            key.data.take bannerKeyPrefix.length = bannerKeyPrefix.data then
          (cache.Delete key).1
        else cache)
      c.cache
    ({ c with cache := cache }, none)

end memory

/-!
# Banner service (`internal/domain/banner/service.go`)

The interfaces `Repository` and `CacheRepository` are transition functions on an
arbitrary repository state and an arbitrary cache state; a nil `cacheRepo` is
`none`. The calls the service makes are logged. Contexts are left out.
-/

namespace banner

/-- Go `error` values met by the banner service: the sentinel errors of
`entity.go`, any other error, and `fmt.Errorf("msg: %w", inner)`. -/
inductive Error where
  | ErrBannerNotFound
  | ErrInvalidBannerID
  | other (msg : String)
  | wrap (msg : String) (inner : Error)
  deriving DecidableEq, Repr

/-- The interface `Repository`, restricted to `GetByID`, which returns a banner or an error. -/
structure Repository (ρ : Type) where
  GetByID : ρ → Int → ρ × Except Error Banner

/-- The interface `CacheRepository`, restricted to `Get` and `Set`; `Get` returns
the pair `(*Banner, error)`. -/
structure CacheRepository (κ ε : Type) where
  Get : κ → Int → κ × Option Banner × Option ε
  Set : κ → Banner → κ × Option ε

/-- A call made by the service. -/
inductive Call where
  | cacheGet (id : Int)
  | repoGetByID (id : Int)
  | cacheSet (b : Banner)
  deriving DecidableEq, Repr

/-- The state the service acts on: the repository, the cache, and the log of calls. -/
structure World (ρ κ : Type) where
  repo : ρ
  cache : κ
  calls : List Call

/-- The method `Service.Exists`; the result is the returned `bool` and error. -/
def Service.Exists {ρ κ ε : Type} (repo : Repository ρ)
    (cacheRepo : Option (CacheRepository κ ε)) (w : World ρ κ) (id : Int) :
    World ρ κ × Bool × Option Error :=
  if id ≤ 0 then
    (w, false, some .ErrInvalidBannerID)
  else
    let fromCache : World ρ κ × Option Banner :=
      match cacheRepo with
      | some c =>
        let r := c.Get w.cache id
        ({ w with cache := r.1, calls := w.calls ++ [.cacheGet id] },
          match r.2 with
          | (some b, none) => some b
          | _ => none)
      | none => (w, none)
    match fromCache.2 with
    | some b => (fromCache.1, b.IsActive, none)
    | none =>
      let w1 := fromCache.1
      let r := repo.GetByID w1.repo id
      let w2 := { w1 with repo := r.1, calls := w1.calls ++ [.repoGetByID id] }
      match r.2 with
      | .error err =>
        if err = .ErrBannerNotFound then
          (w2, false, none)
        else
          (w2, false, some (.wrap "failed to check banner existence" err))
      | .ok b =>
        let w3 :=
          match cacheRepo with
          | some c => { w2 with cache := (c.Set w2.cache b).1, calls := w2.calls ++ [.cacheSet b] }
          | none => w2
        (w3, b.IsActive, none)

/-- The in-memory `BannerCache` as a `CacheRepository`, with the clock at `now`. -/
def memoryCacheRepo (J : memory.BannerJSON) (now : click.Time) :
    CacheRepository memory.BannerCache memory.Error :=
  { Get := fun c id =>
      let r := memory.BannerCache.Get J c id now
      (r.1,
        match r.2 with
        | .ok b => (some b, none)
        | .error err => (none, some err))
    Set := fun c b => memory.BannerCache.Set J c b now }

/-- A repository that knows no banner. -/
def emptyRepo : Repository Unit :=
  { GetByID := fun _ _ => ((), .error .ErrBannerNotFound) }

/-- A repository that holds the active banner "promo" under every identifier. -/
def promoRepo : Repository Unit :=
  { GetByID := fun _ id => ((), .ok ⟨id, "promo", 0, 0, true⟩) }

end banner

namespace banner

/-- A cache that is out of order: every `Get` and `Set` fails. -/
def brokenCache : CacheRepository Unit String :=
  { Get := fun _ _ => ((), none, some "cache down")
    Set := fun _ _ => ((), some "cache down") }

end banner

/-!
# Statistics (`internal/domain/stats`)

A shallow embedding of `entity.go` and `service.go`.

* A bucket pointer `*MinuteStat` is the bucket it points to (no nil bucket).
* A counted loop `for j := 0; j < b; j++` whose body leaves `b` alone is a
  recursion on the number of iterations that remain; reading `Stats[j]` outside
  the slice is the result `none`.
* The interfaces are transition functions on an arbitrary repository state (the
  statistics table, shared by `Repository` and `AggregationRepository`) and an
  arbitrary cache state; a nil interface is `none`. The calls the service makes
  are logged. Contexts are left out.
-/

namespace stats

open click (Time Duration Second)

/-- Go `error` values met by the statistics service: the sentinel errors of
`entity.go`, any other error, and `fmt.Errorf("msg: %w", inner)`. -/
inductive Error where
  | ErrInvalidBannerID
  | ErrInvalidTimestamp
  | ErrInvalidPeriod
  | ErrStatNotFound
  | ErrPeriodTooLarge
  | ErrNegativeCount
  | other (msg : String)
  | wrap (msg : String) (inner : Error)
  deriving DecidableEq, Repr

/-- The struct `MinuteStat`. -/
structure MinuteStat where
  Timestamp : Time
  Value : Int
  deriving DecidableEq, Repr

/-- The struct `StatPeriod`. -/
structure StatPeriod where
  From : Time
  To : Time
  deriving DecidableEq, Repr

/-- The struct `StatsResponse`. -/
structure StatsResponse where
  BannerID : Int
  Period : StatPeriod
  Stats : List MinuteStat
  Total : Int
  deriving DecidableEq, Repr

/-- The constant `MaxPeriodDays`. -/
def MaxPeriodDays : Int := 30

/-- The instant of the zero `time.Time` (1 January of year 1, UTC), in
nanoseconds since the Unix epoch. -/
def zeroTime : Time := -62135596800 * Second

/-- The method `(time.Time).IsZero`. -/
def IsZero (t : Time) : Bool := decide (t = zeroTime)

/-- The method `(time.Time).Sub`: the difference as a `Duration`, saturated at the
bounds of `int64` nanoseconds. -/
def Sub (t u : Time) : Duration :=
  if t - u < -(2 ^ 63) then -(2 ^ 63)
  else if 2 ^ 63 - 1 < t - u then 2 ^ 63 - 1
  else t - u

/-- The function `NewStatPeriod`. -/
def NewStatPeriod (fromT toT : Time) : Except Error StatPeriod :=
  if IsZero fromT || IsZero toT then
    .error .ErrInvalidTimestamp
  else if toT < fromT then
    .error .ErrInvalidPeriod
  else if MaxPeriodDays * 24 * memory.Hour < Sub toT fromT then
    .error .ErrPeriodTooLarge
  else
    .ok { From := fromT, To := toT }

/-- The method `CalculateTotal`: the `int64` sum of the values, wrapping. -/
def StatsResponse.CalculateTotal (sr : StatsResponse) : StatsResponse :=
  { sr with
    Total := sr.Stats.foldl (fun total stat => memory.wrapInt64 (total + stat.Value)) 0 }

/-- The inner loop of `SortByTimestamp` from index `j`, with the number of
iterations that remain: compare `Stats[j]` and `Stats[j+1]` and swap them when the
first is after the second. The result is `none` when an index is out of range. -/
def innerLoop (stats : List MinuteStat) (j : Nat) : Nat → Option (List MinuteStat)
  | 0 => some stats
  | k + 1 =>
    match stats[j]?, stats[j + 1]? with
    | some a, some b =>
      if b.Timestamp < a.Timestamp then
        innerLoop ((stats.set j b).set (j + 1) a) (j + 1) k
      else
        innerLoop stats (j + 1) k
    | _, _ => none

/-- The outer loop of `SortByTimestamp` from index `i`, with the number of
iterations that remain: the inner loop runs for `j` from 0 while `j < n-i-1`. -/
def outerLoop (n : Int) (stats : List MinuteStat) (i : Nat) : Nat → Option (List MinuteStat)
  | 0 => some stats
  | k + 1 =>
    match innerLoop stats 0 (n - i - 1).toNat with
    | none => none
    | some stats' => outerLoop n stats' (i + 1) k

/-- The method `SortByTimestamp`: with `n := len(sr.Stats)`, the outer loop runs
for `i` from 0 while `i < n-1`. The result is `none` when an index is out of range. -/
def StatsResponse.SortByTimestamp (sr : StatsResponse) : Option StatsResponse :=
  let n : Int := sr.Stats.length
  (outerLoop n sr.Stats 0 (n - 1).toNat).map (fun stats => { sr with Stats := stats })

/-- One run of the inner loop as a function of the bucket carried along and the
buckets ahead of it: the carried bucket moves past every later bucket that is
strictly before it. -/
def bubble (cur : MinuteStat) : List MinuteStat → List MinuteStat
  | [] => [cur]
  | y :: rest =>
    if y.Timestamp < cur.Timestamp then y :: bubble cur rest else cur :: bubble y rest

/-- The interface `Repository`, restricted to `GetAggregatedStats`. -/
structure Repository (ρ : Type) where
  GetAggregatedStats : ρ → Int → Time → Time → ρ × Except Error (List MinuteStat)

/-- The interface `AggregationRepository`. -/
structure AggregationRepository (ρ : Type) where
  AggregateClicksForBanner : ρ → Int → Time → Time → ρ × Option Error

/-- The interface `CacheRepository`; `GetStats` returns the pair `(*StatsResponse, error)`. -/
structure CacheRepository (κ ε : Type) where
  GetStats : κ → Int → Time → Time → κ × Option StatsResponse × Option ε
  SetStats : κ → Int → Time → Time → StatsResponse → κ × Option ε

/-- A call made by the service. -/
inductive Call where
  | cacheGetStats (bannerID : Int) (fromT toT : Time)
  | repoGetAggregatedStats (bannerID : Int) (fromT toT : Time)
  | cacheSetStats (bannerID : Int) (fromT toT : Time) (response : StatsResponse)
  | aggregateClicks (bannerID : Int) (fromT toT : Time)
  deriving DecidableEq, Repr

/-- The state the service acts on: the repository, the cache, and the log of calls. -/
structure World (ρ κ : Type) where
  repo : ρ
  cache : κ
  calls : List Call

/-- The method `Service.GetStats`. The sort never indexes out of range
(`outerLoop_sorts`), so its result is taken as it is. -/
def Service.GetStats {ρ κ ε : Type} (repo : Repository ρ)
    (cacheRepo : Option (CacheRepository κ ε)) (w : World ρ κ) (bannerID : Int)
    (fromT toT : Time) : World ρ κ × Except Error StatsResponse :=
  if bannerID ≤ 0 then
    (w, .error .ErrInvalidBannerID)
  else
    match NewStatPeriod fromT toT with
    | .error err => (w, .error (.wrap "invalid period" err))
    | .ok period =>
      let fromCache : World ρ κ × Option StatsResponse :=
        match cacheRepo with
        | some c =>
          let r := c.GetStats w.cache bannerID fromT toT
          ({ w with cache := r.1, calls := w.calls ++ [.cacheGetStats bannerID fromT toT] },
            match r.2 with
            | (some cached, none) => some cached
            | _ => none)
        | none => (w, none)
      match fromCache.2 with
      | some cached => (fromCache.1, .ok cached)
      | none =>
        let w1 := fromCache.1
        let r := repo.GetAggregatedStats w1.repo bannerID fromT toT
        let w2 :=
          { w1 with
            repo := r.1
            calls := w1.calls ++ [.repoGetAggregatedStats bannerID fromT toT] }
        match r.2 with
        | .error err => (w2, .error (.wrap "failed to get aggregated stats" err))
        | .ok minuteStats =>
          let response : StatsResponse :=
            { BannerID := bannerID, Period := period, Stats := minuteStats, Total := 0 }
          let response := response.CalculateTotal
          let response := (response.SortByTimestamp).getD response
          let w3 :=
            match cacheRepo with
            | some c =>
              { w2 with
                cache := (c.SetStats w2.cache bannerID fromT toT response).1
                calls := w2.calls ++ [.cacheSetStats bannerID fromT toT response] }
            | none => w2
          (w3, .ok response)

/-- The method `Service.GetStatsWithFallback`. -/
def Service.GetStatsWithFallback {ρ κ ε : Type} (repo : Repository ρ)
    (aggRepo : Option (AggregationRepository ρ)) (cacheRepo : Option (CacheRepository κ ε))
    (w : World ρ κ) (bannerID : Int) (fromT toT : Time) :
    World ρ κ × Except Error StatsResponse :=
  let first := Service.GetStats repo cacheRepo w bannerID fromT toT
  let done : Bool :=
    match first.2 with
    | .ok response => decide (0 < response.Stats.length)
    | .error _ => false
  if done then
    first
  else
    match aggRepo with
    | some agg =>
      let r := agg.AggregateClicksForBanner first.1.repo bannerID fromT toT
      let w1 :=
        { first.1 with
          repo := r.1
          calls := first.1.calls ++ [.aggregateClicks bannerID fromT toT] }
      match r.2 with
      | some err => (w1, .error (.wrap "failed to aggregate clicks" err))
      | none => Service.GetStats repo cacheRepo w1 bannerID fromT toT
    | none => first

end stats

namespace stats

open click (Time Duration Second)

/-- A cache that keeps every stored response under its `(id, from, to)` and
returns the last one stored under the key asked for. -/
def listCache : CacheRepository (List ((Int × Time × Time) × StatsResponse)) String :=
  { GetStats := fun cache bannerID fromT toT =>
      match cache.lookup (bannerID, fromT, toT) with
      | some response => (cache, some response, none)
      | none => (cache, none, some "stat not found")
    SetStats := fun cache bannerID fromT toT response =>
      (((bannerID, fromT, toT), response) :: cache, none) }

/-- A statistics table that is empty until the clicks have been aggregated and
then holds one bucket of 5 clicks at the instant 60s. -/
def tableRepo : Repository Bool :=
  { GetAggregatedStats := fun aggregated _ _ _ =>
      (aggregated, .ok (if aggregated then [⟨60 * Second, 5⟩] else [])) }

/-- The aggregation that fills the table of `tableRepo`. -/
def tableAgg : AggregationRepository Bool :=
  { AggregateClicksForBanner := fun _ _ _ _ => (true, none) }

end stats

namespace banner

/-- The text `err.Error()` of a banner error. -/
def Error.message : Error → String
  | .ErrBannerNotFound => "banner not found"
  | .ErrInvalidBannerID => "invalid banner ID"
  | .other msg => msg
  | .wrap msg inner => msg ++ ": " ++ inner.message

end banner

namespace stats

/-- The text `err.Error()` of a statistics error. -/
def Error.message : Error → String
  | .ErrInvalidBannerID => "invalid banner ID"
  | .ErrInvalidTimestamp => "invalid timestamp"
  | .ErrInvalidPeriod => "invalid time period"
  | .ErrStatNotFound => "stat not found"
  | .ErrPeriodTooLarge => "time period is too large"
  | .ErrNegativeCount => "count cannot be negative"
  | .other msg => msg
  | .wrap msg inner => msg ++ ": " ++ inner.message

end stats

/-!
# Statistics use case and HTTP handler
(`internal/application/usecase/stats_usecase.go`,
`internal/interfaces/http/handlers/stats_handler.go`)

The handler reads of a use-case error only its text `err.Error()`, so an error
of the use case is that text. The banner service and the statistics service are
given by what their calls return. Of the handler, the part after the path
parameter and the body have been parsed is modelled; its result is the HTTP status.
-/

namespace usecase

open click (Time Duration Second)

/-- The struct `GetStatsRequest`. -/
structure GetStatsRequest where
  BannerID : Int
  From : Time
  To : Time
  deriving DecidableEq, Repr

/-- The struct `MinuteStatDTO`. -/
structure MinuteStatDTO where
  Timestamp : Time
  Count : Int
  deriving DecidableEq, Repr

/-- The struct `GetStatsResponse`. -/
structure GetStatsResponse where
  Stats : List MinuteStatDTO
  deriving DecidableEq, Repr

/-- The verb `%v` on the duration `30 * 24 * time.Hour`. -/
def maxPeriodText : String := "720h0m0s"

/-- The method `StatsUseCase.GetStats`; a nil request is `none`, `bannerExists` is
`bannerService.Exists` and `getStatsWithFallback` is
`statsService.GetStatsWithFallback`. -/
def StatsUseCase.GetStats (bannerExists : Int → Bool × Option banner.Error)
    (getStatsWithFallback : Int → Time → Time → Except stats.Error stats.StatsResponse)
    (req : Option GetStatsRequest) : Except String GetStatsResponse :=
  match req with
  | none => .error "request is required"
  | some req =>
    if req.BannerID ≤ 0 then
      .error ("invalid banner ID: " ++ memory.formatInt req.BannerID)
    else if req.To < req.From then
      .error "from time cannot be after to time"
    else if 30 * 24 * memory.Hour < stats.Sub req.To req.From then
      .error ("period too large, maximum allowed: " ++ maxPeriodText)
    else
      match bannerExists req.BannerID with
      | (_, some err) => .error ("failed to check banner existence: " ++ err.message)
      | (found, none) =>
        if !found then
          .error ("banner not found: " ++ memory.formatInt req.BannerID)
        else
          match getStatsWithFallback req.BannerID req.From req.To with
          | .error err => .error ("failed to get stats: " ++ err.message)
          | .ok statsResponse =>
            .ok { Stats := statsResponse.Stats.map (fun stat => ⟨stat.Timestamp, stat.Value⟩) }

end usecase

namespace handlers

open click (Time Duration Second)

/-- The status the handler `StatsHandler.GetStats` answers with once the banner
identifier and the two instants of the body have been parsed: 400 for a
non-positive identifier and for `from` after `to` (`req.Validate`), then the
switch on the text of the use case's error, and 200 on success. -/
def StatsHandler.GetStats (bannerExists : Int → Bool × Option banner.Error)
    (getStatsWithFallback : Int → Time → Time → Except stats.Error stats.StatsResponse)
    (bannerID : Int) (fromTime toTime : Time) : Nat :=
  if bannerID ≤ 0 then
    400
  else if toTime < fromTime then
    400
  else
    match usecase.StatsUseCase.GetStats bannerExists getStatsWithFallback
        (some ⟨bannerID, fromTime, toTime⟩) with
    | .error text =>
      if text = "banner not found" then 404
      else if text = "time period is too large" then 400
      else 500
    | .ok _ => 200

end handlers

namespace click

/-! ## Basic facts about the operations -/

theorem stopTimer_eq_nil (id : Nat) (timers : List Timer) (h : ∀ t ∈ timers, t.id = id) :
    stopTimer id timers = [] := by
  unfold stopTimer
  rw [List.filter_eq_nil_iff]
  intro t ht
  simp [h t ht]

theorem flushBatchUnsafe_empty {ρ : Type} (R : Repository ρ) (ctx : Ctx) (s : Service ρ)
    (h : s.batchQueue = []) : flushBatchUnsafe R ctx s = (s, none) := by
  simp [flushBatchUnsafe, h]

/-- The state and result of `flushBatchUnsafe` on a non-empty queue, when every
armed timer is the one of the field `flushTimer`. -/
theorem flushBatchUnsafe_nonempty {ρ : Type} (R : Repository ρ) (ctx : Ctx) (s : Service ρ)
    (hq : s.batchQueue ≠ []) (hT : ∀ t ∈ s.timers, s.flushTimer = some t.id) :
    flushBatchUnsafe R ctx s =
      ({ s with
          batchQueue := []
          timers := []
          flushTimer := none
          repo := (R.CreateBatch s.repo ctx s.batchQueue).1
          calls := s.calls ++ [⟨ctx, s.batchQueue, s.batchMutex⟩] },
        (R.CreateBatch s.repo ctx s.batchQueue).2.map (GoError.wrap "failed to save batch clicks")) := by
  have hlen : s.batchQueue.length ≠ 0 := by
    intro h0
    exact hq (List.length_eq_zero.mp h0)
  cases hft : s.flushTimer with
  | none =>
    have hnil : s.timers = [] := by
      apply List.eq_nil_iff_forall_not_mem.mpr
      intro t ht
      have := hT t ht
      rw [hft] at this
      cases this
    cases hres : (R.CreateBatch s.repo ctx s.batchQueue).2 <;>
      simp [flushBatchUnsafe, hlen, hft, hres, hnil]
  | some id =>
    have hstop : stopTimer id s.timers = [] := by
      apply stopTimer_eq_nil
      intro t ht
      have := hT t ht
      rw [hft] at this
      exact (Option.some.inj this).symm
    cases hres : (R.CreateBatch s.repo ctx s.batchQueue).2 <;>
      simp [flushBatchUnsafe, hlen, hft, hres, hstop]

theorem NewClickWithMetadata_ok (now : Time) (bannerID : Int) (userIP userAgent : String)
    (h : 0 < bannerID) :
    NewClickWithMetadata now bannerID userIP userAgent =
      .ok (Click.mk 0 bannerID now userIP userAgent) := by
  have h' : ¬ bannerID ≤ 0 := not_le.mpr h
  simp [NewClickWithMetadata, NewClick, h']

theorem NewClickWithMetadata_error (now : Time) (bannerID : Int) (userIP userAgent : String)
    (h : bannerID ≤ 0) :
    NewClickWithMetadata now bannerID userIP userAgent = .error .ErrInvalidBannerID := by
  simp [NewClickWithMetadata, NewClick, h]

/-- Every armed timer is the one the field `flushTimer` points to. -/
theorem Inv.field {ρ : Type} {s : Service ρ} (h : Inv s) :
    ∀ t ∈ s.timers, s.flushTimer = some t.id := by
  intro t ht
  rcases h.armed with ⟨hnil, _⟩ | ⟨t0, h1, h2, _, _⟩
  · rw [hnil] at ht
    cases ht
  · rw [h1] at ht
    rw [List.mem_singleton] at ht
    rw [ht]
    exact h2

/-- A `RegisterClick` with a valid identifier that fills the batch. -/
theorem RegisterClick_full {ρ : Type} (R : Repository ρ) (ctx : Ctx) (now : Time)
    (bannerID : Int) (userIP userAgent : String) (s : Service ρ)
    (hid : 0 < bannerID) (hT : ∀ t ∈ s.timers, s.flushTimer = some t.id)
    (hfull : s.batchSize ≤ ((s.batchQueue ++ [Click.mk 0 bannerID now userIP userAgent]).length : Int)) :
    RegisterClick R ctx now bannerID userIP userAgent s =
      ({ s with
          batchMutex := false
          batchQueue := []
          timers := []
          flushTimer := none
          repo := (R.CreateBatch s.repo ctx
            (s.batchQueue ++ [Click.mk 0 bannerID now userIP userAgent])).1
          calls := s.calls ++
            [⟨ctx, s.batchQueue ++ [Click.mk 0 bannerID now userIP userAgent], true⟩] },
        match (R.CreateBatch s.repo ctx
            (s.batchQueue ++ [Click.mk 0 bannerID now userIP userAgent])).2 with
        | some err =>
          .error (.wrap "failed to flush batch" (.wrap "failed to save batch clicks" err))
        | none => .ok (Click.mk 0 bannerID now userIP userAgent)) := by
  have hflush := flushBatchUnsafe_nonempty R ctx
    { Lock s with batchQueue := (Lock s).batchQueue ++ [Click.mk 0 bannerID now userIP userAgent] }
    (by simp) (by simpa [Lock] using hT)
  unfold RegisterClick
  rw [NewClickWithMetadata_ok now bannerID userIP userAgent hid]
  simp only []
  rw [if_pos (by simpa [Lock] using hfull), hflush]
  cases hres : (R.CreateBatch s.repo ctx
      (s.batchQueue ++ [Click.mk 0 bannerID now userIP userAgent])).2 <;>
    simp [Lock, Unlock, hres]

/-- A `RegisterClick` with a valid identifier that does not fill the batch. -/
theorem RegisterClick_below {ρ : Type} (R : Repository ρ) (ctx : Ctx) (now : Time)
    (bannerID : Int) (userIP userAgent : String) (s : Service ρ)
    (hid : 0 < bannerID) (hT : ∀ t ∈ s.timers, s.flushTimer = some t.id)
    (hpart : ¬ s.batchSize ≤
      ((s.batchQueue ++ [Click.mk 0 bannerID now userIP userAgent]).length : Int)) :
    RegisterClick R ctx now bannerID userIP userAgent s =
      ({ s with
          batchMutex := false
          batchQueue := s.batchQueue ++ [Click.mk 0 bannerID now userIP userAgent]
          timers := [⟨s.nextTimer, s.flushInterval, ctx⟩]
          flushTimer := some s.nextTimer
          nextTimer := s.nextTimer + 1 },
        .ok (Click.mk 0 bannerID now userIP userAgent)) := by
  unfold RegisterClick
  rw [NewClickWithMetadata_ok now bannerID userIP userAgent hid]
  simp only []
  rw [if_neg (by simpa [Lock] using hpart)]
  cases hft : s.flushTimer with
  | none =>
    have hnil : s.timers = [] := by
      apply List.eq_nil_iff_forall_not_mem.mpr
      intro t ht
      have := hT t ht
      rw [hft] at this
      cases this
    simp [resetFlushTimer, Lock, Unlock, hft, hnil]
  | some id =>
    have hstop : stopTimer id s.timers = [] := by
      apply stopTimer_eq_nil
      intro t ht
      have := hT t ht
      rw [hft] at this
      exact (Option.some.inj this).symm
    simp [resetFlushTimer, Lock, Unlock, hft, hstop]

/-- The method `FlushPendingClicks` on an empty queue. -/
theorem FlushPendingClicks_empty {ρ : Type} (R : Repository ρ) (ctx : Ctx) (s : Service ρ)
    (hq : s.batchQueue = []) :
    FlushPendingClicks R ctx s = ({ s with batchMutex := false }, none) := by
  have h := flushBatchUnsafe_empty R ctx (Lock s) (by simpa [Lock] using hq)
  simp only [FlushPendingClicks, h]
  simp [Lock, Unlock]

/-- The method `FlushPendingClicks` on a non-empty queue. -/
theorem FlushPendingClicks_nonempty {ρ : Type} (R : Repository ρ) (ctx : Ctx) (s : Service ρ)
    (hq : s.batchQueue ≠ []) (hT : ∀ t ∈ s.timers, s.flushTimer = some t.id) :
    FlushPendingClicks R ctx s =
      ({ s with
          batchMutex := false
          batchQueue := []
          timers := []
          flushTimer := none
          repo := (R.CreateBatch s.repo ctx s.batchQueue).1
          calls := s.calls ++ [⟨ctx, s.batchQueue, true⟩] },
        (R.CreateBatch s.repo ctx s.batchQueue).2.map (GoError.wrap "failed to save batch clicks")) := by
  have h := flushBatchUnsafe_nonempty R ctx (Lock s) (by simpa [Lock] using hq)
    (by simpa [Lock] using hT)
  simp only [FlushPendingClicks, h]
  simp [Lock, Unlock]

/-- A timer that is not armed does not fire. -/
theorem timerFire_unarmed {ρ : Type} (R : Repository ρ) (id : Nat) (s : Service ρ)
    (h : ∀ t ∈ s.timers, t.id ≠ id) : timerFire R id s = s := by
  have hfind : s.timers.find? (fun t => decide (t.id = id)) = none := by
    rw [List.find?_eq_none]
    intro t ht
    simpa using h t ht
  simp [timerFire, hfind]

/-- The firing of the only armed timer on a non-empty queue. -/
theorem timerFire_armed {ρ : Type} (R : Repository ρ) (t : Timer) (s : Service ρ)
    (ht : s.timers = [t]) (hq : s.batchQueue ≠ []) :
    timerFire R t.id s =
      { s with
        batchMutex := false
        batchQueue := []
        timers := []
        flushTimer := none
        repo := (R.CreateBatch s.repo t.ctx s.batchQueue).1
        calls := s.calls ++ [⟨t.ctx, s.batchQueue, true⟩] } := by
  have hstop : stopTimer t.id s.timers = [] := by
    apply stopTimer_eq_nil
    intro u hu
    rw [ht, List.mem_singleton] at hu
    rw [hu]
  have h := flushBatchUnsafe_nonempty R t.ctx (Lock { s with timers := stopTimer t.id s.timers })
    (by simpa [Lock] using hq) (by simp [Lock, hstop])
  have hfind : s.timers.find? (fun u => decide (u.id = t.id)) = some t := by
    simp [ht]
  simp only [timerFire, hfind, h]
  simp [Lock, Unlock]

theorem Inv_NewService {ρ : Type} (repo : ρ) (batchSize : Int) (flushInterval : Duration) :
    Inv (NewService repo batchSize flushInterval) := by
  refine ⟨rfl, ?_, ?_, Or.inl ⟨rfl, rfl⟩, ?_⟩
  · simp only [NewService]
    split_ifs with h
    · decide
    · exact not_le.mp h
  · simp only [NewService]
    split_ifs with h
    · decide
    · simpa using not_le.mp h
  · intro id h
    simp [NewService] at h

theorem Inv_RegisterClick {ρ : Type} (R : Repository ρ) (ctx : Ctx) (now : Time)
    (bannerID : Int) (userIP userAgent : String) (s : Service ρ) (h : Inv s) :
    Inv (RegisterClick R ctx now bannerID userIP userAgent s).1 := by
  by_cases hid : 0 < bannerID
  · by_cases hfull : s.batchSize ≤
        ((s.batchQueue ++ [Click.mk 0 bannerID now userIP userAgent]).length : Int)
    · rw [RegisterClick_full R ctx now bannerID userIP userAgent s hid h.field hfull]
      refine ⟨rfl, h.size_pos, ?_, Or.inl ⟨rfl, rfl⟩, ?_⟩
      · simpa using h.size_pos
      · intro id hsome
        simp at hsome
    · rw [RegisterClick_below R ctx now bannerID userIP userAgent s hid h.field hfull]
      refine ⟨rfl, h.size_pos, not_le.mp hfull, Or.inr ⟨_, rfl, rfl, ?_, rfl⟩, ?_⟩
      · simp
      · intro id hsome
        simp only [Option.some.injEq] at hsome
        subst hsome
        exact Nat.lt_succ_self _
  · have hfail := NewClickWithMetadata_error now bannerID userIP userAgent (not_lt.mp hid)
    simp only [RegisterClick, hfail]
    exact h

theorem Inv_FlushPendingClicks {ρ : Type} (R : Repository ρ) (ctx : Ctx) (s : Service ρ)
    (h : Inv s) : Inv (FlushPendingClicks R ctx s).1 := by
  by_cases hq : s.batchQueue = []
  · rw [FlushPendingClicks_empty R ctx s hq]
    exact ⟨rfl, h.size_pos, h.below, h.armed, h.fresh⟩
  · rw [FlushPendingClicks_nonempty R ctx s hq h.field]
    refine ⟨rfl, h.size_pos, ?_, Or.inl ⟨rfl, rfl⟩, ?_⟩
    · simpa using h.size_pos
    · intro id hsome
      simp at hsome

theorem Inv_timerFire {ρ : Type} (R : Repository ρ) (id : Nat) (s : Service ρ)
    (h : Inv s) : Inv (timerFire R id s) := by
  rcases h.armed with ⟨hnil, _⟩ | ⟨t, ht, _, hq, _⟩
  · rw [timerFire_unarmed R id s (by simp [hnil])]
    exact h
  · by_cases hid : t.id = id
    · rw [← hid, timerFire_armed R t s ht hq]
      refine ⟨rfl, h.size_pos, ?_, Or.inl ⟨rfl, rfl⟩, ?_⟩
      · simpa using h.size_pos
      · intro id hsome
        simp at hsome
    · rw [timerFire_unarmed R id s (by simpa [ht] using hid)]
      exact h

theorem Inv_step {ρ : Type} (R : Repository ρ) (s : Service ρ) (a : Action) (h : Inv s) :
    Inv (step R s a) := by
  cases a with
  | register ctx now bannerID userIP userAgent =>
    exact Inv_RegisterClick R ctx now bannerID userIP userAgent s h
  | flush ctx => exact Inv_FlushPendingClicks R ctx s h
  | fire id => exact Inv_timerFire R id s h

theorem Inv_run {ρ : Type} (R : Repository ρ) (acts : List Action) (s : Service ρ)
    (h : Inv s) : Inv (run R s acts) := by
  induction acts generalizing s with
  | nil => exact h
  | cons a rest ih => exact ih (step R s a) (Inv_step R s a h)

theorem Reachable.inv {ρ : Type} {R : Repository ρ} {s : Service ρ} (h : Reachable R s) :
    Inv s := by
  obtain ⟨repo, batchSize, flushInterval, acts, rfl⟩ := h
  exact Inv_run R acts _ (Inv_NewService repo batchSize flushInterval)

theorem Reachable.new {ρ : Type} (R : Repository ρ) (repo : ρ) (batchSize : Int)
    (flushInterval : Duration) : Reachable R (NewService repo batchSize flushInterval) :=
  ⟨repo, batchSize, flushInterval, [], rfl⟩

theorem run_append {ρ : Type} (R : Repository ρ) (s : Service ρ) (xs ys : List Action) :
    run R s (xs ++ ys) = run R (run R s xs) ys := by
  simp [run, List.foldl_append]

theorem Reachable.run {ρ : Type} {R : Repository ρ} {s : Service ρ} (h : Reachable R s)
    (acts : List Action) : Reachable R (run R s acts) := by
  obtain ⟨repo, batchSize, flushInterval, pre, rfl⟩ := h
  exact ⟨repo, batchSize, flushInterval, pre ++ acts, (run_append R _ pre acts).symm⟩

/-- Valid submissions that together do not fill the batch only grow the queue:
the repository is not called and the last submission leaves its timer armed. -/
theorem run_submits_below {ρ : Type} (R : Repository ρ) (acts : List Action) (s : Service ρ)
    (hT : ∀ t ∈ s.timers, s.flushTimer = some t.id)
    (hvalid : ∀ a ∈ acts, validSubmit a = true)
    (hlen : ((s.batchQueue.length + acts.length : Nat) : Int) < s.batchSize) :
    (run R s acts).batchQueue = s.batchQueue ++ accepted acts ∧
    (run R s acts).calls = s.calls ∧
    (run R s acts).repo = s.repo ∧
    (run R s acts).batchSize = s.batchSize ∧
    (run R s acts).flushInterval = s.flushInterval ∧
    (accepted acts).length = acts.length ∧
    (∀ t ∈ (run R s acts).timers, (run R s acts).flushTimer = some t.id) := by
  induction acts generalizing s with
  | nil =>
    refine ⟨by simp [run, accepted], rfl, rfl, rfl, rfl, rfl, hT⟩
  | cons a rest ih =>
    have ha := hvalid a (List.mem_cons_self a rest)
    cases a with
    | flush ctx => simp [validSubmit] at ha
    | fire id => simp [validSubmit] at ha
    | register ctx now bannerID userIP userAgent =>
      have hid : 0 < bannerID := by simpa [validSubmit] using ha
      have hpart : ¬ s.batchSize ≤
          ((s.batchQueue ++ [Click.mk 0 bannerID now userIP userAgent]).length : Int) := by
        simp only [List.length_append, List.length_cons, List.length_nil] at hlen ⊢
        push_cast at hlen ⊢
        have := Int.ofNat_nonneg rest.length
        omega
      have hstep := RegisterClick_below R ctx now bannerID userIP userAgent s hid hT hpart
      have hrun : run R s (Action.register ctx now bannerID userIP userAgent :: rest) =
          run R (RegisterClick R ctx now bannerID userIP userAgent s).1 rest := rfl
      have hacc : accepted (Action.register ctx now bannerID userIP userAgent :: rest) =
          Click.mk 0 bannerID now userIP userAgent :: accepted rest := by
        simp [accepted, NewClickWithMetadata_ok now bannerID userIP userAgent hid]
      rw [hrun, hacc, hstep]
      have hrec := ih
        { s with
          batchMutex := false
          batchQueue := s.batchQueue ++ [Click.mk 0 bannerID now userIP userAgent]
          timers := [⟨s.nextTimer, s.flushInterval, ctx⟩]
          flushTimer := some s.nextTimer
          nextTimer := s.nextTimer + 1 }
        (by simp)
        (fun b hb => hvalid b (List.mem_cons_of_mem _ hb))
        (by
          simp only [List.length_append, List.length_cons, List.length_nil] at hlen ⊢
          push_cast at hlen ⊢
          omega)
      obtain ⟨h1, h2, h3, h4, h5, h6, h7⟩ := hrec
      refine ⟨?_, h2, h3, h4, h5, ?_, h7⟩
      · rw [h1]
        simp
      · simp [h6]

theorem accepted_append (xs ys : List Action) :
    accepted (xs ++ ys) = accepted xs ++ accepted ys := by
  induction xs with
  | nil => simp [accepted]
  | cons a rest ih =>
    cases a with
    | register ctx now bannerID userIP userAgent =>
      cases h : NewClickWithMetadata now bannerID userIP userAgent <;>
        simp [accepted, h, ih]
    | flush ctx => simp [accepted, ih]
    | fire id => simp [accepted, ih]

theorem NewService_batchSize_pos {ρ : Type} (repo : ρ) (n : Int) (d : Duration) (hn : 0 < n) :
    (NewService repo n d).batchSize = n := by
  simp [NewService, not_le.mpr hn]

/-- What one step does to the queue and to the call log, from a state that
satisfies `Inv`: either the repository is not called and the queue grows by the
click the step accepts (if any), or the repository is called once, with the
mutex held, on the queue extended by that click, and the queue becomes empty. -/
theorem step_effect {ρ : Type} (R : Repository ρ) (s : Service ρ) (a : Action) (h : Inv s) :
    ((step R s a).calls = s.calls ∧ (step R s a).batchQueue = s.batchQueue ++ accepted [a]) ∨
    (∃ ctx, (step R s a).calls = s.calls ++ [⟨ctx, s.batchQueue ++ accepted [a], true⟩] ∧
      (step R s a).batchQueue = []) := by
  cases a with
  | register ctx now bannerID userIP userAgent =>
    by_cases hid : 0 < bannerID
    · have hacc : accepted [Action.register ctx now bannerID userIP userAgent] =
          [Click.mk 0 bannerID now userIP userAgent] := by
        simp [accepted, NewClickWithMetadata_ok now bannerID userIP userAgent hid]
      by_cases hfull : s.batchSize ≤
          ((s.batchQueue ++ [Click.mk 0 bannerID now userIP userAgent]).length : Int)
      · right
        refine ⟨ctx, ?_⟩
        simp only [step]
        rw [RegisterClick_full R ctx now bannerID userIP userAgent s hid h.field hfull, hacc]
        exact ⟨rfl, rfl⟩
      · left
        simp only [step]
        rw [RegisterClick_below R ctx now bannerID userIP userAgent s hid h.field hfull, hacc]
        exact ⟨rfl, rfl⟩
    · left
      have hfail := NewClickWithMetadata_error now bannerID userIP userAgent (not_lt.mp hid)
      simp [step, RegisterClick, accepted, hfail]
  | flush ctx =>
    have hacc : accepted [Action.flush ctx] = [] := rfl
    by_cases hq : s.batchQueue = []
    · left
      simp only [step]
      rw [FlushPendingClicks_empty R ctx s hq, hacc]
      simp
    · right
      refine ⟨ctx, ?_⟩
      simp only [step]
      rw [FlushPendingClicks_nonempty R ctx s hq h.field, hacc]
      simp
  | fire id =>
    have hacc : accepted [Action.fire id] = [] := rfl
    simp only [step]
    rcases h.armed with ⟨hnil, _⟩ | ⟨t, ht, _, hq, _⟩
    · left
      rw [timerFire_unarmed R id s (by simp [hnil]), hacc]
      simp
    · by_cases hid : t.id = id
      · right
        refine ⟨t.ctx, ?_⟩
        subst hid
        rw [timerFire_armed R t s ht hq, hacc]
        simp
      · left
        rw [timerFire_unarmed R id s (by simpa [ht] using hid), hacc]
        simp

/-- Along every run from a state that satisfies `Inv`, the batches handed to the
repository followed by the queue grow by exactly the accepted clicks. -/
theorem run_conservation {ρ : Type} (R : Repository ρ) (acts : List Action) (s : Service ρ)
    (h : Inv s) :
    flushed (run R s acts) ++ (run R s acts).batchQueue =
      flushed s ++ s.batchQueue ++ accepted acts := by
  induction acts generalizing s with
  | nil => simp [run, accepted]
  | cons a rest ih =>
    have hrun : run R s (a :: rest) = run R (step R s a) rest := rfl
    have hacc : accepted (a :: rest) = accepted [a] ++ accepted rest :=
      accepted_append [a] rest
    rw [hrun, ih (step R s a) (Inv_step R s a h), hacc]
    rcases step_effect R s a h with ⟨hc, hq⟩ | ⟨ctx, hc, hq⟩
    · simp [flushed, hc, hq]
    · simp [flushed, hc, hq]

/-- Along every run from a state that satisfies `Inv`, the calls added to the log
were made with the mutex held. -/
theorem run_calls_locked {ρ : Type} (R : Repository ρ) (acts : List Action) (s : Service ρ)
    (h : Inv s) (hs : ∀ c ∈ s.calls, c.lockHeld = true) :
    ∀ c ∈ (run R s acts).calls, c.lockHeld = true := by
  induction acts generalizing s with
  | nil => exact hs
  | cons a rest ih =>
    apply ih (step R s a) (Inv_step R s a h)
    rcases step_effect R s a h with ⟨hc, _⟩ | ⟨ctx, hc, _⟩
    · rw [hc]
      exact hs
    · rw [hc]
      intro c hmem
      rcases List.mem_append.mp hmem with hold | hnew
      · exact hs c hold
      · rw [List.mem_singleton] at hnew
        rw [hnew]

/-! ## The claims -/

/-- C1: for every state of the buffer and every identifier `bannerID <= 0`,
`RegisterClick` returns no click and an error that wraps `ErrInvalidBannerID`, and
the whole state is the one before the call: the repository was not called, and the
queue, the field `flushTimer` and the armed timers are unchanged. -/
theorem C1_invalid_identifier_rejected {ρ : Type} (R : Repository ρ) (ctx : Ctx) (now : Time)
    (bannerID : Int) (userIP userAgent : String) (s : Service ρ) (h : bannerID ≤ 0) :
    RegisterClick R ctx now bannerID userIP userAgent s =
      (s, .error (.wrap "failed to create click" .ErrInvalidBannerID)) ∧
    GoError.Is (.wrap "failed to create click" .ErrInvalidBannerID) .ErrInvalidBannerID = true ∧
    (RegisterClick R ctx now bannerID userIP userAgent s).1.calls = s.calls ∧
    (RegisterClick R ctx now bannerID userIP userAgent s).1.batchQueue = s.batchQueue ∧
    (RegisterClick R ctx now bannerID userIP userAgent s).1.flushTimer = s.flushTimer ∧
    (RegisterClick R ctx now bannerID userIP userAgent s).1.timers = s.timers := by
  have hfail := NewClickWithMetadata_error now bannerID userIP userAgent h
  have hreg : RegisterClick R ctx now bannerID userIP userAgent s =
      (s, .error (.wrap "failed to create click" .ErrInvalidBannerID)) := by
    simp only [RegisterClick, hfail]
  refine ⟨hreg, ?_, ?_, ?_, ?_, ?_⟩
  · simp [GoError.Is]
  all_goals rw [hreg]

/-- Witness of C1: identifier `-4` on a buffer that holds one click. -/
theorem C1_invalid_identifier_rejected_witness :
    (-4 : Int) ≤ 0 ∧
    RegisterClick okRepo 1 50 (-4) "10.0.0.1" "curl"
        (RegisterClick okRepo 0 10 5 "10.0.0.2" "ff" (NewService () 3 0)).1 =
      ((RegisterClick okRepo 0 10 5 "10.0.0.2" "ff" (NewService () 3 0)).1,
        .error (.wrap "failed to create click" .ErrInvalidBannerID)) :=
  ⟨by decide,
    (C1_invalid_identifier_rejected okRepo 1 50 (-4) "10.0.0.1" "curl"
      (RegisterClick okRepo 0 10 5 "10.0.0.2" "ff" (NewService () 3 0)).1 (by decide)).1⟩

/-- C2: from a buffer built by `NewService` with batch size `n > 0`, `n` valid
submissions in sequence call the repository exactly once: not during the first
`n - 1` submissions, and once during the `n`-th with exactly the `n` accepted
clicks in submission order; the queue is empty afterwards. This holds whatever
the repository returns, in particular when it succeeds. -/
theorem C2_full_batch_one_flush {ρ : Type} (R : Repository ρ) (repo : ρ) (n : Int)
    (d : Duration) (acts : List Action) (hn : 0 < n) (hlen : (acts.length : Int) = n)
    (hvalid : ∀ a ∈ acts, validSubmit a = true) :
    (run R (NewService repo n d) acts.dropLast).calls = [] ∧
    (run R (NewService repo n d) acts).calls.map SinkCall.clicks = [accepted acts] ∧
    (accepted acts).length = acts.length ∧
    (run R (NewService repo n d) acts).batchQueue = [] := by
  have hne : acts ≠ [] := by
    intro h0
    rw [h0] at hlen
    simp at hlen
    omega
  have hsplit : acts.dropLast ++ [acts.getLast hne] = acts := List.dropLast_append_getLast hne
  have hbs := NewService_batchSize_pos repo n d hn
  have hdl : acts.dropLast.length = acts.length - 1 := List.length_dropLast acts
  have hpos : 0 < acts.length := List.length_pos.mpr hne
  have hinit := run_submits_below R acts.dropLast (NewService repo n d)
    (Inv_NewService repo n d).field
    (fun a ha => hvalid a (List.mem_of_mem_dropLast ha))
    (by
      rw [hbs, ← hlen, hdl]
      simp [NewService]
      omega)
  obtain ⟨hq0, hcalls0, _, hsize, _, hacclen, hT⟩ := hinit
  have hq : (run R (NewService repo n d) acts.dropLast).batchQueue = accepted acts.dropLast := by
    rw [hq0]
    rfl
  have hcalls : (run R (NewService repo n d) acts.dropLast).calls = [] := by
    rw [hcalls0]
    rfl
  have hlast := hvalid (acts.getLast hne) (List.getLast_mem hne)
  refine ⟨hcalls, ?_⟩
  generalize hL : acts.getLast hne = last at hsplit hlast
  cases last with
  | flush ctx => simp [validSubmit] at hlast
  | fire id => simp [validSubmit] at hlast
  | register ctx now bannerID userIP userAgent =>
    have hid : 0 < bannerID := by simpa [validSubmit] using hlast
    have hacc : accepted acts =
        accepted acts.dropLast ++ [Click.mk 0 bannerID now userIP userAgent] := by
      conv_lhs => rw [← hsplit]
      rw [accepted_append]
      simp [accepted, NewClickWithMetadata_ok now bannerID userIP userAgent hid]
    have hrun : run R (NewService repo n d) acts =
        (RegisterClick R ctx now bannerID userIP userAgent
          (run R (NewService repo n d) acts.dropLast)).1 := by
      conv_lhs => rw [← hsplit]
      rw [run_append]
      rfl
    have hfull : (run R (NewService repo n d) acts.dropLast).batchSize ≤
        (((run R (NewService repo n d) acts.dropLast).batchQueue ++
          [Click.mk 0 bannerID now userIP userAgent]).length : Int) := by
      rw [hsize, hbs, hq, ← hlen]
      simp only [List.length_append, List.length_cons, List.length_nil, hacclen, hdl]
      push_cast
      omega
    have hstep := RegisterClick_full R ctx now bannerID userIP userAgent
      (run R (NewService repo n d) acts.dropLast) hid hT hfull
    rw [hrun, hstep]
    refine ⟨?_, ?_, rfl⟩
    · simp [hcalls, hq, hacc]
    · rw [hacc]
      simp only [List.length_append, List.length_cons, List.length_nil, hacclen, hdl]
      omega

/-- Witness of C2: batch size 2 and two valid submissions. -/
theorem C2_full_batch_one_flush_witness :
    (0 : Int) < 2 ∧
    (([Action.register 0 10 5 "10.0.0.1" "ff", Action.register 1 20 6 "10.0.0.2" "curl"].length :
      Int) = 2) ∧
    (∀ a ∈ [Action.register 0 10 5 "10.0.0.1" "ff", Action.register 1 20 6 "10.0.0.2" "curl"],
      validSubmit a = true) ∧
    (run okRepo (NewService () 2 0)
      [Action.register 0 10 5 "10.0.0.1" "ff",
        Action.register 1 20 6 "10.0.0.2" "curl"].dropLast).calls = [] ∧
    (run okRepo (NewService () 2 0)
      [Action.register 0 10 5 "10.0.0.1" "ff",
        Action.register 1 20 6 "10.0.0.2" "curl"]).calls.map SinkCall.clicks =
      [accepted [Action.register 0 10 5 "10.0.0.1" "ff",
        Action.register 1 20 6 "10.0.0.2" "curl"]] ∧
    (accepted [Action.register 0 10 5 "10.0.0.1" "ff",
        Action.register 1 20 6 "10.0.0.2" "curl"]).length = 2 ∧
    (run okRepo (NewService () 2 0)
      [Action.register 0 10 5 "10.0.0.1" "ff",
        Action.register 1 20 6 "10.0.0.2" "curl"]).batchQueue = [] :=
  ⟨by decide, by decide, by simp [validSubmit],
    C2_full_batch_one_flush okRepo () 2 0
      [Action.register 0 10 5 "10.0.0.1" "ff", Action.register 1 20 6 "10.0.0.2" "curl"]
      (by decide) (by decide) (by simp [validSubmit])⟩

/-- C3: from a buffer built by `NewService`, after `k < batchSize` valid
submissions and no timer firing the repository has not been called;
`FlushPendingClicks` then calls it exactly once, with exactly the `k` accepted
clicks in submission order (for `k = 0` it changes nothing and returns no error),
and a second `FlushPendingClicks` right after returns no error and leaves the
state, the call log included, as it was. -/
theorem C3_flush_pending_then_idempotent {ρ : Type} (R : Repository ρ) (repo : ρ)
    (batchSize : Int) (d : Duration) (acts : List Action) (ctx1 ctx2 : Ctx)
    (hvalid : ∀ a ∈ acts, validSubmit a = true)
    (hlen : (acts.length : Int) < (NewService repo batchSize d).batchSize) :
    (run R (NewService repo batchSize d) acts).calls = [] ∧
    (acts = [] →
      FlushPendingClicks R ctx1 (run R (NewService repo batchSize d) acts) =
        (run R (NewService repo batchSize d) acts, none)) ∧
    (acts ≠ [] →
      (FlushPendingClicks R ctx1 (run R (NewService repo batchSize d) acts)).1.calls =
        [⟨ctx1, accepted acts, true⟩]) ∧
    (accepted acts).length = acts.length ∧
    (FlushPendingClicks R ctx1 (run R (NewService repo batchSize d) acts)).1.batchQueue = [] ∧
    FlushPendingClicks R ctx2
        (FlushPendingClicks R ctx1 (run R (NewService repo batchSize d) acts)).1 =
      ((FlushPendingClicks R ctx1 (run R (NewService repo batchSize d) acts)).1, none) := by
  have hsub := run_submits_below R acts (NewService repo batchSize d)
    (Inv_NewService repo batchSize d).field hvalid
    (by
      have h0 : (NewService repo batchSize d).batchQueue = [] := rfl
      rw [h0]
      simpa using hlen)
  obtain ⟨hq0, hcalls0, _, _, _, hacclen, hT⟩ := hsub
  have hq : (run R (NewService repo batchSize d) acts).batchQueue = accepted acts := by
    rw [hq0]
    rfl
  have hcalls : (run R (NewService repo batchSize d) acts).calls = [] := by
    rw [hcalls0]
    rfl
  have hinv : Inv (run R (NewService repo batchSize d) acts) :=
    Inv_run R acts _ (Inv_NewService repo batchSize d)
  have hinv1 : Inv (FlushPendingClicks R ctx1 (run R (NewService repo batchSize d) acts)).1 :=
    Inv_FlushPendingClicks R ctx1 _ hinv
  have hempty : (FlushPendingClicks R ctx1
      (run R (NewService repo batchSize d) acts)).1.batchQueue = [] := by
    by_cases hqe : (run R (NewService repo batchSize d) acts).batchQueue = []
    · rw [FlushPendingClicks_empty R ctx1 _ hqe]
      exact hqe
    · rw [FlushPendingClicks_nonempty R ctx1 _ hqe hT]
  have hnoop : ∀ (c : Ctx) (s : Service ρ), Inv s → s.batchQueue = [] →
      FlushPendingClicks R c s = (s, none) := by
    intro c s hs hqe
    rw [FlushPendingClicks_empty R c s hqe]
    have hun := hs.unlocked
    cases s
    simp only at hun
    simp [hun]
  refine ⟨hcalls, ?_, ?_, hacclen, hempty, hnoop ctx2 _ hinv1 hempty⟩
  · intro hnil
    apply hnoop ctx1 _ hinv
    rw [hq, hnil]
    rfl
  · intro hne
    have hqne : (run R (NewService repo batchSize d) acts).batchQueue ≠ [] := by
      rw [hq]
      intro h0
      have hl : (accepted acts).length = 0 := by rw [h0]; rfl
      rw [hacclen] at hl
      exact hne (List.length_eq_zero.mp hl)
    rw [FlushPendingClicks_nonempty R ctx1 _ hqne hT]
    simp [hcalls, hq]

/-- Witness of C3: default batch size 100 and two valid submissions. -/
theorem C3_flush_pending_then_idempotent_witness :
    (∀ a ∈ [Action.register 0 10 5 "10.0.0.1" "ff", Action.register 1 20 6 "10.0.0.2" "curl"],
      validSubmit a = true) ∧
    (([Action.register 0 10 5 "10.0.0.1" "ff", Action.register 1 20 6 "10.0.0.2" "curl"].length :
      Int) < (NewService () 0 0).batchSize) ∧
    (FlushPendingClicks failRepo 8
      (run failRepo (NewService () 0 0)
        [Action.register 0 10 5 "10.0.0.1" "ff",
          Action.register 1 20 6 "10.0.0.2" "curl"])).1.calls =
      [⟨8, accepted [Action.register 0 10 5 "10.0.0.1" "ff",
        Action.register 1 20 6 "10.0.0.2" "curl"], true⟩] :=
  ⟨by simp [validSubmit], by decide,
    (C3_flush_pending_then_idempotent failRepo () 0 0
      [Action.register 0 10 5 "10.0.0.1" "ff", Action.register 1 20 6 "10.0.0.2" "curl"] 8 9
      (by simp [validSubmit]) (by decide)).2.2.1 (by simp)⟩

/-- C4: in every reachable state, when a flush of a non-empty queue is attempted
and the repository returns an error `err`, the batch is not put back: afterwards
the queue is empty, no timer is armed and the field `flushTimer` is nil, and the
call was logged once. `FlushPendingClicks` returns the error wrapped as "failed
to save batch clicks"; a `RegisterClick` that fills the batch returns no click
but that error wrapped again as "failed to flush batch"; the firing of the armed
timer ends in the same state. -/
theorem C4_failed_flush_drops_batch {ρ : Type} (R : Repository ρ) (s : Service ρ)
    (hs : Reachable R s) :
    (∀ (ctx : Ctx) (err : GoError), s.batchQueue ≠ [] →
      (R.CreateBatch s.repo ctx s.batchQueue).2 = some err →
      (FlushPendingClicks R ctx s).2 = some (.wrap "failed to save batch clicks" err) ∧
      (FlushPendingClicks R ctx s).1.batchQueue = [] ∧
      (FlushPendingClicks R ctx s).1.timers = [] ∧
      (FlushPendingClicks R ctx s).1.flushTimer = none ∧
      (FlushPendingClicks R ctx s).1.calls = s.calls ++ [⟨ctx, s.batchQueue, true⟩]) ∧
    (∀ (ctx : Ctx) (now : Time) (bannerID : Int) (userIP userAgent : String) (err : GoError),
      0 < bannerID →
      s.batchSize ≤ ((s.batchQueue ++ [Click.mk 0 bannerID now userIP userAgent]).length : Int) →
      (R.CreateBatch s.repo ctx
        (s.batchQueue ++ [Click.mk 0 bannerID now userIP userAgent])).2 = some err →
      (RegisterClick R ctx now bannerID userIP userAgent s).2 =
        .error (.wrap "failed to flush batch" (.wrap "failed to save batch clicks" err)) ∧
      GoError.Is (.wrap "failed to flush batch" (.wrap "failed to save batch clicks" err)) err
        = true ∧
      (RegisterClick R ctx now bannerID userIP userAgent s).1.batchQueue = [] ∧
      (RegisterClick R ctx now bannerID userIP userAgent s).1.timers = [] ∧
      (RegisterClick R ctx now bannerID userIP userAgent s).1.flushTimer = none ∧
      (RegisterClick R ctx now bannerID userIP userAgent s).1.calls =
        s.calls ++ [⟨ctx, s.batchQueue ++ [Click.mk 0 bannerID now userIP userAgent], true⟩]) ∧
    (∀ (t : Timer) (err : GoError), t ∈ s.timers →
      (R.CreateBatch s.repo t.ctx s.batchQueue).2 = some err →
      s.batchQueue ≠ [] ∧
      (timerFire R t.id s).batchQueue = [] ∧
      (timerFire R t.id s).timers = [] ∧
      (timerFire R t.id s).flushTimer = none ∧
      (timerFire R t.id s).calls = s.calls ++ [⟨t.ctx, s.batchQueue, true⟩]) := by
  have hinv := hs.inv
  refine ⟨?_, ?_, ?_⟩
  · intro ctx err hq herr
    rw [FlushPendingClicks_nonempty R ctx s hq hinv.field, herr]
    exact ⟨rfl, rfl, rfl, rfl, rfl⟩
  · intro ctx now bannerID userIP userAgent err hid hfull herr
    rw [RegisterClick_full R ctx now bannerID userIP userAgent s hid hinv.field hfull, herr]
    refine ⟨rfl, ?_, rfl, rfl, rfl, rfl⟩
    cases err <;> simp [GoError.Is]
  · intro t err ht _
    rcases hinv.armed with ⟨hnil, _⟩ | ⟨t0, h1, _, hq, _⟩
    · rw [hnil] at ht
      cases ht
    · have ht0 : t = t0 := by
        rw [h1, List.mem_singleton] at ht
        exact ht
      subst ht0
      rw [timerFire_armed R t s h1 hq]
      exact ⟨hq, rfl, rfl, rfl, rfl⟩

/-- Witness of C4: a failing repository, batch size 2, one click queued. -/
theorem C4_failed_flush_drops_batch_witness :
    Reachable failRepo (run failRepo (NewService () 2 0) [Action.register 0 10 5 "a" "b"]) ∧
    (0 : Int) < 6 ∧
    (RegisterClick failRepo 1 20 6 "c" "d"
      (run failRepo (NewService () 2 0) [Action.register 0 10 5 "a" "b"])).2 =
      .error (.wrap "failed to flush batch"
        (.wrap "failed to save batch clicks" (.other "db down"))) :=
  ⟨(Reachable.new failRepo () 2 0).run [Action.register 0 10 5 "a" "b"], by decide,
    ((C4_failed_flush_drops_batch failRepo
      (run failRepo (NewService () 2 0) [Action.register 0 10 5 "a" "b"])
      ((Reachable.new failRepo () 2 0).run [Action.register 0 10 5 "a" "b"])).2.1
      1 20 6 "c" "d" (.other "db down") (by decide) (by decide) rfl).1⟩

/-- C5: in every reachable state and for every identifier `bannerID > 0`, a
`RegisterClick` after which the queue is shorter than `batchSize` does not call
the repository, returns without error the click that carries the given
identifier, address and client string, puts exactly that click at the end of the
queue, and leaves exactly one armed timer: a new one of length `flushInterval`,
referenced by the field `flushTimer`. The repository is called during
`RegisterClick` if and only if the queue length after appending is at least
`batchSize`. -/
theorem C5_submit_below_threshold {ρ : Type} (R : Repository ρ) (ctx : Ctx) (now : Time)
    (bannerID : Int) (userIP userAgent : String) (s : Service ρ) (hs : Reachable R s)
    (hid : 0 < bannerID) :
    (((s.batchQueue.length + 1 : Nat) : Int) < s.batchSize →
      (RegisterClick R ctx now bannerID userIP userAgent s).2 =
        .ok (Click.mk 0 bannerID now userIP userAgent) ∧
      (RegisterClick R ctx now bannerID userIP userAgent s).1.calls = s.calls ∧
      (RegisterClick R ctx now bannerID userIP userAgent s).1.repo = s.repo ∧
      (RegisterClick R ctx now bannerID userIP userAgent s).1.batchQueue =
        s.batchQueue ++ [Click.mk 0 bannerID now userIP userAgent] ∧
      (RegisterClick R ctx now bannerID userIP userAgent s).1.timers =
        [⟨s.nextTimer, s.flushInterval, ctx⟩] ∧
      (RegisterClick R ctx now bannerID userIP userAgent s).1.flushTimer = some s.nextTimer ∧
      (∀ t ∈ s.timers, t ∉ (RegisterClick R ctx now bannerID userIP userAgent s).1.timers)) ∧
    ((RegisterClick R ctx now bannerID userIP userAgent s).1.calls ≠ s.calls ↔
      s.batchSize ≤ ((s.batchQueue.length + 1 : Nat) : Int)) ∧
    (s.batchSize ≤ ((s.batchQueue.length + 1 : Nat) : Int) →
      (RegisterClick R ctx now bannerID userIP userAgent s).1.calls =
        s.calls ++ [⟨ctx, s.batchQueue ++ [Click.mk 0 bannerID now userIP userAgent], true⟩]) := by
  have hinv := hs.inv
  have hlen : ((s.batchQueue ++ [Click.mk 0 bannerID now userIP userAgent]).length : Int) =
      ((s.batchQueue.length + 1 : Nat) : Int) := by
    simp
  have hbelow : ¬ s.batchSize ≤ ((s.batchQueue.length + 1 : Nat) : Int) →
      RegisterClick R ctx now bannerID userIP userAgent s = _ := fun h =>
    RegisterClick_below R ctx now bannerID userIP userAgent s hid hinv.field
      (by rw [hlen]; exact h)
  have hfull : s.batchSize ≤ ((s.batchQueue.length + 1 : Nat) : Int) →
      RegisterClick R ctx now bannerID userIP userAgent s = _ := fun h =>
    RegisterClick_full R ctx now bannerID userIP userAgent s hid hinv.field
      (by rw [hlen]; exact h)
  refine ⟨?_, ?_, ?_⟩
  · intro hlt
    rw [hbelow (not_le.mpr hlt)]
    refine ⟨rfl, rfl, rfl, rfl, rfl, rfl, ?_⟩
    intro t ht hmem
    simp only [List.mem_singleton] at hmem
    have hfield := hinv.field t ht
    have hfresh := hinv.fresh t.id hfield
    rw [hmem] at hfresh
    exact Nat.lt_irrefl _ hfresh
  · by_cases hge : s.batchSize ≤ ((s.batchQueue.length + 1 : Nat) : Int)
    · rw [hfull hge]
      refine ⟨fun _ => hge, fun _ h => ?_⟩
      have hl := congrArg List.length h
      simp at hl
    · rw [hbelow hge]
      exact ⟨fun h => absurd rfl h, fun h => absurd h hge⟩
  · intro hge
    rw [hfull hge]

/-- Witness of C5: a second submission to a buffer of batch size 3. -/
theorem C5_submit_below_threshold_witness :
    Reachable okRepo (NewService () 3 0) ∧ (0 : Int) < 5 ∧
    (((((NewService () 3 0 : Service Unit).batchQueue.length + 1 : Nat) : Int) <
      (NewService () 3 0 : Service Unit).batchSize) ∧
    (RegisterClick okRepo 4 10 5 "10.0.0.1" "ff" (NewService () 3 0)).1.timers =
      [⟨0, 2 * Second, 4⟩]) :=
  ⟨Reachable.new okRepo () 3 0, by decide, by decide,
    ((C5_submit_below_threshold okRepo 4 10 5 "10.0.0.1" "ff" (NewService () 3 0)
      (Reachable.new okRepo () 3 0) (by decide)).1 (by decide)).2.2.2.2.1⟩

/-- C6: for every sequence of steps (valid or invalid `RegisterClick`,
`FlushPendingClicks`, timer firing) from a buffer built by `NewService`, and
every repository, the batches handed to the repository, concatenated in call
order, followed by the current queue are exactly the accepted clicks in
submission order: each accepted click is in exactly one batch or still queued,
none is duplicated and none is omitted. -/
theorem C6_each_event_in_one_flush {ρ : Type} (R : Repository ρ) (repo : ρ) (batchSize : Int)
    (d : Duration) (acts : List Action) :
    flushed (run R (NewService repo batchSize d) acts) ++
        (run R (NewService repo batchSize d) acts).batchQueue = accepted acts := by
  rw [run_conservation R acts _ (Inv_NewService repo batchSize d)]
  simp [flushed, NewService]

/-- C7: in every reachable state, when the armed timer fires while the queue
holds a non-empty sequence, the repository receives exactly that sequence, in
order and with the context the timer captured; afterwards the queue is empty, no
timer is armed, and of the repository's answer only its new state is kept: the
returned error is not part of the resulting state. In particular, with batch size
3 and interval 2s: after the valid submissions `A`, `B` the repository has not
been called and one timer of length 2s is armed; its firing delivers exactly the
clicks of `A`, `B`; after the further submissions `C`, `D` nothing more has been
delivered, and the submission `E` delivers exactly the clicks of `C`, `D`, `E`
with no timer firing, leaving the queue empty. -/
theorem C7_timer_flush_and_scenario {ρ : Type} (R : Repository ρ) :
    (∀ (s : Service ρ) (t : Timer), Reachable R s → t ∈ s.timers → s.batchQueue ≠ [] →
      timerFire R t.id s =
        { s with
          batchMutex := false
          batchQueue := []
          timers := []
          flushTimer := none
          repo := (R.CreateBatch s.repo t.ctx s.batchQueue).1
          calls := s.calls ++ [⟨t.ctx, s.batchQueue, true⟩] }) ∧
    (∀ (repo : ρ) (A B C D E : Action),
      validSubmit A = true → validSubmit B = true → validSubmit C = true →
      validSubmit D = true → validSubmit E = true →
      (run R (NewService repo 3 (2 * Second)) [A, B]).calls = [] ∧
      ∃ t : Timer, (run R (NewService repo 3 (2 * Second)) [A, B]).timers = [t] ∧
        t.d = 2 * Second ∧
        (run R (NewService repo 3 (2 * Second)) [A, B, .fire t.id]).calls.map SinkCall.clicks =
          [accepted [A, B]] ∧
        (run R (NewService repo 3 (2 * Second)) [A, B, .fire t.id]).timers = [] ∧
        (run R (NewService repo 3 (2 * Second)) [A, B, .fire t.id, C, D]).calls.map
          SinkCall.clicks = [accepted [A, B]] ∧
        (run R (NewService repo 3 (2 * Second)) [A, B, .fire t.id, C, D, E]).calls.map
          SinkCall.clicks = [accepted [A, B], accepted [C, D, E]] ∧
        (run R (NewService repo 3 (2 * Second)) [A, B, .fire t.id, C, D, E]).batchQueue = []) := by
  constructor
  · intro s t hs ht hq
    rcases hs.inv.armed with ⟨hnil, _⟩ | ⟨t0, h1, _, _, _⟩
    · rw [hnil] at ht
      cases ht
    · have ht0 : t = t0 := by
        rw [h1, List.mem_singleton] at ht
        exact ht
      subst ht0
      exact timerFire_armed R t s h1 hq
  · intro repo A B C D E hA hB hC hD hE
    have hbs : (NewService repo 3 (2 * Second)).batchSize = 3 :=
      NewService_batchSize_pos repo 3 (2 * Second) (by decide)
    have hfi : (NewService repo 3 (2 * Second)).flushInterval = 2 * Second := by
      simp [NewService, Second]
    have hinv0 := Inv_NewService repo 3 (2 * Second)
    have hsub := run_submits_below R [A, B] (NewService repo 3 (2 * Second)) hinv0.field
      (by
        intro a ha
        simp only [List.mem_cons, List.mem_singleton, List.not_mem_nil, or_false] at ha
        rcases ha with rfl | rfl
        · exact hA
        · exact hB)
      (by rw [hbs]; simp [NewService])
    obtain ⟨hq0, hcalls0, _, hsize2, hfi2, hlen2, _⟩ := hsub
    have hq2 : (run R (NewService repo 3 (2 * Second)) [A, B]).batchQueue = accepted [A, B] := by
      rw [hq0]
      rfl
    have hcalls2 : (run R (NewService repo 3 (2 * Second)) [A, B]).calls = [] := by
      rw [hcalls0]
      rfl
    have hne2 : (run R (NewService repo 3 (2 * Second)) [A, B]).batchQueue ≠ [] := by
      rw [hq2]
      intro h0
      rw [h0] at hlen2
      simp at hlen2
    have hinv2 : Inv (run R (NewService repo 3 (2 * Second)) [A, B]) := Inv_run R _ _ hinv0
    refine ⟨hcalls2, ?_⟩
    rcases hinv2.armed with ⟨_, hnil⟩ | ⟨t, ht, _, _, hd⟩
    · exact absurd hnil hne2
    · refine ⟨t, ht, by rw [hd, hfi2, hfi], ?_⟩
      have hfire : run R (NewService repo 3 (2 * Second)) [A, B, .fire t.id] =
          timerFire R t.id (run R (NewService repo 3 (2 * Second)) [A, B]) := rfl
      have hstate := timerFire_armed R t _ ht hne2
      have hrun4 : run R (NewService repo 3 (2 * Second)) [A, B, .fire t.id, C, D] =
          run R (run R (NewService repo 3 (2 * Second)) [A, B, .fire t.id]) [C, D] := rfl
      have hrun5 : run R (NewService repo 3 (2 * Second)) [A, B, .fire t.id, C, D, E] =
          step R (run R (NewService repo 3 (2 * Second)) [A, B, .fire t.id, C, D]) E := rfl
      have hsub3 := run_submits_below R [C, D]
        (run R (NewService repo 3 (2 * Second)) [A, B, .fire t.id])
        (by rw [hfire, hstate]; simp)
        (by
          intro a ha
          simp only [List.mem_cons, List.mem_singleton, List.not_mem_nil, or_false] at ha
          rcases ha with rfl | rfl
          · exact hC
          · exact hD)
        (by rw [hfire, hstate]; simp [hsize2, hbs])
      obtain ⟨hq4, hcalls4, _, hsize4, _, hlen4, hT4⟩ := hsub3
      rw [← hrun4] at hq4 hcalls4 hsize4 hT4
      have hq3 : (run R (NewService repo 3 (2 * Second)) [A, B, .fire t.id]).batchQueue = [] := by
        rw [hfire, hstate]
      have hsize3 : (run R (NewService repo 3 (2 * Second)) [A, B, .fire t.id]).batchSize = 3 := by
        rw [hfire, hstate]
        simp [hsize2, hbs]
      have hcalls3 : (run R (NewService repo 3 (2 * Second)) [A, B, .fire t.id]).calls.map
          SinkCall.clicks = [accepted [A, B]] := by
        rw [hfire, hstate]
        simp [hcalls2, hq2]
      refine ⟨hcalls3, by rw [hfire, hstate], by rw [hcalls4]; exact hcalls3, ?_⟩
      rw [hq3] at hq4
      rw [hsize3] at hsize4
      rw [hrun5]
      cases E with
      | flush ctx => simp [validSubmit] at hE
      | fire id => simp [validSubmit] at hE
      | register ctx now bannerID userIP userAgent =>
        have hid : 0 < bannerID := by simpa [validSubmit] using hE
        have hacc : accepted [C, D, Action.register ctx now bannerID userIP userAgent] =
            accepted [C, D] ++ [Click.mk 0 bannerID now userIP userAgent] := by
          have happ := accepted_append [C, D] [Action.register ctx now bannerID userIP userAgent]
          simp only [List.cons_append, List.nil_append] at happ
          rw [happ]
          simp [accepted, NewClickWithMetadata_ok now bannerID userIP userAgent hid]
        have hfull : (run R (NewService repo 3 (2 * Second)) [A, B, .fire t.id, C, D]).batchSize ≤
            (((run R (NewService repo 3 (2 * Second)) [A, B, .fire t.id, C, D]).batchQueue ++
              [Click.mk 0 bannerID now userIP userAgent]).length : Int) := by
          rw [hsize4, hq4]
          simp [hlen4]
        have hstep := RegisterClick_full R ctx now bannerID userIP userAgent _ hid hT4 hfull
        simp only [step]
        rw [hstep, hacc]
        refine ⟨?_, rfl⟩
        simp [hcalls4, hcalls3, hq4]

/-- Witness of C7: the scenario with an always succeeding repository. -/
theorem C7_timer_flush_and_scenario_witness :
    validSubmit (Action.register 0 0 1 "a" "x") = true ∧
    validSubmit (Action.register 0 0 2 "b" "x") = true ∧
    validSubmit (Action.register 1 3 3 "c" "x") = true ∧
    validSubmit (Action.register 1 3 4 "d" "x") = true ∧
    validSubmit (Action.register 1 3 5 "e" "x") = true ∧
    (run okRepo (NewService () 3 (2 * Second))
      [Action.register 0 0 1 "a" "x", Action.register 0 0 2 "b" "x"]).calls = [] ∧
    Reachable okRepo (run okRepo (NewService () 3 (2 * Second))
      [Action.register 0 0 1 "a" "x", Action.register 0 0 2 "b" "x"]) ∧
    (⟨1, 2 * Second, 0⟩ : Timer) ∈ (run okRepo (NewService () 3 (2 * Second))
      [Action.register 0 0 1 "a" "x", Action.register 0 0 2 "b" "x"]).timers ∧
    (run okRepo (NewService () 3 (2 * Second))
      [Action.register 0 0 1 "a" "x", Action.register 0 0 2 "b" "x"]).batchQueue ≠ [] ∧
    (timerFire okRepo 1 (run okRepo (NewService () 3 (2 * Second))
      [Action.register 0 0 1 "a" "x", Action.register 0 0 2 "b" "x"])).calls =
      [⟨0, [⟨0, 1, 0, "a", "x"⟩, ⟨0, 2, 0, "b", "x"⟩], true⟩] :=
  ⟨by decide, by decide, by decide, by decide, by decide,
    ((C7_timer_flush_and_scenario okRepo).2 ()
      (Action.register 0 0 1 "a" "x") (Action.register 0 0 2 "b" "x")
      (Action.register 1 3 3 "c" "x") (Action.register 1 3 4 "d" "x")
      (Action.register 1 3 5 "e" "x")
      (by decide) (by decide) (by decide) (by decide) (by decide)).1,
    (Reachable.new okRepo () 3 (2 * Second)).run _,
    by decide, by decide,
    congrArg Service.calls ((C7_timer_flush_and_scenario okRepo).1
      (run okRepo (NewService () 3 (2 * Second))
        [Action.register 0 0 1 "a" "x", Action.register 0 0 2 "b" "x"])
      ⟨1, 2 * Second, 0⟩ ((Reachable.new okRepo () 3 (2 * Second)).run _)
      (by decide) (by decide))⟩

/-- C8: in every reachable state at most one timer is armed, and an armed timer
is the one the field `flushTimer` points to. Every reset (`resetFlushTimer`, run
by `RegisterClick` with the mutex held and the new click queued) first stops the
timer of the field, which leaves no timer armed, and then arms the new one: after
the reset the new timer is the only armed one, the field points to it, and no
timer armed before the reset is still armed. -/
theorem C8_single_live_timer {ρ : Type} (R : Repository ρ) (s : Service ρ)
    (hs : Reachable R s) :
    s.timers.length ≤ 1 ∧
    (∀ t ∈ s.timers, s.flushTimer = some t.id) ∧
    (match s.flushTimer with
      | some id => stopTimer id s.timers
      | none => s.timers) = [] ∧
    (∀ (ctx : Ctx) (q : List Click),
      (resetFlushTimer ctx { Lock s with batchQueue := q }).timers =
        [⟨s.nextTimer, s.flushInterval, ctx⟩] ∧
      (resetFlushTimer ctx { Lock s with batchQueue := q }).flushTimer = some s.nextTimer ∧
      (∀ t ∈ s.timers, t ∉ (resetFlushTimer ctx { Lock s with batchQueue := q }).timers)) := by
  have hinv := hs.inv
  have hstopped : (match s.flushTimer with
      | some id => stopTimer id s.timers
      | none => s.timers) = [] := by
    cases hft : s.flushTimer with
    | none =>
      apply List.eq_nil_iff_forall_not_mem.mpr
      intro t ht
      have := hinv.field t ht
      rw [hft] at this
      cases this
    | some id =>
      apply stopTimer_eq_nil
      intro t ht
      have := hinv.field t ht
      rw [hft] at this
      exact (Option.some.inj this).symm
  have hlen : s.timers.length ≤ 1 := by
    rcases hinv.armed with ⟨hnil, _⟩ | ⟨t, ht, _, _, _⟩
    · rw [hnil]
      exact Nat.zero_le 1
    · rw [ht]
      exact Nat.le_refl 1
  have hreset : ∀ (ctx : Ctx) (q : List Click),
      (resetFlushTimer ctx { Lock s with batchQueue := q }).timers =
        [⟨s.nextTimer, s.flushInterval, ctx⟩] := by
    intro ctx q
    cases hft : s.flushTimer with
    | none =>
      rw [hft] at hstopped
      simp only at hstopped
      simp [resetFlushTimer, Lock, hft, hstopped]
    | some id =>
      rw [hft] at hstopped
      simp only at hstopped
      simp [resetFlushTimer, Lock, hft, hstopped]
  refine ⟨hlen, hinv.field, hstopped, ?_⟩
  intro ctx q
  refine ⟨hreset ctx q, ?_, ?_⟩
  · cases hft : s.flushTimer <;> simp [resetFlushTimer, Lock, hft]
  · intro t ht hmem
    rw [hreset ctx q, List.mem_singleton] at hmem
    have hfresh := hinv.fresh t.id (hinv.field t ht)
    rw [hmem] at hfresh
    exact Nat.lt_irrefl _ hfresh

/-- Witness of C8: the state after two submissions to a buffer of batch size 3. -/
theorem C8_single_live_timer_witness :
    Reachable okRepo (run okRepo (NewService () 3 0)
      [Action.register 0 0 1 "a" "x", Action.register 0 0 2 "b" "x"]) ∧
    (run okRepo (NewService () 3 0)
      [Action.register 0 0 1 "a" "x", Action.register 0 0 2 "b" "x"]).timers.length ≤ 1 :=
  ⟨(Reachable.new okRepo () 3 0).run _,
    (C8_single_live_timer okRepo
      (run okRepo (NewService () 3 0)
        [Action.register 0 0 1 "a" "x", Action.register 0 0 2 "b" "x"])
      ((Reachable.new okRepo () 3 0).run _)).1⟩

/-- C9, as stated, fails: a configured batch size of 100 yields `batchSize = 100`
although it is not `<= 0`. -/
theorem C9_counterexample :
    ¬ ((NewService () 100 (5 * Second)).batchSize = 100 ↔ (100 : Int) ≤ 0) := by
  intro h
  have h100 : (NewService () 100 (5 * Second)).batchSize = 100 := by decide
  exact absurd (h.mp h100) (by decide)

/-- C9, amended: `NewService` sets `batchSize` to 100 when the configured batch
size is `<= 0` and `flushInterval` to 2s when the configured interval is `<= 0`,
and keeps every positive configured value unchanged; hence the result is 100
(resp. 2s) exactly when the configured value is `<= 0` or is 100 (resp. 2s)
itself. The new buffer has an empty queue, a nil `flushTimer`, no armed timer
and a free mutex. -/
theorem C9_new_service_defaults {ρ : Type} (repo : ρ) (batchSize : Int)
    (flushInterval : Duration) :
    (NewService repo batchSize flushInterval).batchSize =
      (if batchSize ≤ 0 then 100 else batchSize) ∧
    (NewService repo batchSize flushInterval).flushInterval =
      (if flushInterval ≤ 0 then 2 * Second else flushInterval) ∧
    ((NewService repo batchSize flushInterval).batchSize = 100 ↔
      (batchSize ≤ 0 ∨ batchSize = 100)) ∧
    ((NewService repo batchSize flushInterval).flushInterval = 2 * Second ↔
      (flushInterval ≤ 0 ∨ flushInterval = 2 * Second)) ∧
    (NewService repo batchSize flushInterval).repo = repo ∧
    (NewService repo batchSize flushInterval).batchQueue = [] ∧
    (NewService repo batchSize flushInterval).flushTimer = none ∧
    (NewService repo batchSize flushInterval).timers = [] ∧
    (NewService repo batchSize flushInterval).batchMutex = false := by
  refine ⟨rfl, rfl, ?_, ?_, rfl, rfl, rfl, rfl, rfl⟩
  · simp only [NewService]
    by_cases h : batchSize ≤ 0
    · simp [h]
    · simp only [h, if_false, false_or]
  · simp only [NewService]
    by_cases h : flushInterval ≤ 0
    · simp [h]
    · simp only [h, if_false, false_or]

/-- C10, as stated, fails: with batch size 1 the first valid `RegisterClick`
flushes, and its call of `CreateBatch` is made while `batchMutex` is held. -/
theorem C10_counterexample :
    (RegisterClick okRepo 7 0 1 "10.0.0.1" "ff" (NewService () 1 0)).1.calls =
      [⟨7, [⟨0, 1, 0, "10.0.0.1", "ff"⟩], true⟩] := by
  rfl

/-- C10, amended: on every flush path (a `RegisterClick` that fills the batch,
`FlushPendingClicks`, a timer firing) `CreateBatch` is called while `batchMutex`
is held: every call made along any sequence of steps from a buffer built by
`NewService` was made with the mutex held, and the mutex is free again only once
the operation has returned. -/
theorem C10_sink_called_under_lock {ρ : Type} (R : Repository ρ) (repo : ρ) (batchSize : Int)
    (d : Duration) (acts : List Action) :
    (∀ c ∈ (run R (NewService repo batchSize d) acts).calls, c.lockHeld = true) ∧
    (run R (NewService repo batchSize d) acts).batchMutex = false := by
  have hinv0 := Inv_NewService repo batchSize d
  refine ⟨run_calls_locked R acts _ hinv0 ?_, (Inv_run R acts _ hinv0).unlocked⟩
  intro c hc
  simp [NewService] at hc

end click

namespace memory

open click (Time Duration Second)

/-! ## Facts about the map -/

theorem mapGet_eq_none_iff (key : String) (data : List (String × CacheItem)) :
    mapGet key data = none ↔ key ∉ data.map Prod.fst := by
  induction data with
  | nil => simp [mapGet]
  | cons e rest ih =>
    by_cases h : e.1 = key
    · simp [mapGet, h]
    · have h' : ¬ key = e.1 := fun hk => h hk.symm
      simp [mapGet, h, h', ih]

theorem mapGet_mapDelete_self (key : String) (data : List (String × CacheItem)) :
    mapGet key (mapDelete key data) = none := by
  rw [mapGet_eq_none_iff]
  simp [mapDelete, List.mem_filter]

theorem mapGet_mapDelete_ne (key k : String) (data : List (String × CacheItem)) (h : k ≠ key) :
    mapGet k (mapDelete key data) = mapGet k data := by
  induction data with
  | nil => rfl
  | cons e rest ih =>
    by_cases he : e.1 = key
    · have hek : ¬ e.1 = k := fun hk => h (hk.symm.trans he)
      have hd : mapDelete key (e :: rest) = mapDelete key rest := by
        simp [mapDelete, he]
      rw [hd, ih]
      simp [mapGet, hek]
    · have hd : mapDelete key (e :: rest) = e :: mapDelete key rest := by
        simp [mapDelete, he]
      rw [hd]
      by_cases hek : e.1 = k
      · simp [mapGet, hek]
      · simp [mapGet, hek, ih]

theorem mapGet_mapSet_self (key : String) (item : CacheItem) (data : List (String × CacheItem)) :
    mapGet key (mapSet key item data) = some item := by
  simp [mapSet, mapGet]

theorem mapGet_mapSet_ne (key k : String) (item : CacheItem) (data : List (String × CacheItem))
    (h : k ≠ key) : mapGet k (mapSet key item data) = mapGet k data := by
  have h' : ¬ key = k := fun hk => h hk.symm
  simp [mapSet, mapGet, h', mapGet_mapDelete_ne key k data h]

/-- In a map with one entry per key, filtering the entries filters the entry of each key. -/
theorem mapGet_filter (q : String × CacheItem → Bool) (k : String)
    (data : List (String × CacheItem)) (hnd : (data.map Prod.fst).Nodup) :
    mapGet k (data.filter q) =
      (mapGet k data).bind (fun v => if q (k, v) = true then some v else none) := by
  induction data with
  | nil => rfl
  | cons e rest ih =>
    have hnd' : (rest.map Prod.fst).Nodup := (List.nodup_cons.mp hnd).2
    have hnot : e.1 ∉ rest.map Prod.fst := (List.nodup_cons.mp hnd).1
    by_cases hek : e.1 = k
    · have hrest : mapGet k (rest.filter q) = none := by
        rw [mapGet_eq_none_iff]
        intro hmem
        apply hnot
        rw [hek]
        rcases List.mem_map.mp hmem with ⟨x, hx, hxk⟩
        exact List.mem_map.mpr ⟨x, (List.mem_filter.mp hx).1, hxk⟩
      have hee : e = (k, e.2) := by
        rw [← hek]
      by_cases hq : q e = true
      · rw [List.filter_cons_of_pos hq]
        have hq' : q (k, e.2) = true := by rw [← hee]; exact hq
        simp [mapGet, hek, hq']
      · rw [List.filter_cons_of_neg hq, hrest]
        have hq' : ¬ q (k, e.2) = true := by rw [← hee]; exact hq
        simp [mapGet, hek, hq']
    · by_cases hq : q e = true
      · rw [List.filter_cons_of_pos hq]
        simp [mapGet, hek, ih hnd']
      · rw [List.filter_cons_of_neg hq]
        simp [mapGet, hek, ih hnd']

theorem nodup_keys_filter (q : String × CacheItem → Bool) (data : List (String × CacheItem))
    (hnd : (data.map Prod.fst).Nodup) : ((data.filter q).map Prod.fst).Nodup :=
  List.Nodup.sublist ((List.filter_sublist data).map Prod.fst) hnd

theorem nodup_keys_mapSet (key : String) (item : CacheItem) (data : List (String × CacheItem))
    (hnd : (data.map Prod.fst).Nodup) : ((mapSet key item data).map Prod.fst).Nodup := by
  simp only [mapSet, List.map_cons, List.nodup_cons]
  refine ⟨?_, nodup_keys_filter _ data hnd⟩
  rw [← mapGet_eq_none_iff]
  exact mapGet_mapDelete_self key data

/-! ## Facts about the store -/

theorem WF_NewMemoryCache : NewMemoryCache.WF := by
  simp [MemoryCache.WF, NewMemoryCache]

theorem WF_Set (c : MemoryCache) (key : String) (value : GoValue) (ttl : Duration) (now : Time)
    (h : c.WF) : (c.Set key value ttl now).1.WF :=
  nodup_keys_mapSet key _ c.data h

theorem WF_Delete (c : MemoryCache) (key : String) (h : c.WF) : (c.Delete key).1.WF :=
  nodup_keys_filter _ c.data h

theorem WF_cleanupExpired (c : MemoryCache) (now : Time) (h : c.WF) :
    (c.cleanupExpired now).WF :=
  nodup_keys_filter _ c.data h

theorem WF_Get (c : MemoryCache) (key : String) (now : Time) (h : c.WF) :
    (c.Get key now).1.WF := by
  unfold MemoryCache.Get
  cases hget : mapGet key c.data with
  | none => exact h
  | some item =>
    by_cases hexp : item.IsExpired now = true
    · simp only [hexp, if_true]
      exact nodup_keys_filter _ c.data h
    · simp only [hexp, if_false]
      exact h

theorem WF_IncrBy (c : MemoryCache) (key : String) (value : Int) (now : Time) (h : c.WF) :
    (c.IncrBy key value now).1.WF := by
  unfold MemoryCache.IncrBy
  cases hget : mapGet key c.data with
  | none => exact nodup_keys_mapSet key _ c.data h
  | some item =>
    by_cases hexp : item.IsExpired now = true
    · simp only [hexp, if_true]
      exact nodup_keys_mapSet key _ c.data h
    · simp only [hexp, if_false]
      cases hv : item.Value with
      | int64 v => exact nodup_keys_mapSet key _ c.data h
      | int v => exact h
      | string v => exact h
      | other v => exact h

theorem WF_apply (c : MemoryCache) (o : Op) (h : c.WF) : (c.apply o).WF := by
  cases o with
  | Set key value ttl now => exact WF_Set c key value ttl now h
  | Get key now => exact WF_Get c key now h
  | Delete key => exact WF_Delete c key h
  | IncrBy key value now => exact WF_IncrBy c key value now h
  | cleanupExpired now => exact WF_cleanupExpired c now h

theorem WF_run (ops : List Op) (c : MemoryCache) (h : c.WF) : (c.run ops).WF := by
  induction ops generalizing c with
  | nil => exact h
  | cons o rest ih => exact ih (c.apply o) (WF_apply c o h)

/-- The entry of a key after a sweep, in a map with one entry per key. -/
theorem mapGet_cleanupExpired (c : MemoryCache) (now : Time) (k : String) (h : c.WF) :
    mapGet k (c.cleanupExpired now).data =
      (mapGet k c.data).bind (fun v => if v.IsExpired now = true then none else some v) := by
  unfold MemoryCache.cleanupExpired
  simp only
  rw [mapGet_filter _ k c.data h]
  cases mapGet k c.data with
  | none => rfl
  | some v => cases hv : v.IsExpired now <;> simp [hv]

/-- The entry of a key after `Get` of the same key. -/
theorem mapGet_Get_self (c : MemoryCache) (key : String) (now : Time) :
    mapGet key (c.Get key now).1.data =
      (mapGet key c.data).bind (fun v => if v.IsExpired now = true then none else some v) := by
  unfold MemoryCache.Get
  cases hget : mapGet key c.data with
  | none => simp [hget]
  | some item =>
    by_cases hexp : item.IsExpired now = true
    · simp [hexp, mapGet_mapDelete_self]
    · simp [hexp, hget]

/-- The method `Get` leaves the entries of the other keys as they are. -/
theorem mapGet_Get_ne (c : MemoryCache) (key k : String) (now : Time) (h : k ≠ key) :
    mapGet k (c.Get key now).1.data = mapGet k c.data := by
  unfold MemoryCache.Get
  cases hget : mapGet key c.data with
  | none => rfl
  | some item =>
    by_cases hexp : item.IsExpired now = true
    · simp [hexp, mapGet_mapDelete_ne key k c.data h]
    · simp [hexp]

/-- The method `IncrBy` leaves the entries of the other keys as they are. -/
theorem mapGet_IncrBy_ne (c : MemoryCache) (key k : String) (value : Int) (now : Time)
    (h : k ≠ key) : mapGet k (c.IncrBy key value now).1.data = mapGet k c.data := by
  unfold MemoryCache.IncrBy
  cases hget : mapGet key c.data with
  | none => simp [mapGet_mapSet_ne key k _ c.data h]
  | some item =>
    by_cases hexp : item.IsExpired now = true
    · simp [hexp, mapGet_mapSet_ne key k _ c.data h]
    · cases hv : item.Value <;> simp [hexp, hv, mapGet_mapSet_ne key k _ c.data h]

/-- Along operations that do not write to `key` and happen up to the instant `t`,
the entry of `key` stays as it is, or it has been removed and was expired at `t`. -/
theorem run_keeps (key : String) (t : Time) (item : CacheItem) (ops : List Op) (c : MemoryCache)
    (hwf : c.WF) (hops : ∀ o ∈ ops, o.keeps key t = true)
    (h : mapGet key c.data = some item ∨ (mapGet key c.data = none ∧ item.ExpiresAt < t)) :
    mapGet key (c.run ops).data = some item ∨
      (mapGet key (c.run ops).data = none ∧ item.ExpiresAt < t) := by
  induction ops generalizing c with
  | nil => exact h
  | cons o rest ih =>
    apply ih (c.apply o) (WF_apply c o hwf) (fun o' ho' => hops o' (List.mem_cons_of_mem _ ho'))
    have ho := hops o (List.mem_cons_self o rest)
    cases o with
    | Set k value ttl now =>
      have hk : key ≠ k := by
        intro hk
        simp [Op.keeps, hk] at ho
      simp only [MemoryCache.apply, MemoryCache.Set]
      rw [mapGet_mapSet_ne k key _ c.data hk]
      exact h
    | Delete k =>
      have hk : key ≠ k := by
        intro hk
        simp [Op.keeps, hk] at ho
      simp only [MemoryCache.apply, MemoryCache.Delete]
      rw [mapGet_mapDelete_ne k key c.data hk]
      exact h
    | IncrBy k value now =>
      have hk : key ≠ k := by
        intro hk
        simp [Op.keeps, hk] at ho
      simp only [MemoryCache.apply]
      rw [mapGet_IncrBy_ne c k key value now hk]
      exact h
    | Get k now =>
      simp only [MemoryCache.apply]
      by_cases hk : key = k
      · subst hk
        have hnow : now ≤ t := by simpa [Op.keeps] using ho
        rw [mapGet_Get_self]
        rcases h with hsome | ⟨hnone, hexp⟩
        · rw [hsome]
          by_cases hx : item.IsExpired now = true
          · right
            have hlt : item.ExpiresAt < now := by simpa [CacheItem.IsExpired] using hx
            exact ⟨by simp [hx], lt_of_lt_of_le hlt hnow⟩
          · left
            simp [hx]
        · right
          exact ⟨by simp [hnone], hexp⟩
      · rw [mapGet_Get_ne c k key now hk]
        exact h
    | cleanupExpired now =>
      have hnow : now ≤ t := by simpa [Op.keeps] using ho
      simp only [MemoryCache.apply]
      rw [mapGet_cleanupExpired c now key hwf]
      rcases h with hsome | ⟨hnone, hexp⟩
      · rw [hsome]
        by_cases hx : item.IsExpired now = true
        · right
          have hlt : item.ExpiresAt < now := by simpa [CacheItem.IsExpired] using hx
          exact ⟨by simp [hx], lt_of_lt_of_le hlt hnow⟩
        · left
          simp [hx]
      · right
        exact ⟨by simp [hnone], hexp⟩

/-- Operations that create no entry for a key leave an absent key absent. -/
theorem run_never_set (key : String) (ops : List Op) (c : MemoryCache)
    (hops : ∀ o ∈ ops, o.creates key = false) (h : mapGet key c.data = none) :
    mapGet key (c.run ops).data = none := by
  induction ops generalizing c with
  | nil => exact h
  | cons o rest ih =>
    apply ih (c.apply o) (fun o' ho' => hops o' (List.mem_cons_of_mem _ ho'))
    have ho := hops o (List.mem_cons_self o rest)
    cases o with
    | Set k value ttl now =>
      have hk : key ≠ k := by
        intro hk
        simp [Op.creates, hk] at ho
      simp only [MemoryCache.apply, MemoryCache.Set]
      rw [mapGet_mapSet_ne k key _ c.data hk]
      exact h
    | IncrBy k value now =>
      have hk : key ≠ k := by
        intro hk
        simp [Op.creates, hk] at ho
      simp only [MemoryCache.apply]
      rw [mapGet_IncrBy_ne c k key value now hk]
      exact h
    | Delete k =>
      simp only [MemoryCache.apply, MemoryCache.Delete]
      by_cases hk : key = k
      · rw [hk]
        exact mapGet_mapDelete_self k c.data
      · rw [mapGet_mapDelete_ne k key c.data hk]
        exact h
    | Get k now =>
      simp only [MemoryCache.apply]
      by_cases hk : key = k
      · subst hk
        rw [mapGet_Get_self, h]
        rfl
      · rw [mapGet_Get_ne c k key now hk]
        exact h
    | cleanupExpired now =>
      simp only [MemoryCache.apply, MemoryCache.cleanupExpired]
      rw [mapGet_eq_none_iff] at h ⊢
      intro hmem
      apply h
      rcases List.mem_map.mp hmem with ⟨x, hx, hxk⟩
      exact List.mem_map.mpr ⟨x, (List.mem_filter.mp hx).1, hxk⟩

/-- The method `Get` on an absent key. -/
theorem Get_absent (c : MemoryCache) (key : String) (now : Time)
    (h : mapGet key c.data = none) : c.Get key now = (c, .error .ErrKeyNotFound) := by
  simp [MemoryCache.Get, h]

/-- The method `Get` on a present key. -/
theorem Get_present (c : MemoryCache) (key : String) (now : Time) (item : CacheItem)
    (h : mapGet key c.data = some item) :
    c.Get key now =
      if item.IsExpired now = true then
        ({ data := mapDelete key c.data }, .error .ErrKeyNotFound)
      else (c, .ok item.Value) := by
  simp [MemoryCache.Get, h]

/-! ## The claims on the store -/

/-- C11: after `Set(key, value, ttl)` at `t0` on a store, followed by any
operations that do not write to `key` and happen up to the instant `t` (writes to
other keys, reads, sweeps), `Get(key)` at `t` returns the value and leaves the
store as it is when `t` is not after `t0 + ttl`; when `t` is after `t0 + ttl` it
returns `ErrKeyNotFound` and the entry is not in the store afterwards, whether or
not a sweep has run. `Get` on a key for which no entry was ever created returns
`ErrKeyNotFound` and leaves the store as it is. -/
theorem C11_get_after_set (c : MemoryCache) (key : String) (value : GoValue) (ttl : Duration)
    (t0 t : Time) (ops : List Op) (hwf : c.WF) (hops : ∀ o ∈ ops, o.keeps key t = true) :
    (t ≤ t0 + ttl →
      ((c.Set key value ttl t0).1.run ops).Get key t =
        ((c.Set key value ttl t0).1.run ops, .ok value)) ∧
    (t0 + ttl < t →
      (((c.Set key value ttl t0).1.run ops).Get key t).2 = .error .ErrKeyNotFound ∧
      mapGet key (((c.Set key value ttl t0).1.run ops).Get key t).1.data = none ∧
      key ∉ ((((c.Set key value ttl t0).1.run ops).Get key t).1.Keys "").1) ∧
    (∀ (ops' : List Op) (k : String) (now : Time), (∀ o ∈ ops', o.creates k = false) →
      (NewMemoryCache.run ops').Get k now = (NewMemoryCache.run ops', .error .ErrKeyNotFound)) := by
  have hinv := run_keeps key t ⟨value, t0 + ttl⟩ ops (c.Set key value ttl t0).1
    (WF_Set c key value ttl t0 hwf) hops
    (Or.inl (by simp [MemoryCache.Set, mapGet_mapSet_self]))
  refine ⟨?_, ?_, ?_⟩
  · intro hle
    rcases hinv with hsome | ⟨_, hexp⟩
    · rw [Get_present _ key t _ hsome]
      have hx : ¬ (CacheItem.mk value (t0 + ttl)).IsExpired t = true := by
        simpa [CacheItem.IsExpired] using hle
      simp [hx]
    · exact absurd hexp (not_lt.mpr hle)
  · intro hlt
    have hx : (CacheItem.mk value (t0 + ttl)).IsExpired t = true := by
      simpa [CacheItem.IsExpired] using hlt
    have hres : (((c.Set key value ttl t0).1.run ops).Get key t).2 = .error .ErrKeyNotFound ∧
        mapGet key (((c.Set key value ttl t0).1.run ops).Get key t).1.data = none := by
      rcases hinv with hsome | ⟨hnone, _⟩
      · rw [Get_present _ key t _ hsome]
        simp [hx, mapGet_mapDelete_self]
      · rw [Get_absent _ key t hnone]
        exact ⟨rfl, hnone⟩
    refine ⟨hres.1, hres.2, ?_⟩
    exact (mapGet_eq_none_iff key _).mp hres.2
  · intro ops' k now hops'
    exact Get_absent _ k now (run_never_set k ops' NewMemoryCache hops' rfl)

/-- Witness of C11: a value set at instant 10 with TTL 5, a sweep at 12, read at 14. -/
theorem C11_get_after_set_witness :
    NewMemoryCache.WF ∧
    (∀ o ∈ [Op.cleanupExpired 12, Op.Set "other" (.int 1) 1 13], o.keeps "k" 14 = true) ∧
    ((NewMemoryCache.Set "k" (.string "v") 5 10).1.run
        [Op.cleanupExpired 12, Op.Set "other" (.int 1) 1 13]).Get "k" 14 =
      ((NewMemoryCache.Set "k" (.string "v") 5 10).1.run
        [Op.cleanupExpired 12, Op.Set "other" (.int 1) 1 13], .ok (.string "v")) :=
  ⟨WF_NewMemoryCache, by decide,
    (C11_get_after_set NewMemoryCache "k" (.string "v") 5 10 14
      [Op.cleanupExpired 12, Op.Set "other" (.int 1) 1 13] WF_NewMemoryCache (by decide)).1
      (by decide)⟩

/-- C12: `Set(key, value, ttl)` at instant `now` returns no error, makes the entry
of `key` equal to `(value, now + ttl)` whether or not the key was present, and
leaves the entry of every other key as it was. -/
theorem C12_set_overwrites_key_only (c : MemoryCache) (key : String) (value : GoValue)
    (ttl : Duration) (now : Time) :
    (c.Set key value ttl now).2 = none ∧
    mapGet key (c.Set key value ttl now).1.data = some ⟨value, now + ttl⟩ ∧
    (∀ k, k ≠ key → mapGet k (c.Set key value ttl now).1.data = mapGet k c.data) := by
  refine ⟨rfl, ?_, ?_⟩
  · simp [MemoryCache.Set, mapGet_mapSet_self]
  · intro k hk
    simp [MemoryCache.Set, mapGet_mapSet_ne key k _ c.data hk]

/-- Wrapping gives a value in the range of `int64` that differs from the exact
value by a multiple of `2^64`, and is the exact value when that is in range. -/
theorem wrapInt64_spec (x : Int) :
    inInt64 (wrapInt64 x) ∧ (wrapInt64 x - x) % 2 ^ 64 = 0 ∧ (inInt64 x → wrapInt64 x = x) := by
  unfold inInt64 wrapInt64
  refine ⟨⟨?_, ?_⟩, ?_, ?_⟩
  · have := Int.emod_nonneg (x + 2 ^ 63) (by norm_num : (2 : Int) ^ 64 ≠ 0)
    omega
  · have := Int.emod_lt_of_pos (x + 2 ^ 63) (by norm_num : (0 : Int) < 2 ^ 64)
    omega
  · omega
  · intro h
    omega

/-- The method `IncrBy` on a key that is absent or whose entry is expired. -/
theorem IncrBy_fresh (c : MemoryCache) (key : String) (value : Int) (now : Time)
    (h : mapGet key c.data = none ∨
      ∃ item, mapGet key c.data = some item ∧ item.IsExpired now = true) :
    c.IncrBy key value now =
      ({ data := mapSet key ⟨.int64 value, now + Hour⟩ c.data }, value, none) := by
  rcases h with hnone | ⟨item, hsome, hexp⟩
  · simp [MemoryCache.IncrBy, hnone]
  · simp [MemoryCache.IncrBy, hsome, hexp]

/-- The method `IncrBy` on a present, unexpired entry that holds an `int64`. -/
theorem IncrBy_counter (c : MemoryCache) (key : String) (value : Int) (now : Time)
    (item : CacheItem) (cur : Int) (hsome : mapGet key c.data = some item)
    (hexp : item.IsExpired now = false) (hv : item.Value = .int64 cur) :
    c.IncrBy key value now =
      ({ data := mapSet key ⟨.int64 (wrapInt64 (cur + value)), item.ExpiresAt⟩ c.data },
        wrapInt64 (cur + value), none) := by
  simp [MemoryCache.IncrBy, hsome, hexp, hv]

/-- The method `IncrBy` on a present, unexpired entry that does not hold an `int64`. -/
theorem IncrBy_mismatch (c : MemoryCache) (key : String) (value : Int) (now : Time)
    (item : CacheItem) (hsome : mapGet key c.data = some item)
    (hexp : item.IsExpired now = false) (hv : ∀ cur, item.Value ≠ .int64 cur) :
    c.IncrBy key value now = (c, 0, some .ErrInvalidType) := by
  cases hval : item.Value with
  | int64 cur => exact absurd hval (hv cur)
  | int v => simp [MemoryCache.IncrBy, hsome, hexp, hval]
  | string v => simp [MemoryCache.IncrBy, hsome, hexp, hval]
  | other v => simp [MemoryCache.IncrBy, hsome, hexp, hval]

/-- C13: `IncrBy(key, delta)` at instant `now`, for an `int64` `delta`. If the key
is absent or its entry is expired, it returns `delta` (`0 + delta`) and stores it
as an `int64` counter that expires at `now + 1 hour`. If the key holds an
unexpired `int64` `cur`, it returns `cur + delta` wrapped modulo `2^64`, stores
that result and keeps the entry's expiration. The wrapped value is in the range
of `int64`, congruent to the exact sum modulo `2^64`, and equal to it when the sum
is in range. Hence on an absent key `IncrBy(key, 1)` returns 1, and a second
`IncrBy(key, 1)`, made before the counter created by the first has expired,
returns 2 and leaves 2 stored with the first call's expiration. -/
theorem C13_incrby_counter (c : MemoryCache) (key : String) (delta : Int) (now : Time)
    (hd : inInt64 delta) :
    ((mapGet key c.data = none ∨
        ∃ item, mapGet key c.data = some item ∧ item.IsExpired now = true) →
      (c.IncrBy key delta now).2 = (wrapInt64 (0 + delta), none) ∧
      (c.IncrBy key delta now).2.1 = delta ∧
      mapGet key (c.IncrBy key delta now).1.data = some ⟨.int64 delta, now + Hour⟩) ∧
    (∀ (item : CacheItem) (cur : Int), mapGet key c.data = some item →
      item.IsExpired now = false → item.Value = .int64 cur →
      (c.IncrBy key delta now).2 = (wrapInt64 (cur + delta), none) ∧
      mapGet key (c.IncrBy key delta now).1.data =
        some ⟨.int64 (wrapInt64 (cur + delta)), item.ExpiresAt⟩ ∧
      inInt64 (wrapInt64 (cur + delta)) ∧
      (wrapInt64 (cur + delta) - (cur + delta)) % 2 ^ 64 = 0 ∧
      (inInt64 (cur + delta) → wrapInt64 (cur + delta) = cur + delta)) ∧
    (∀ k, k ≠ key → mapGet k (c.IncrBy key delta now).1.data = mapGet k c.data) ∧
    (∀ now2 : Time, mapGet key c.data = none → now2 ≤ now + Hour →
      (c.IncrBy key 1 now).2 = (1, none) ∧
      ((c.IncrBy key 1 now).1.IncrBy key 1 now2).2 = (2, none) ∧
      mapGet key ((c.IncrBy key 1 now).1.IncrBy key 1 now2).1.data =
        some ⟨.int64 2, now + Hour⟩) := by
  refine ⟨?_, ?_, ?_, ?_⟩
  · intro h
    rw [IncrBy_fresh c key delta now h]
    refine ⟨?_, rfl, mapGet_mapSet_self key _ c.data⟩
    have hw := (wrapInt64_spec (0 + delta)).2.2 (by simpa using hd)
    rw [hw]
    simp
  · intro item cur hsome hexp hv
    rw [IncrBy_counter c key delta now item cur hsome hexp hv]
    have hw := wrapInt64_spec (cur + delta)
    exact ⟨rfl, mapGet_mapSet_self key _ c.data, hw.1, hw.2.1, hw.2.2⟩
  · intro k hk
    exact mapGet_IncrBy_ne c key k delta now hk
  · intro now2 hnone hnow2
    have hfirst := IncrBy_fresh c key 1 now (Or.inl hnone)
    rw [hfirst]
    have hexp : (CacheItem.mk (.int64 1) (now + Hour)).IsExpired now2 = false := by
      simpa [CacheItem.IsExpired] using hnow2
    have hsecond := IncrBy_counter
      { data := mapSet key ⟨.int64 1, now + Hour⟩ c.data } key 1 now2
      ⟨.int64 1, now + Hour⟩ 1 (mapGet_mapSet_self key _ c.data) hexp rfl
    have h2 : wrapInt64 (1 + 1) = 2 := by decide
    rw [h2] at hsecond
    refine ⟨rfl, ?_, ?_⟩
    · show (MemoryCache.IncrBy { data := mapSet key ⟨.int64 1, now + Hour⟩ c.data }
        key 1 now2).2 = (2, none)
      rw [hsecond]
    · show mapGet key (MemoryCache.IncrBy { data := mapSet key ⟨.int64 1, now + Hour⟩ c.data }
        key 1 now2).1.data = some ⟨.int64 2, now + Hour⟩
      rw [hsecond]
      exact mapGet_mapSet_self key _ _

/-- Witness of C13: two increments by 1 of an absent key, at instants 0 and 7. -/
theorem C13_incrby_counter_witness :
    inInt64 1 ∧ mapGet "hits" NewMemoryCache.data = none ∧ (7 : Time) ≤ 0 + Hour ∧
    (NewMemoryCache.IncrBy "hits" 1 0).2 = (1, none) ∧
    ((NewMemoryCache.IncrBy "hits" 1 0).1.IncrBy "hits" 1 7).2 = (2, none) ∧
    mapGet "hits" ((NewMemoryCache.IncrBy "hits" 1 0).1.IncrBy "hits" 1 7).1.data =
      some ⟨.int64 2, 0 + Hour⟩ :=
  ⟨⟨by decide, by decide⟩, rfl, by decide,
    (C13_incrby_counter NewMemoryCache "hits" 1 0 ⟨by decide, by decide⟩).2.2.2 7 rfl
      (by decide)⟩

/-- C14, as stated, fails: an unexpired entry that holds the number 5 with
dynamic type `int` makes `IncrBy` fail with `ErrInvalidType`, although the value
is numeric. -/
theorem C14_counterexample :
    mapGet "n" (NewMemoryCache.Set "n" (.int 5) 10 0).1.data = some ⟨.int 5, 10⟩ ∧
    (CacheItem.mk (.int 5) 10).IsExpired 5 = false ∧
    (GoValue.int 5).isNumeric = true ∧
    ((NewMemoryCache.Set "n" (.int 5) 10 0).1.IncrBy "n" 1 5).2 = (0, some .ErrInvalidType) := by
  decide

/-- C14, amended: `IncrBy` fails with `ErrInvalidType` if and only if the key is
present, unexpired and holds a value whose dynamic type is not `int64` (a number
of another type, such as `int`, included); in that case it returns 0 and leaves
the whole store unchanged. In every other case it returns no error. -/
theorem C14_incrby_type_mismatch (c : MemoryCache) (key : String) (delta : Int) (now : Time) :
    ((c.IncrBy key delta now).2.2 = some .ErrInvalidType ↔
      ∃ item, mapGet key c.data = some item ∧ item.IsExpired now = false ∧
        ∀ cur, item.Value ≠ .int64 cur) ∧
    ((c.IncrBy key delta now).2.2 = some .ErrInvalidType →
      c.IncrBy key delta now = (c, 0, some .ErrInvalidType)) ∧
    ((c.IncrBy key delta now).2.2 ≠ some .ErrInvalidType → (c.IncrBy key delta now).2.2 = none) := by
  cases hget : mapGet key c.data with
  | none =>
    rw [IncrBy_fresh c key delta now (Or.inl hget)]
    simp
  | some item =>
    cases hexp : item.IsExpired now with
    | true =>
      rw [IncrBy_fresh c key delta now (Or.inr ⟨item, hget, hexp⟩)]
      simp [hexp]
    | false =>
      by_cases hv : ∃ cur, item.Value = .int64 cur
      · obtain ⟨cur, hcur⟩ := hv
        rw [IncrBy_counter c key delta now item cur hget hexp hcur]
        simp [hexp, hcur]
      · have hv' : ∀ cur, item.Value ≠ .int64 cur := fun cur h => hv ⟨cur, h⟩
        rw [IncrBy_mismatch c key delta now item hget hexp hv']
        simp [hexp, hv']

/-- In a map with one entry per key, every entry is the one its key reads. -/
theorem mapGet_of_mem (data : List (String × CacheItem)) (hnd : (data.map Prod.fst).Nodup)
    (e : String × CacheItem) (he : e ∈ data) : mapGet e.1 data = some e.2 := by
  induction data with
  | nil => cases he
  | cons x rest ih =>
    have hnd' : (rest.map Prod.fst).Nodup := (List.nodup_cons.mp hnd).2
    have hnot : x.1 ∉ rest.map Prod.fst := (List.nodup_cons.mp hnd).1
    rcases List.mem_cons.mp he with hx | hr
    · subst hx
      simp [mapGet]
    · have hne : ¬ x.1 = e.1 := by
        intro hxe
        apply hnot
        rw [hxe]
        exact List.mem_map.mpr ⟨e, hr, rfl⟩
      simp [mapGet, hne, ih hnd' hr]

/-- The result of `Get` in terms of the entry of the key. -/
theorem Get_result (c : MemoryCache) (key : String) (now : Time) :
    (c.Get key now).2 =
      match mapGet key c.data with
      | none => .error .ErrKeyNotFound
      | some item => if item.IsExpired now = true then .error .ErrKeyNotFound else .ok item.Value := by
  unfold MemoryCache.Get
  cases hget : mapGet key c.data with
  | none => rfl
  | some item =>
    by_cases hexp : item.IsExpired now = true
    · simp [hexp]
    · simp [hexp]

/-- C15: in a store with one entry per key, `Keys(pattern)` returns no error and,
whatever the pattern, a list without repetition of exactly the keys that have an
entry in the store, whether or not the entry is expired and whether or not the
key matches the pattern; its length is `Size()`. The method reads the store only:
it returns no new store. -/
theorem C15_keys_lists_every_key (c : MemoryCache) (pattern : String) (hwf : c.WF) :
    (c.Keys pattern).2 = none ∧
    (c.Keys pattern).1.Nodup ∧
    (∀ k, k ∈ (c.Keys pattern).1 ↔ ∃ item, mapGet k c.data = some item) ∧
    (c.Keys pattern).1 = (c.Keys "").1 ∧
    (c.Keys pattern).1.length = c.Size := by
  refine ⟨rfl, hwf, ?_, rfl, ?_⟩
  · intro k
    have h := mapGet_eq_none_iff k c.data
    constructor
    · intro hk
      cases hget : mapGet k c.data with
      | none => exact absurd hk (h.mp hget)
      | some item => exact ⟨item, rfl⟩
    · intro ⟨item, hitem⟩
      by_contra hk
      rw [h.mpr hk] at hitem
      cases hitem
  · simp [MemoryCache.Keys, MemoryCache.Size]

/-- Witness of C15: a store with an expired entry and an unrelated key. -/
theorem C15_keys_lists_every_key_witness :
    ((NewMemoryCache.Set "banner:1" (.string "x") (-5) 0).1.Set "stats:2" (.int 3) 9 0).1.WF ∧
    (((NewMemoryCache.Set "banner:1" (.string "x") (-5) 0).1.Set "stats:2" (.int 3) 9 0).1.Keys
      "banner:*").1 = ["stats:2", "banner:1"] ∧
    (((NewMemoryCache.Set "banner:1" (.string "x") (-5) 0).1.Set "stats:2" (.int 3) 9 0).1.Keys
      "banner:*").1.length =
      ((NewMemoryCache.Set "banner:1" (.string "x") (-5) 0).1.Set "stats:2" (.int 3) 9 0).1.Size :=
  ⟨WF_Set _ _ _ _ _ (WF_Set _ _ _ _ _ WF_NewMemoryCache), by decide,
    (C15_keys_lists_every_key
      ((NewMemoryCache.Set "banner:1" (.string "x") (-5) 0).1.Set "stats:2" (.int 3) 9 0).1
      "banner:*" (WF_Set _ _ _ _ _ (WF_Set _ _ _ _ _ WF_NewMemoryCache))).2.2.2.2⟩

/-- C16, as stated, fails: an entry with `expiresAt = now` is not deleted by a
sweep run at `now`. -/
theorem C16_counterexample :
    mapGet "k" (NewMemoryCache.Set "k" (.string "v") 5 0).1.data = some ⟨.string "v", 5⟩ ∧
    mapGet "k" ((NewMemoryCache.Set "k" (.string "v") 5 0).1.cleanupExpired 5).data =
      some ⟨.string "v", 5⟩ := by
  decide

/-- C16, amended: a sweep (`cleanupExpired`) run at instant `now` deletes every
entry with `expiresAt < now` and no entry with `expiresAt >= now`: the entries
after the sweep are exactly the entries before it whose expiration is not before
`now`, in the same order. -/
theorem C16_sweep_deletes_expired (c : MemoryCache) (now : Time) :
    (∀ e, e ∈ (c.cleanupExpired now).data ↔ e ∈ c.data ∧ now ≤ e.2.ExpiresAt) ∧
    (∀ e ∈ c.data, e.2.ExpiresAt < now → e ∉ (c.cleanupExpired now).data) ∧
    (∀ e ∈ c.data, now ≤ e.2.ExpiresAt → e ∈ (c.cleanupExpired now).data) ∧
    (c.cleanupExpired now).data.Sublist c.data := by
  have hmem : ∀ e, e ∈ (c.cleanupExpired now).data ↔ e ∈ c.data ∧ now ≤ e.2.ExpiresAt := by
    intro e
    simp [MemoryCache.cleanupExpired, List.mem_filter, CacheItem.IsExpired]
  refine ⟨hmem, ?_, ?_, ?_⟩
  · intro e _ hlt hin
    exact absurd hlt (not_lt.mpr ((hmem e).mp hin).2)
  · intro e he hle
    exact (hmem e).mpr ⟨he, hle⟩
  · exact List.filter_sublist c.data

/-- C17: after a sweep run at instant `now` on a store with one entry per key, no
entry that `Get` at `now` reports as not found remains; `Size()` is the number of
keys for which `Get` at `now` succeeds; every such key keeps its entry, value and
expiration; and `Get` at `now` returns the same result for every key before and
after the sweep. -/
theorem C17_sweep_agrees_with_get (c : MemoryCache) (now : Time) (hwf : c.WF) :
    (∀ k, ((c.cleanupExpired now).Get k now).2 = (c.Get k now).2) ∧
    (∀ k, (c.Get k now).2 = .error .ErrKeyNotFound →
      mapGet k (c.cleanupExpired now).data = none) ∧
    (∀ k v, (c.Get k now).2 = .ok v →
      mapGet k (c.cleanupExpired now).data = mapGet k c.data) ∧
    (c.cleanupExpired now).Size =
      ((c.Keys "").1.filter (fun k => (c.Get k now).2.isOk)).length ∧
    (∀ k ∈ ((c.cleanupExpired now).Keys "").1, ((c.cleanupExpired now).Get k now).2.isOk = true) := by
  have hsame : ∀ k, ((c.cleanupExpired now).Get k now).2 = (c.Get k now).2 := by
    intro k
    rw [Get_result, Get_result, mapGet_cleanupExpired c now k hwf]
    cases hget : mapGet k c.data with
    | none => rfl
    | some item =>
      by_cases hexp : item.IsExpired now = true
      · simp [hexp]
      · simp [hexp]
  have hok : ∀ e ∈ c.data, (c.Get e.1 now).2.isOk = !e.2.IsExpired now := by
    intro e he
    rw [Get_result, mapGet_of_mem c.data hwf e he]
    by_cases hexp : e.2.IsExpired now = true
    · simp [hexp, Except.isOk, Except.toBool]
    · simp [hexp, Except.isOk, Except.toBool]
  refine ⟨hsame, ?_, ?_, ?_, ?_⟩
  · intro k hk
    rw [Get_result] at hk
    rw [mapGet_cleanupExpired c now k hwf]
    cases hget : mapGet k c.data with
    | none => rfl
    | some item =>
      rw [hget] at hk
      by_cases hexp : item.IsExpired now = true
      · simp [hexp]
      · simp [hexp] at hk
  · intro k v hk
    rw [Get_result] at hk
    rw [mapGet_cleanupExpired c now k hwf]
    cases hget : mapGet k c.data with
    | none => rfl
    | some item =>
      rw [hget] at hk
      by_cases hexp : item.IsExpired now = true
      · simp [hexp] at hk
      · simp [hexp]
  · simp only [MemoryCache.Size, MemoryCache.Keys, MemoryCache.cleanupExpired]
    rw [List.filter_map, List.length_map]
    congr 1
    apply List.filter_congr
    intro e he
    simp [hok e he]
  · intro k hk
    rw [hsame k]
    simp only [MemoryCache.Keys, MemoryCache.cleanupExpired] at hk
    rcases List.mem_map.mp hk with ⟨e, he, rfl⟩
    have hmem := List.mem_filter.mp he
    rw [hok e hmem.1]
    exact hmem.2

/-- Witness of C17: a sweep at instant 6 of a store with one live and one expired entry. -/
theorem C17_sweep_agrees_with_get_witness :
    ((NewMemoryCache.Set "a" (.string "x") 5 0).1.Set "b" (.int 3) 9 0).1.WF ∧
    (((NewMemoryCache.Set "a" (.string "x") 5 0).1.Set "b" (.int 3) 9 0).1.cleanupExpired 6).Size
      = ((((NewMemoryCache.Set "a" (.string "x") 5 0).1.Set "b" (.int 3) 9 0).1.Keys "").1.filter
          (fun k => (((NewMemoryCache.Set "a" (.string "x") 5 0).1.Set "b" (.int 3) 9 0).1.Get
            k 6).2.isOk)).length :=
  ⟨WF_Set _ _ _ _ _ (WF_Set _ _ _ _ _ WF_NewMemoryCache),
    (C17_sweep_agrees_with_get
      ((NewMemoryCache.Set "a" (.string "x") 5 0).1.Set "b" (.int 3) 9 0).1 6
      (WF_Set _ _ _ _ _ (WF_Set _ _ _ _ _ WF_NewMemoryCache))).2.2.2.1⟩

/-! ## Facts about the keys -/

theorem digitChar_inj (a b : Nat) (ha : a < 10) (hb : b < 10)
    (h : Nat.digitChar a = Nat.digitChar b) : a = b := by
  interval_cases a <;> interval_cases b <;> first | rfl | (exfalso; revert h; decide)

theorem digitChar_ne_sep (a : Nat) (ha : a < 10) :
    Nat.digitChar a ≠ '-' ∧ Nat.digitChar a ≠ ':' := by
  interval_cases a <;> decide

theorem map_digitChar_inj (xs ys : List Nat) (hx : ∀ d ∈ xs, d < 10) (hy : ∀ d ∈ ys, d < 10)
    (h : xs.map Nat.digitChar = ys.map Nat.digitChar) : xs = ys := by
  induction xs generalizing ys with
  | nil =>
    cases ys with
    | nil => rfl
    | cons y ys => simp at h
  | cons x xs ih =>
    cases ys with
    | nil => simp at h
    | cons y ys =>
      simp only [List.map_cons, List.cons.injEq] at h
      have hxy := digitChar_inj x y (hx x (List.mem_cons_self x xs))
        (hy y (List.mem_cons_self y ys)) h.1
      have hrest := ih ys (fun d hd => hx d (List.mem_cons_of_mem _ hd))
        (fun d hd => hy d (List.mem_cons_of_mem _ hd)) h.2
      rw [hxy, hrest]

/-- The digits that `decimal` renders, least significant first. -/
theorem decimal_eq (n : Nat) :
    decimal n = ((if n = 0 then [0] else Nat.digits 10 n).reverse.map Nat.digitChar) := by
  unfold decimal
  by_cases h : n = 0
  · simp [h]
  · simp [h]

theorem decimal_digits_lt (n : Nat) :
    ∀ d ∈ (if n = 0 then [0] else Nat.digits 10 n), d < 10 := by
  intro d hd
  by_cases h : n = 0
  · simp [h] at hd
    omega
  · simp only [h, if_false] at hd
    exact Nat.digits_lt_base (by norm_num) hd

theorem decimal_ofDigits (n : Nat) :
    Nat.ofDigits 10 (if n = 0 then [0] else Nat.digits 10 n) = n := by
  by_cases h : n = 0
  · simp [h, Nat.ofDigits]
  · simp only [h, if_false]
    exact Nat.ofDigits_digits 10 n

theorem decimal_inj (a b : Nat) (h : decimal a = decimal b) : a = b := by
  rw [decimal_eq, decimal_eq] at h
  have hrev := map_digitChar_inj _ _
    (fun d hd => decimal_digits_lt a d (List.mem_reverse.mp hd))
    (fun d hd => decimal_digits_lt b d (List.mem_reverse.mp hd)) h
  have hlist := List.reverse_injective hrev
  rw [← decimal_ofDigits a, ← decimal_ofDigits b, hlist]

/-- The characters of `decimal n` are digits: neither a minus sign nor a colon. -/
theorem decimal_chars (n : Nat) : ∀ ch ∈ decimal n, ch ≠ '-' ∧ ch ≠ ':' := by
  intro ch hch
  rw [decimal_eq] at hch
  rcases List.mem_map.mp hch with ⟨d, hd, rfl⟩
  exact digitChar_ne_sep d (decimal_digits_lt n d (List.mem_reverse.mp hd))

theorem formatInt_inj (a b : Int) (h : formatInt a = formatInt b) : a = b := by
  unfold formatInt at h
  have hd := congrArg String.data h
  by_cases ha : a < 0
  · by_cases hb : b < 0
    · simp only [ha, hb, if_true, List.cons.injEq, true_and] at hd
      have := decimal_inj _ _ hd
      omega
    · simp only [ha, hb, if_true, if_false] at hd
      have hmem : '-' ∈ decimal b.natAbs := by
        rw [← hd]
        exact List.mem_cons_self _ _
      exact absurd rfl (decimal_chars _ _ hmem).1
  · by_cases hb : b < 0
    · simp only [ha, hb, if_true, if_false] at hd
      have hmem : '-' ∈ decimal a.natAbs := by
        rw [hd]
        exact List.mem_cons_self _ _
      exact absurd rfl (decimal_chars _ _ hmem).1
    · simp only [ha, hb, if_false] at hd
      have := decimal_inj _ _ hd
      omega

/-- The rendering of an integer holds no colon. -/
theorem formatInt_no_colon (a : Int) : ':' ∉ (formatInt a).data := by
  unfold formatInt
  by_cases ha : a < 0
  · simp only [ha, if_true]
    intro hmem
    rcases List.mem_cons.mp hmem with h | h
    · exact absurd h (by decide)
    · exact absurd rfl (decimal_chars _ _ h).2
  · simp only [ha, if_false]
    intro hmem
    exact absurd rfl (decimal_chars _ _ hmem).2

/-- Two lists that are cut at their first colon and are equal have equal parts. -/
theorem split_at_sep (ch : Char) (xs xs' ys ys' : List Char) (hx : ch ∉ xs) (hx' : ch ∉ xs')
    (h : xs ++ ch :: ys = xs' ++ ch :: ys') : xs = xs' ∧ ys = ys' := by
  induction xs generalizing xs' with
  | nil =>
    cases xs' with
    | nil => simpa using h
    | cons y rest =>
      simp only [List.nil_append, List.cons_append, List.cons.injEq] at h
      exact absurd (List.mem_cons.mpr (Or.inl h.1)) hx'
  | cons x rest ih =>
    cases xs' with
    | nil =>
      simp only [List.nil_append, List.cons_append, List.cons.injEq] at h
      exact absurd (List.mem_cons.mpr (Or.inl h.1.symm)) hx
    | cons y rest' =>
      simp only [List.cons_append, List.cons.injEq] at h
      have hrec := ih rest' (fun hm => hx (List.mem_cons_of_mem _ hm))
        (fun hm => hx' (List.mem_cons_of_mem _ hm)) h.2
      exact ⟨by rw [h.1, hrec.1], hrec.2⟩

/-! ## The document of a banner -/

theorem digitChar_digit (d : Nat) (hd : d < 10) :
    (Nat.digitChar d).isDigit = true ∧ (Nat.digitChar d).toNat - '0'.toNat = d ∧
      Nat.digitChar d ≠ ',' := by
  interval_cases d <;> decide

theorem foldl_digits (ds : List Nat) (hds : ∀ d ∈ ds, d < 10) (acc : Nat) :
    (ds.map Nat.digitChar).foldl (fun acc ch => 10 * acc + (ch.toNat - '0'.toNat)) acc =
      ds.foldl (fun a d => 10 * a + d) acc := by
  induction ds generalizing acc with
  | nil => rfl
  | cons d ds ih =>
    simp only [List.map_cons, List.foldl_cons]
    rw [(digitChar_digit d (hds d (List.mem_cons_self _ _))).2.1]
    exact ih (fun x hx => hds x (List.mem_cons_of_mem _ hx)) _

theorem foldl_reverse_ofDigits (ds : List Nat) :
    ds.reverse.foldl (fun a d => 10 * a + d) 0 = Nat.ofDigits 10 ds := by
  induction ds with
  | nil => rfl
  | cons d ds ih =>
    simp only [List.reverse_cons, List.foldl_append, List.foldl_cons, List.foldl_nil, ih,
      Nat.ofDigits_cons]
    omega

theorem parseNat_decimal (n : Nat) : parseNat (decimal n) = some n := by
  have hlt := decimal_digits_lt n
  have hof := decimal_ofDigits n
  have hne : (if n = 0 then [0] else Nat.digits 10 n) ≠ [] := by
    by_cases h : n = 0
    · simp [h]
    · simp only [h, if_false]
      exact (Nat.digits_ne_nil_iff_ne_zero).mpr h
  rw [decimal_eq]
  generalize (if n = 0 then [0] else Nat.digits 10 n) = ds at hlt hne hof ⊢
  have hall : ((ds.reverse.map Nat.digitChar).all Char.isDigit) = true := by
    rw [List.all_eq_true]
    intro ch hch
    rcases List.mem_map.mp hch with ⟨d, hd, rfl⟩
    exact (digitChar_digit d (hlt d (List.mem_reverse.mp hd))).1
  have hne2 : ds.reverse.map Nat.digitChar ≠ [] := by
    simpa using hne
  unfold parseNat
  rw [if_pos ⟨hne2, hall⟩, foldl_digits _ (fun d hd => hlt d (List.mem_reverse.mp hd)),
    foldl_reverse_ofDigits, hof]

/-- The characters of `decimal n` are digits: no comma. -/
theorem decimal_no_comma (n : Nat) : ∀ ch ∈ decimal n, ch ≠ ',' := by
  intro ch hch
  rw [decimal_eq] at hch
  rcases List.mem_map.mp hch with ⟨d, hd, rfl⟩
  exact (digitChar_digit d (decimal_digits_lt n d (List.mem_reverse.mp hd))).2.2

theorem decimal_head (n : Nat) : (decimal n).head? ≠ some '-' := by
  intro h
  cases hd : decimal n with
  | nil => rw [hd] at h; simp at h
  | cons x xs =>
    rw [hd] at h
    simp only [List.head?_cons, Option.some.injEq] at h
    have := (decimal_chars n x (by rw [hd]; exact List.mem_cons_self _ _)).1
    exact this h

theorem parseInt_formatInt (i : Int) : parseInt (formatInt i).data = some i := by
  unfold formatInt parseInt
  by_cases hi : i < 0
  · simp only [hi, if_true, List.head?_cons, List.tail_cons, parseNat_decimal, Option.map_some']
    simp only [Option.some.injEq, Int.ofNat_eq_coe]
    omega
  · simp only [hi, if_false, decimal_head, parseNat_decimal, Option.map_some']
    simp only [Option.some.injEq, Int.ofNat_eq_coe]
    omega

theorem formatInt_no_comma (a : Int) : ',' ∉ (formatInt a).data := by
  unfold formatInt
  by_cases ha : a < 0
  · simp only [ha, if_true]
    intro hmem
    rcases List.mem_cons.mp hmem with h | h
    · exact absurd h (by decide)
    · exact absurd rfl (decimal_no_comma _ _ h)
  · simp only [ha, if_false]
    intro hmem
    exact absurd rfl (decimal_no_comma _ _ hmem)

theorem field_append (xs rest : List Char) (hx : ',' ∉ xs) :
    field (xs ++ ',' :: rest) = some (xs, rest) := by
  have hall : ∀ ch ∈ xs, (ch != ',') = true := by
    intro ch hch
    simp only [bne_iff_ne, ne_eq]
    intro h
    exact hx (h ▸ hch)
  have hd : (xs ++ ',' :: rest).dropWhile (fun ch => ch != ',') = ',' :: rest := by
    induction xs with
    | nil => simp [List.dropWhile]
    | cons x xs ih =>
      have hx1 : (x != ',') = true := hall x (List.mem_cons_self _ _)
      simp only [List.cons_append, List.dropWhile_cons, hx1, if_true]
      exact ih (fun h => hx (List.mem_cons_of_mem _ h))
        (fun ch hch => hall ch (List.mem_cons_of_mem _ hch))
  have ht : (xs ++ ',' :: rest).takeWhile (fun ch => ch != ',') = xs := by
    clear hd
    induction xs with
    | nil => simp [List.takeWhile]
    | cons x xs ih =>
      have hx1 : (x != ',') = true := hall x (List.mem_cons_self _ _)
      simp only [List.cons_append, List.takeWhile_cons, hx1, if_true]
      rw [ih (fun h => hx (List.mem_cons_of_mem _ h))
        (fun ch hch => hall ch (List.mem_cons_of_mem _ hch))]
  unfold field
  rw [hd, ht]

theorem parseBool_flag (a : Bool) :
    parseBool (if a then "true" else "false").data = some a ∧
      ',' ∉ (if a then "true" else "false").data := by
  cases a <;> exact ⟨by decide, by decide⟩

/-- Decoding the document of a banner gives the banner back. -/
theorem decodeBanner_encodeBanner (b : banner.Banner) :
    decodeBanner (encodeBanner b) = .ok b := by
  have hdata : (encodeBanner b).data =
      (formatInt b.ID).data ++ ',' :: ((formatInt b.CreatedAt).data ++ ',' ::
        ((formatInt b.UpdatedAt).data ++ ',' ::
          ((if b.IsActive then "true" else "false").data ++ ',' :: b.Name.data))) := by
    simp [encodeBanner, String.data_append]
  unfold decodeBanner
  rw [hdata]
  simp only [Option.bind_eq_bind, Option.pure_def,
    field_append _ _ (formatInt_no_comma _), field_append _ _ (parseBool_flag _).2,
    Option.some_bind, parseInt_formatInt, (parseBool_flag _).1]

/-! ## The claims on the keys -/

/-- C18: `bannerKey(id)` is the string "banner:" followed by the decimal rendering
of `id` (a function of `id` only), and for all identifiers `a` and `b`, those of
`int64` included, `bannerKey(a) = bannerKey(b)` if and only if `a = b`. -/
theorem C18_bannerKey_collision_free (a b : Int) :
    bannerKey a = "banner:" ++ formatInt a ∧
    (bannerKey a = bannerKey b ↔ a = b) ∧
    bannerKey 7 = "banner:7" ∧ bannerKey 0 = "banner:0" ∧ bannerKey (-12) = "banner:-12" ∧
    bannerKey 9223372036854775807 = "banner:9223372036854775807" := by
  refine ⟨rfl, ⟨?_, fun h => by rw [h]⟩, ?_, ?_, ?_, ?_⟩
  · intro h
    have hdata := congrArg String.data h
    simp only [bannerKey, String.data_append] at hdata
    exact formatInt_inj a b (String.ext (List.append_cancel_left hdata))
  · simp [bannerKey, formatInt, decimal]
    decide
  · simp [bannerKey, formatInt, decimal]
    decide
  · simp [bannerKey, formatInt, decimal]
    decide
  · simp [bannerKey, formatInt, decimal]
    decide

/-- C19: for all range queries `(id1, from1, to1)` and `(id2, from2, to2)`,
`statsKey` gives the same key if and only if `id1 = id2`, `from1` and `from2`
fall in the same Unix second, and `to1` and `to2` fall in the same Unix second.
So two queries that differ in the identifier or in the second of either bound
never share a key, while a query shares its key with every query on the same
identifier whose bounds lie in the same Unix seconds, at whatever instants
`d1` and `d2` inside them: distinct queries do collide. -/
theorem C19_statsKey_collision_free (id1 id2 : Int) (from1 to1 from2 to2 : Time) :
    (statsKey id1 from1 to1 = statsKey id2 from2 to2 ↔
      id1 = id2 ∧ Unix from1 = Unix from2 ∧ Unix to1 = Unix to2) ∧
    ((id1 ≠ id2 ∨ Unix from1 ≠ Unix from2 ∨ Unix to1 ≠ Unix to2) →
      statsKey id1 from1 to1 ≠ statsKey id2 from2 to2) ∧
    (∀ d1 d2 : Duration, 0 ≤ d1 → d1 < Second → 0 ≤ d2 → d2 < Second →
      statsKey id1 (Unix from1 * Second + d1) (Unix to1 * Second + d2) =
        statsKey id1 from1 to1) ∧
    statsKey 3 1700000000123456789 (-1) = "stats:3:1700000000:-1" := by
  have hiff : statsKey id1 from1 to1 = statsKey id2 from2 to2 ↔
      id1 = id2 ∧ Unix from1 = Unix from2 ∧ Unix to1 = Unix to2 := by
    constructor
    · intro h
      have hdata := congrArg String.data h
      simp only [statsKey, String.data_append, List.append_assoc] at hdata
      have h1 := List.append_cancel_left hdata
      simp only [List.singleton_append] at h1
      have hs1 := split_at_sep ':' _ _ _ _ (formatInt_no_colon id1) (formatInt_no_colon id2) h1
      have hs2 := split_at_sep ':' _ _ _ _ (formatInt_no_colon (Unix from1))
        (formatInt_no_colon (Unix from2)) hs1.2
      exact ⟨formatInt_inj _ _ (String.ext hs1.1), formatInt_inj _ _ (String.ext hs2.1),
        formatInt_inj _ _ (String.ext hs2.2)⟩
    · intro ⟨h1, h2, h3⟩
      simp [statsKey, h1, h2, h3]
  refine ⟨hiff, ?_, ?_, ?_⟩
  · intro hne heq
    have h := hiff.mp heq
    rcases hne with h1 | h2 | h3
    · exact h1 h.1
    · exact h2 h.2.1
    · exact h3 h.2.2
  · intro d1 d2 h1 h1' h2 h2'
    have hu : ∀ (x d : Int), 0 ≤ d → d < Second → Unix (Unix x * Second + d) = Unix x := by
      intro x d hd hd'
      simp only [Unix, Second] at hd' ⊢
      omega
    simp only [statsKey, hu from1 d1 h1 h1', hu to1 d2 h2 h2']
  · simp [statsKey, Unix, formatInt, decimal]
    decide

/-- Counterexample to C19 as stated: the queries `(1, 60s, 120s)` and
`(1, 60.5s, 120s)` are distinct, yet both have the key "stats:1:60:120"; so it
is not true that two distinct queries never share a key. -/
theorem C19_counterexample :
    ((1 : Int), (60 * Second : Time), (120 * Second : Time)) ≠
      ((1 : Int), (60 * Second + 500000000 : Time), (120 * Second : Time)) ∧
    statsKey 1 (60 * Second) (120 * Second) = "stats:1:60:120" ∧
    statsKey 1 (60 * Second + 500000000) (120 * Second) = "stats:1:60:120" ∧
    ¬ (∀ (id1 id2 : Int) (from1 to1 from2 to2 : Time),
      (id1, from1, to1) ≠ (id2, from2, to2) →
        statsKey id1 from1 to1 ≠ statsKey id2 from2 to2) := by
  have hne : ((1 : Int), (60 * Second : Time), (120 * Second : Time)) ≠
      ((1 : Int), (60 * Second + 500000000 : Time), (120 * Second : Time)) := by decide
  have h1 : statsKey 1 (60 * Second) (120 * Second) = "stats:1:60:120" := by
    simp [statsKey, Unix, Second, formatInt, decimal]
    decide
  have h2 : statsKey 1 (60 * Second + 500000000) (120 * Second) = "stats:1:60:120" := by
    simp [statsKey, Unix, Second, formatInt, decimal]
    decide
  exact ⟨hne, h1, h2, fun h => h 1 1 _ _ _ _ hne (h1.trans h2.symm)⟩

/-! ## The banner facade -/

/-- The result of `Get(key)` at `t` after `Set(key, value, ttl)` at `t0` followed
by operations that do not write to `key` and happen up to `t`. -/
theorem Get_after_Set_run (c : MemoryCache) (key : String) (value : GoValue) (ttl : Duration)
    (t0 t : Time) (ops : List Op) (hwf : c.WF) (hops : ∀ o ∈ ops, o.keeps key t = true) :
    (t ≤ t0 + ttl → (((c.Set key value ttl t0).1.run ops).Get key t).2 = .ok value) ∧
    (t0 + ttl < t →
      (((c.Set key value ttl t0).1.run ops).Get key t).2 = .error .ErrKeyNotFound) := by
  have hinv := run_keeps key t ⟨value, t0 + ttl⟩ ops (c.Set key value ttl t0).1
    (WF_Set c key value ttl t0 hwf) hops
    (Or.inl (by simp [MemoryCache.Set, mapGet_mapSet_self]))
  constructor
  · intro hle
    have hx : ¬ (CacheItem.mk value (t0 + ttl)).IsExpired t = true := by
      simpa [CacheItem.IsExpired] using hle
    rcases hinv with hsome | ⟨_, hexp⟩
    · rw [Get_result, hsome]
      simp [hx]
    · exact absurd hexp (not_lt.mpr hle)
  · intro hlt
    have hx : (CacheItem.mk value (t0 + ttl)).IsExpired t = true := by
      simpa [CacheItem.IsExpired] using hlt
    rcases hinv with hsome | ⟨hnone, _⟩
    · rw [Get_result, hsome]
      simp [hx]
    · rw [Get_result, hnone]

/-- The result of `BannerCache.Get` in terms of the result of the store's `Get`. -/
theorem BannerCache_Get_result (J : BannerJSON) (c : BannerCache) (id : Int) (now : Time) :
    (BannerCache.Get J c id now).2 =
      match (c.cache.Get (bannerKey id) now).2 with
      | .error err => if err = .ErrKeyNotFound then .error .ErrBannerNotFound else .error err
      | .ok (.string jsonData) => J.Unmarshal jsonData
      | .ok _ => .error .ErrInvalidType := by
  simp only [BannerCache.Get]
  generalize c.cache.Get (bannerKey id) now = r
  rcases r with ⟨cache, res⟩
  cases res with
  | error err =>
    by_cases herr : err = .ErrKeyNotFound
    · simp [herr]
    · simp [herr]
  | ok data =>
    cases data with
    | string jsonData =>
      simp only
      cases J.Unmarshal jsonData <;> rfl
    | int64 v => rfl
    | int v => rfl
    | other v => rfl

/-- The state and result of `BannerCache.Set` when the banner can be encoded. -/
theorem BannerCache_Set_ok (J : BannerJSON) (c : BannerCache) (b : banner.Banner) (now : Time)
    (js : String) (hm : J.Marshal b = .ok js) :
    BannerCache.Set J c b now =
      ({ c with cache := (c.cache.Set (bannerKey b.ID) (.string js) c.ttl now).1 }, none) := by
  simp [BannerCache.Set, hm, MemoryCache.Set]

/-- The state and result of `BannerCache.Set` when the banner cannot be encoded:
the error of `json.Marshal`, and the facade as it was. -/
theorem BannerCache_Set_fails (J : BannerJSON) (c : BannerCache) (b : banner.Banner) (now : Time)
    (e : Error) (hm : J.Marshal b = .error e) :
    BannerCache.Set J c b now = (c, some e) := by
  simp [BannerCache.Set, hm]

/-- The codec encodes a banner whose time stamps have a year in `[0, 9999]`. -/
theorem goJSON_Marshal_ok (b : banner.Banner) (hc : jsonTimeOK b.CreatedAt = true)
    (hu : jsonTimeOK b.UpdatedAt = true) : goJSON.Marshal b = .ok (encodeBanner b) := by
  simp [goJSON, hc, hu]

/-- The codec refuses a banner with a time stamp whose year is outside `[0, 9999]`. -/
theorem goJSON_Marshal_fails (b : banner.Banner)
    (h : jsonTimeOK b.CreatedAt = false ∨ jsonTimeOK b.UpdatedAt = false) :
    ∃ e, goJSON.Marshal b = .error e := by
  rcases h with h | h
  · exact ⟨.other
      "json: error calling MarshalJSON for type time.Time: year outside of range [0,9999]",
      by simp [goJSON, h]⟩
  · exact ⟨.other
      "json: error calling MarshalJSON for type time.Time: year outside of range [0,9999]",
      by simp [goJSON, h]⟩

/-- C20: for every banner `b` whose time stamps `encoding/json` can encode (years
in `[0, 9999]`; the name is valid Unicode) and every facade TTL:
`BannerCache.Set(b)` at `t0` returns no error; after it and any store operations
that do not write to the key of `b.ID` and happen up to `t`, `BannerCache.Get(b.ID)`
at `t` returns a banner equal to `b` when `t` is not after `t0 + ttl`, and the
domain error `ErrBannerNotFound` when `t` is after `t0 + ttl`. A banner `b2` with
a time stamp outside those years is not cached: `Set` returns the error of
`json.Marshal` and leaves the facade as it was. For an identifier with no entry
in the store `Get` returns `ErrBannerNotFound`, never the raw `ErrKeyNotFound`.
In particular with TTL 5s, such a banner 7 set at instant 0 is returned at 4.9s
and not found at 5.1s. -/
theorem C20_banner_cache_roundtrip (c : BannerCache) (b : banner.Banner)
    (t0 t : Time) (ops : List Op) (hwf : c.cache.WF)
    (hc : jsonTimeOK b.CreatedAt = true) (hu : jsonTimeOK b.UpdatedAt = true)
    (hops : ∀ o ∈ ops, o.keeps (bannerKey b.ID) t = true) :
    (BannerCache.Set goJSON c b t0).2 = none ∧
    (t ≤ t0 + c.ttl →
      (BannerCache.Get goJSON
        { (BannerCache.Set goJSON c b t0).1 with
          cache := (BannerCache.Set goJSON c b t0).1.cache.run ops } b.ID t).2 = .ok b) ∧
    (t0 + c.ttl < t →
      (BannerCache.Get goJSON
        { (BannerCache.Set goJSON c b t0).1 with
          cache := (BannerCache.Set goJSON c b t0).1.cache.run ops } b.ID t).2 =
        .error .ErrBannerNotFound) ∧
    (∀ b2 : banner.Banner, jsonTimeOK b2.CreatedAt = false ∨ jsonTimeOK b2.UpdatedAt = false →
      ∃ e, BannerCache.Set goJSON c b2 t0 = (c, some e)) ∧
    (∀ (c' : BannerCache) (id : Int) (now : Time), mapGet (bannerKey id) c'.cache.data = none →
      (BannerCache.Get goJSON c' id now).2 = .error .ErrBannerNotFound) ∧
    (∀ (m : MemoryCache) (b7 : banner.Banner),
      m.WF → b7.ID = 7 → jsonTimeOK b7.CreatedAt = true → jsonTimeOK b7.UpdatedAt = true →
      (BannerCache.Get goJSON (BannerCache.Set goJSON (NewBannerCache m (5 * Second)) b7 0).1 7
        4900000000).2 = .ok b7 ∧
      (BannerCache.Get goJSON (BannerCache.Set goJSON (NewBannerCache m (5 * Second)) b7 0).1 7
        5100000000).2 = .error .ErrBannerNotFound) := by
  have hset := BannerCache_Set_ok goJSON c b t0 _ (goJSON_Marshal_ok b hc hu)
  have hgen := Get_after_Set_run c.cache (bannerKey b.ID) (.string (encodeBanner b)) c.ttl
    t0 t ops hwf hops
  have hdec : ∀ x : banner.Banner, goJSON.Unmarshal (encodeBanner x) = .ok x :=
    fun x => decodeBanner_encodeBanner x
  refine ⟨by rw [hset], ?_, ?_, ?_, ?_, ?_⟩
  · intro hle
    rw [BannerCache_Get_result, hset]
    simp only
    rw [hgen.1 hle]
    exact hdec b
  · intro hlt
    rw [BannerCache_Get_result, hset]
    simp only
    rw [hgen.2 hlt]
    simp
  · intro b2 h2
    rcases goJSON_Marshal_fails b2 h2 with ⟨e, he⟩
    exact ⟨e, BannerCache_Set_fails goJSON c b2 t0 e he⟩
  · intro c' id now hnone
    rw [BannerCache_Get_result, Get_absent c'.cache (bannerKey id) now hnone]
    simp
  · intro m b7 hm7 hid hc7 hu7
    have hset7 := BannerCache_Set_ok goJSON (NewBannerCache m (5 * Second)) b7 0 _
      (goJSON_Marshal_ok b7 hc7 hu7)
    have hkey : bannerKey b7.ID = bannerKey 7 := by rw [hid]
    have h49 := Get_after_Set_run m (bannerKey 7) (.string (encodeBanner b7)) (5 * Second) 0
      4900000000 [] hm7 (by simp)
    have h51 := Get_after_Set_run m (bannerKey 7) (.string (encodeBanner b7)) (5 * Second) 0
      5100000000 [] hm7 (by simp)
    have hle : (4900000000 : Time) ≤ 0 + 5 * Second := by decide
    have hlt : (0 : Time) + 5 * Second < 5100000000 := by decide
    rw [BannerCache_Get_result, BannerCache_Get_result, hset7, hkey]
    simp only [NewBannerCache]
    have h49' := h49.1 hle
    have h51' := h51.2 hlt
    simp only [MemoryCache.run, List.foldl_nil] at h49' h51'
    rw [h49', h51']
    exact ⟨hdec b7, by simp⟩

/-- Witness of C20: the active banner 7 with time stamps at the epoch, stored at
instant 0 with TTL 5s and read at 4.9s, with a sweep at 3s in between. -/
theorem C20_banner_cache_roundtrip_witness :
    NewMemoryCache.WF ∧
    jsonTimeOK (0 : Time) = true ∧
    (∀ o ∈ [Op.cleanupExpired 3000000000], o.keeps (bannerKey 7) 4900000000 = true) ∧
    (4900000000 : Time) ≤ 0 + 5 * Second ∧
    (BannerCache.Get goJSON
        { (BannerCache.Set goJSON (NewBannerCache NewMemoryCache (5 * Second))
            ⟨7, "promo", 0, 0, true⟩ 0).1 with
          cache := (BannerCache.Set goJSON (NewBannerCache NewMemoryCache (5 * Second))
            ⟨7, "promo", 0, 0, true⟩ 0).1.cache.run [Op.cleanupExpired 3000000000] }
        7 4900000000).2 = .ok ⟨7, "promo", 0, 0, true⟩ :=
  ⟨WF_NewMemoryCache, by decide, by simp [Op.keeps], by decide,
    (C20_banner_cache_roundtrip (NewBannerCache NewMemoryCache (5 * Second))
      ⟨7, "promo", 0, 0, true⟩ 0 4900000000
      [Op.cleanupExpired 3000000000] WF_NewMemoryCache (by decide) (by decide)
      (by simp [Op.keeps])).2.1 (by decide)⟩

/-- Counterexample to C20 as stated: the banner 7 whose `CreatedAt` is the first
instant of the year 10000 cannot be encoded, so `BannerCache.Set` at instant 0
with TTL 5s returns the error of `json.Marshal` and stores nothing, and
`BannerCache.Get(7)` at 1s, which is not after `t0 + ttl` and follows no other
write, returns `ErrBannerNotFound` instead of the banner. -/
theorem C20_counterexample :
    BannerCache.Set goJSON (NewBannerCache NewMemoryCache (5 * Second))
        ⟨7, "promo", yearTenThousand, 0, true⟩ 0 =
      (NewBannerCache NewMemoryCache (5 * Second), some (.other
        "json: error calling MarshalJSON for type time.Time: year outside of range [0,9999]")) ∧
    (1 * Second : Time) ≤ 0 + 5 * Second ∧
    (BannerCache.Get goJSON
        (BannerCache.Set goJSON (NewBannerCache NewMemoryCache (5 * Second))
          ⟨7, "promo", yearTenThousand, 0, true⟩ 0).1 7 (1 * Second)).2 =
      .error .ErrBannerNotFound ∧
    ¬ (∀ (b : banner.Banner) (ttl : Duration) (t0 t : Time), t ≤ t0 + ttl →
      (BannerCache.Get goJSON
        (BannerCache.Set goJSON (NewBannerCache NewMemoryCache ttl) b t0).1 b.ID t).2 =
          .ok b) := by
  have hset : BannerCache.Set goJSON (NewBannerCache NewMemoryCache (5 * Second))
        ⟨7, "promo", yearTenThousand, 0, true⟩ 0 =
      (NewBannerCache NewMemoryCache (5 * Second), some (.other
        "json: error calling MarshalJSON for type time.Time: year outside of range [0,9999]")) :=
    rfl
  have hle : (1 * Second : Time) ≤ 0 + 5 * Second := by decide
  have hget : (BannerCache.Get goJSON
        (BannerCache.Set goJSON (NewBannerCache NewMemoryCache (5 * Second))
          ⟨7, "promo", yearTenThousand, 0, true⟩ 0).1 7 (1 * Second)).2 =
      .error .ErrBannerNotFound := by
    rw [hset, BannerCache_Get_result, Get_absent (NewBannerCache NewMemoryCache (5 * Second)).cache
      (bannerKey 7) (1 * Second) rfl]
    simp
  refine ⟨hset, hle, hget, fun h => ?_⟩
  have h7 := h ⟨7, "promo", yearTenThousand, 0, true⟩ (5 * Second) 0 (1 * Second) hle
  rw [hget] at h7
  cases h7

end memory

namespace click

/-! ## Further claims on the buffer -/

/-- C28: in every state reachable by any sequence of `RegisterClick`,
`FlushPendingClicks` and timer-firing steps from a buffer built by `NewService`,
whatever the repository returns, the queue holds strictly fewer than `batchSize`
clicks between operations (and `batchSize` is positive). -/
theorem C28_queue_below_batch_size {ρ : Type} (R : Repository ρ) (s : Service ρ)
    (hs : Reachable R s) :
    (s.batchQueue.length : Int) < s.batchSize ∧ 0 < s.batchSize :=
  ⟨hs.inv.below, hs.inv.size_pos⟩

/-- Witness of C28: a failing repository, batch size 2, after three submissions. -/
theorem C28_queue_below_batch_size_witness :
    Reachable failRepo (run failRepo (NewService () 2 0)
      [Action.register 0 0 1 "a" "x", Action.register 0 0 2 "b" "x",
        Action.register 0 0 3 "c" "x"]) ∧
    ((run failRepo (NewService () 2 0)
      [Action.register 0 0 1 "a" "x", Action.register 0 0 2 "b" "x",
        Action.register 0 0 3 "c" "x"]).batchQueue.length : Int) <
      (run failRepo (NewService () 2 0)
        [Action.register 0 0 1 "a" "x", Action.register 0 0 2 "b" "x",
          Action.register 0 0 3 "c" "x"]).batchSize :=
  ⟨(Reachable.new failRepo () 2 0).run _,
    (C28_queue_below_batch_size failRepo _ ((Reachable.new failRepo () 2 0).run
      [Action.register 0 0 1 "a" "x", Action.register 0 0 2 "b" "x",
        Action.register 0 0 3 "c" "x"])).1⟩

/-- C29: in every reachable state, (1) a `RegisterClick` that (re)starts the
timer arms a timer that carries the context of that call, and the firing of this
timer calls the repository with that context; (2) a step either leaves the armed
timers as they are or is a valid `RegisterClick` that replaces them by one new
timer carrying its own context, so the armed timer always carries the context of
the `RegisterClick` that last (re)started it; (3) the firing of an armed timer
calls the repository with the context the timer carries; (4) `FlushPendingClicks`
and (5) a size-triggered flush call it with the context of their own caller. -/
theorem C29_flush_contexts {ρ : Type} (R : Repository ρ) (s : Service ρ) (hs : Reachable R s) :
    (∀ (ctx : Ctx) (now : Time) (bannerID : Int) (userIP userAgent : String), 0 < bannerID →
      ((s.batchQueue.length + 1 : Nat) : Int) < s.batchSize →
      (RegisterClick R ctx now bannerID userIP userAgent s).1.timers =
        [⟨s.nextTimer, s.flushInterval, ctx⟩] ∧
      (timerFire R s.nextTimer (RegisterClick R ctx now bannerID userIP userAgent s).1).calls =
        s.calls ++ [⟨ctx, s.batchQueue ++ [Click.mk 0 bannerID now userIP userAgent], true⟩]) ∧
    (∀ (a : Action), (step R s a).timers = s.timers ∨ (step R s a).timers = [] ∨
      ∃ ctx now bannerID userIP userAgent,
        a = .register ctx now bannerID userIP userAgent ∧ 0 < bannerID ∧
        (step R s a).timers = [⟨s.nextTimer, s.flushInterval, ctx⟩] ∧
        ∀ t ∈ s.timers, t.id ≠ s.nextTimer) ∧
    (∀ t ∈ s.timers, (timerFire R t.id s).calls = s.calls ++ [⟨t.ctx, s.batchQueue, true⟩]) ∧
    (∀ (ctx : Ctx), s.batchQueue ≠ [] →
      (FlushPendingClicks R ctx s).1.calls = s.calls ++ [⟨ctx, s.batchQueue, true⟩]) ∧
    (∀ (ctx : Ctx) (now : Time) (bannerID : Int) (userIP userAgent : String), 0 < bannerID →
      s.batchSize ≤ ((s.batchQueue.length + 1 : Nat) : Int) →
      (RegisterClick R ctx now bannerID userIP userAgent s).1.calls =
        s.calls ++ [⟨ctx, s.batchQueue ++ [Click.mk 0 bannerID now userIP userAgent], true⟩]) := by
  have hinv := hs.inv
  have hlen : ∀ (now : Time) (bannerID : Int) (userIP userAgent : String),
      ((s.batchQueue ++ [Click.mk 0 bannerID now userIP userAgent]).length : Int) =
        ((s.batchQueue.length + 1 : Nat) : Int) := by
    intro now bannerID userIP userAgent
    simp
  have hfresh : ∀ t ∈ s.timers, t.id ≠ s.nextTimer := by
    intro t ht heq
    have h := hinv.fresh t.id (hinv.field t ht)
    rw [heq] at h
    exact Nat.lt_irrefl _ h
  refine ⟨?_, ?_, ?_, ?_, ?_⟩
  · intro ctx now bannerID userIP userAgent hid hlt
    have hstep := RegisterClick_below R ctx now bannerID userIP userAgent s hid hinv.field
      (by rw [hlen]; exact not_le.mpr hlt)
    rw [hstep]
    refine ⟨rfl, ?_⟩
    have hfire := timerFire_armed R ⟨s.nextTimer, s.flushInterval, ctx⟩
      { s with
        batchMutex := false
        batchQueue := s.batchQueue ++ [Click.mk 0 bannerID now userIP userAgent]
        timers := [⟨s.nextTimer, s.flushInterval, ctx⟩]
        flushTimer := some s.nextTimer
        nextTimer := s.nextTimer + 1 } rfl (by simp)
    simp only at hfire
    rw [hfire]
  · intro a
    cases a with
    | register ctx now bannerID userIP userAgent =>
      by_cases hid : 0 < bannerID
      · by_cases hfull : s.batchSize ≤
            ((s.batchQueue ++ [Click.mk 0 bannerID now userIP userAgent]).length : Int)
        · right
          left
          simp only [step]
          rw [RegisterClick_full R ctx now bannerID userIP userAgent s hid hinv.field hfull]
        · right
          right
          refine ⟨ctx, now, bannerID, userIP, userAgent, rfl, hid, ?_, hfresh⟩
          simp only [step]
          rw [RegisterClick_below R ctx now bannerID userIP userAgent s hid hinv.field hfull]
      · left
        have hfail := NewClickWithMetadata_error now bannerID userIP userAgent (not_lt.mp hid)
        simp [step, RegisterClick, hfail]
    | flush ctx =>
      simp only [step]
      by_cases hq : s.batchQueue = []
      · left
        rw [FlushPendingClicks_empty R ctx s hq]
      · right
        left
        rw [FlushPendingClicks_nonempty R ctx s hq hinv.field]
    | fire id =>
      simp only [step]
      rcases hinv.armed with ⟨hnil, _⟩ | ⟨t, ht, _, hq, _⟩
      · left
        rw [timerFire_unarmed R id s (by simp [hnil])]
      · by_cases hid : t.id = id
        · right
          left
          subst hid
          rw [timerFire_armed R t s ht hq]
        · left
          rw [timerFire_unarmed R id s (by simpa [ht] using hid)]
  · intro t ht
    rcases hinv.armed with ⟨hnil, _⟩ | ⟨t0, h1, _, hq, _⟩
    · rw [hnil] at ht
      cases ht
    · have ht0 : t = t0 := by
        rw [h1, List.mem_singleton] at ht
        exact ht
      subst ht0
      rw [timerFire_armed R t s h1 hq]
  · intro ctx hq
    rw [FlushPendingClicks_nonempty R ctx s hq hinv.field]
  · intro ctx now bannerID userIP userAgent hid hge
    rw [RegisterClick_full R ctx now bannerID userIP userAgent s hid hinv.field
      (by rw [hlen]; exact hge)]

/-- Witness of C29: a timer armed with context 4 fires with context 4. -/
theorem C29_flush_contexts_witness :
    Reachable okRepo (NewService () 3 0) ∧ (0 : Int) < 5 ∧
    (((((NewService () 3 0 : Service Unit).batchQueue.length + 1 : Nat) : Int) <
      (NewService () 3 0 : Service Unit).batchSize) ∧
    (timerFire okRepo 0 (RegisterClick okRepo 4 10 5 "10.0.0.1" "ff" (NewService () 3 0)).1).calls
      = [⟨4, [⟨0, 5, 10, "10.0.0.1", "ff"⟩], true⟩]) :=
  ⟨Reachable.new okRepo () 3 0, by decide, by decide,
    ((C29_flush_contexts okRepo (NewService () 3 0) (Reachable.new okRepo () 3 0)).1
      4 10 5 "10.0.0.1" "ff" (by decide) (by decide)).2⟩

/-- C30: in every reachable state, between operations, a non-empty queue has a
live timer (exactly one is armed, the one of the field `flushTimer`), and with an
empty queue, as after every flush, no timer is armed. -/
theorem C30_no_stranded_event {ρ : Type} (R : Repository ρ) (s : Service ρ)
    (hs : Reachable R s) :
    (s.batchQueue ≠ [] → ∃ t, s.timers = [t] ∧ s.flushTimer = some t.id) ∧
    (s.batchQueue = [] → s.timers = []) ∧
    (∀ ctx, (FlushPendingClicks R ctx s).1.batchQueue = [] ∧
      (FlushPendingClicks R ctx s).1.timers = []) := by
  have hinv := hs.inv
  refine ⟨?_, ?_, ?_⟩
  · intro hq
    rcases hinv.armed with ⟨_, hnil⟩ | ⟨t, ht, hf, _, _⟩
    · exact absurd hnil hq
    · exact ⟨t, ht, hf⟩
  · intro hq
    rcases hinv.armed with ⟨hnil, _⟩ | ⟨t, _, _, hne, _⟩
    · exact hnil
    · exact absurd hq hne
  · intro ctx
    by_cases hq : s.batchQueue = []
    · rw [FlushPendingClicks_empty R ctx s hq]
      rcases hinv.armed with ⟨hnil, _⟩ | ⟨t, _, _, hne, _⟩
      · exact ⟨hq, hnil⟩
      · exact absurd hq hne
    · rw [FlushPendingClicks_nonempty R ctx s hq hinv.field]
      exact ⟨rfl, rfl⟩

/-- Witness of C30: one click queued in a buffer of batch size 3. -/
theorem C30_no_stranded_event_witness :
    Reachable okRepo (run okRepo (NewService () 3 0) [Action.register 0 0 1 "a" "x"]) ∧
    ((run okRepo (NewService () 3 0) [Action.register 0 0 1 "a" "x"]).batchQueue ≠ [] →
      ∃ t, (run okRepo (NewService () 3 0) [Action.register 0 0 1 "a" "x"]).timers = [t] ∧
        (run okRepo (NewService () 3 0) [Action.register 0 0 1 "a" "x"]).flushTimer =
          some t.id) :=
  ⟨(Reachable.new okRepo () 3 0).run _,
    (C30_no_stranded_event okRepo _
      ((Reachable.new okRepo () 3 0).run [Action.register 0 0 1 "a" "x"])).1⟩

end click

namespace memory

open click (Time Duration Second)

/-! ## Clearing the banner facade -/

/-- The entry of a key after the loop of `BannerCache.Clear` over a list of keys. -/
theorem mapGet_clear_loop (k : String) (keys : List String) (m : MemoryCache) :
    mapGet k (keys.foldl
      (fun (cache : MemoryCache) (key : String) =>
        if "banner:".length < key.length ∧
            key.data.take "banner:".length = "banner:".data then
          (cache.Delete key).1
        else cache) m).data =
      if ("banner:".length < k.length ∧ k.data.take "banner:".length = "banner:".data) ∧
          k ∈ keys then none
      else mapGet k m.data := by
  induction keys generalizing m with
  | nil => simp
  | cons x rest ih =>
    rw [List.foldl_cons, ih]
    by_cases hx : "banner:".length < x.length ∧ x.data.take "banner:".length = "banner:".data
    · rw [if_pos hx]
      by_cases hk : k = x
      · subst hk
        simp [hx, MemoryCache.Delete, mapGet_mapDelete_self]
      · simp only [MemoryCache.Delete, mapGet_mapDelete_ne x k m.data hk, List.mem_cons, hk,
          false_or]
    · rw [if_neg hx]
      by_cases hk : k = x
      · subst hk
        simp [hx]
      · simp only [List.mem_cons, hk, false_or]

/-- C21, as stated, fails: the key "banner:" starts with "banner:", yet
`BannerCache.Clear` leaves it in the store. -/
theorem C21_counterexample :
    ("banner:" : String) = "banner:" ++ "" ∧
    mapGet "banner:"
      (BannerCache.Clear
        (NewBannerCache (NewMemoryCache.Set "banner:" (.string "x") 5 0).1 60)).1.cache.data =
      some ⟨.string "x", 5⟩ := by
  decide

/-- C21, amended: `BannerCache.Clear` returns no error and deletes from the
underlying store every key that starts with "banner:" and is longer than it, in
particular every key `bannerKey` produces, and no other key: afterwards no such
key is present, and every other key, the key "banner:" itself and every key not
starting with "banner:" included, keeps its value and expiration. -/
theorem C21_clear_removes_banner_keys (c : BannerCache) :
    (BannerCache.Clear c).2 = none ∧
    (∀ k : String, "banner:".length < k.length →
      k.data.take "banner:".length = "banner:".data →
      mapGet k (BannerCache.Clear c).1.cache.data = none) ∧
    (∀ id : Int, mapGet (bannerKey id) (BannerCache.Clear c).1.cache.data = none) ∧
    (∀ k : String,
      ¬ ("banner:".length < k.length ∧ k.data.take "banner:".length = "banner:".data) →
      mapGet k (BannerCache.Clear c).1.cache.data = mapGet k c.cache.data) ∧
    (∀ k : String, k.data.take "banner:".length ≠ "banner:".data →
      mapGet k (BannerCache.Clear c).1.cache.data = mapGet k c.cache.data) ∧
    mapGet "banner:" (BannerCache.Clear c).1.cache.data = mapGet "banner:" c.cache.data := by
  have hdata : ∀ k, mapGet k (BannerCache.Clear c).1.cache.data =
      if ("banner:".length < k.length ∧ k.data.take "banner:".length = "banner:".data) ∧
          k ∈ c.cache.data.map Prod.fst then none
      else mapGet k c.cache.data := by
    intro k
    simp only [BannerCache.Clear, MemoryCache.Keys]
    exact mapGet_clear_loop k _ c.cache
  have hmatch : ∀ k : String, "banner:".length < k.length →
      k.data.take "banner:".length = "banner:".data →
      mapGet k (BannerCache.Clear c).1.cache.data = none := by
    intro k h1 h2
    rw [hdata k]
    by_cases hmem : k ∈ c.cache.data.map Prod.fst
    · rw [if_pos ⟨⟨h1, h2⟩, hmem⟩]
    · rw [if_neg (fun h => hmem h.2)]
      exact (mapGet_eq_none_iff k c.cache.data).mpr hmem
  have hother : ∀ k : String,
      ¬ ("banner:".length < k.length ∧ k.data.take "banner:".length = "banner:".data) →
      mapGet k (BannerCache.Clear c).1.cache.data = mapGet k c.cache.data := by
    intro k hk
    rw [hdata k, if_neg (fun h => hk h.1)]
  refine ⟨rfl, hmatch, ?_, hother, fun k hk => hother k (fun h => hk h.2), ?_⟩
  · intro id
    have hkey : (bannerKey id).data = "banner:".data ++ (formatInt id).data := by
      simp [bannerKey, String.data_append]
    have hne : (formatInt id).data ≠ [] := by
      unfold formatInt
      by_cases hneg : id < 0
      · simp [hneg]
      · simp only [hneg, if_false]
        rw [decimal_eq]
        by_cases h0 : id.natAbs = 0
        · simp [h0]
        · simp [h0, Nat.digits_ne_nil_iff_ne_zero]
    apply hmatch
    · have hlen : (bannerKey id).length = "banner:".length + (formatInt id).data.length :=
        String.length_append "banner:" (formatInt id)
      rw [hlen]
      have := List.length_pos.mpr hne
      omega
    · have h7 : "banner:".length = "banner:".data.length := rfl
      rw [hkey, h7, List.take_left]
  · exact hother "banner:" (by decide)

end memory

namespace memory

open click (Time Duration Second)

/-- The store after `BannerCache.Get` is the store after the `Get` of the banner's key. -/
theorem BannerCache_Get_state (J : BannerJSON) (c : BannerCache) (id : Int) (now : Time) :
    (BannerCache.Get J c id now).1 = { c with cache := (c.cache.Get (bannerKey id) now).1 } := by
  simp only [BannerCache.Get]
  generalize c.cache.Get (bannerKey id) now = r
  rcases r with ⟨cache, res⟩
  cases res with
  | error err =>
    by_cases herr : err = .ErrKeyNotFound
    · simp [herr]
    · simp [herr]
  | ok data =>
    cases data with
    | string jsonData =>
      simp only
      cases J.Unmarshal jsonData <;> rfl
    | int64 v => rfl
    | int v => rfl
    | other v => rfl

/-- A failed `BannerCache.Get` writes nothing that a later `Get` of the same
banner could return: the later `Get` fails too. -/
theorem BannerCache_Get_fails_again (J : BannerJSON) (c : BannerCache) (id : Int)
    (now now2 : Time) (e : Error) (h : (BannerCache.Get J c id now).2 = .error e) :
    ∃ e', (BannerCache.Get J (BannerCache.Get J c id now).1 id now2).2 = .error e' := by
  rw [BannerCache_Get_state]
  rw [BannerCache_Get_result] at h
  rw [BannerCache_Get_result]
  simp only
  cases hget : mapGet (bannerKey id) c.cache.data with
  | none =>
    rw [Get_absent c.cache _ now hget, Get_absent c.cache _ now2 hget]
    exact ⟨_, rfl⟩
  | some item =>
    have hfirst := Get_present c.cache (bannerKey id) now item hget
    by_cases hexp : item.IsExpired now = true
    · rw [if_pos hexp] at hfirst
      have hs : (c.cache.Get (bannerKey id) now).1 =
          { data := mapDelete (bannerKey id) c.cache.data } := by rw [hfirst]
      rw [hs, Get_absent { data := mapDelete (bannerKey id) c.cache.data } (bannerKey id) now2
        (mapGet_mapDelete_self (bannerKey id) c.cache.data)]
      exact ⟨_, rfl⟩
    · rw [if_neg hexp] at hfirst
      have hs : (c.cache.Get (bannerKey id) now).1 = c.cache := by rw [hfirst]
      have hr : (c.cache.Get (bannerKey id) now).2 = .ok item.Value := by rw [hfirst]
      rw [hr] at h
      rw [hs]
      have hsecond := Get_present c.cache (bannerKey id) now2 item hget
      by_cases hexp2 : item.IsExpired now2 = true
      · rw [if_pos hexp2] at hsecond
        rw [hsecond]
        exact ⟨_, rfl⟩
      · rw [if_neg hexp2] at hsecond
        rw [hsecond]
        exact ⟨e, h⟩

end memory

namespace banner

/-! ## The banner service -/

/-- The method `Exists` for a positive identifier when the cache gives no banner. -/
theorem Exists_miss {ρ κ ε : Type} (repo : Repository ρ) (c : CacheRepository κ ε)
    (w : World ρ κ) (id : Int) (hid : 0 < id)
    (hmiss : ∀ b, (c.Get w.cache id).2 ≠ (some b, none)) :
    Service.Exists repo (some c) w id =
      match (repo.GetByID w.repo id).2 with
      | .error err =>
        ({ repo := (repo.GetByID w.repo id).1
           cache := (c.Get w.cache id).1
           calls := w.calls ++ [.cacheGet id, .repoGetByID id] },
          false,
          if err = .ErrBannerNotFound then none
          else some (.wrap "failed to check banner existence" err))
      | .ok b =>
        ({ repo := (repo.GetByID w.repo id).1
           cache := (c.Set (c.Get w.cache id).1 b).1
           calls := w.calls ++ [.cacheGet id, .repoGetByID id, .cacheSet b] },
          b.IsActive, none) := by
  have hid' : ¬ id ≤ 0 := not_le.mpr hid
  have hnone : (match (c.Get w.cache id).2 with
      | (some b, none) => some b
      | _ => none) = none := by
    rcases hres : (c.Get w.cache id).2 with ⟨ob, oe⟩
    cases ob with
    | none => rfl
    | some b =>
      cases oe with
      | none => exact absurd hres (hmiss b)
      | some e => rfl
  simp only [Service.Exists, hid', if_false, hnone]
  cases hr : (repo.GetByID w.repo id).2 with
  | error err =>
    by_cases herr : err = .ErrBannerNotFound
    · simp [herr]
    · simp [herr]
  | ok b => simp

/-- The method `Exists` for a positive identifier when no cache is configured. -/
theorem Exists_nocache {ρ κ ε : Type} (repo : Repository ρ) (w : World ρ κ) (id : Int)
    (hid : 0 < id) :
    Service.Exists repo (none : Option (CacheRepository κ ε)) w id =
      match (repo.GetByID w.repo id).2 with
      | .error err =>
        ({ repo := (repo.GetByID w.repo id).1
           cache := w.cache
           calls := w.calls ++ [.repoGetByID id] },
          false,
          if err = .ErrBannerNotFound then none
          else some (.wrap "failed to check banner existence" err))
      | .ok b =>
        ({ repo := (repo.GetByID w.repo id).1
           cache := w.cache
           calls := w.calls ++ [.repoGetByID id] },
          b.IsActive, none) := by
  have hid' : ¬ id ≤ 0 := not_le.mpr hid
  simp only [Service.Exists, hid', if_false]
  cases hr : (repo.GetByID w.repo id).2 with
  | error err =>
    by_cases herr : err = .ErrBannerNotFound
    · simp [herr]
    · simp [herr]
  | ok b => simp

end banner

namespace banner

/-- The method `Exists` for a positive identifier when the cache returns a banner. -/
theorem Exists_hit {ρ κ ε : Type} (repo : Repository ρ) (c : CacheRepository κ ε)
    (w : World ρ κ) (id : Int) (hid : 0 < id) (b : Banner)
    (hhit : (c.Get w.cache id).2 = (some b, none)) :
    Service.Exists repo (some c) w id =
      ({ w with cache := (c.Get w.cache id).1, calls := w.calls ++ [.cacheGet id] },
        b.IsActive, none) := by
  have hid' : ¬ id ≤ 0 := not_le.mpr hid
  simp [Service.Exists, hid', hhit]

/-- A failing `Get` of the cache gives no banner. -/
theorem miss_of_error {κ ε : Type} (c : CacheRepository κ ε) (cache : κ) (id : Int) (e : ε)
    (hfail : (c.Get cache id).2.2 = some e) : ∀ b, (c.Get cache id).2 ≠ (some b, none) := by
  intro b hb
  rw [hb] at hfail
  cases hfail

/-- C22: for every identifier `id > 0`, whenever the cache's `Get` returns an
error, `Exists` returns exactly what it returns with no cache configured: the
answer computed from the repository (`false` without error when the repository
reports `ErrBannerNotFound`, the repository's error wrapped when it fails
otherwise, the banner's active flag when it returns a banner). The repository is
consulted, and the cache's error is not part of the result. This holds in
particular for the in-memory banner cache, whose `Get` fails on a miss, on a
value of the wrong type and on a payload that cannot be decoded. -/
theorem C22_cache_failure_falls_back {ρ κ ε : Type} (repo : Repository ρ)
    (c : CacheRepository κ ε) (w : World ρ κ) (id : Int) (e : ε) (hid : 0 < id)
    (hfail : (c.Get w.cache id).2.2 = some e) :
    (Service.Exists repo (some c) w id).2 =
      (Service.Exists repo (none : Option (CacheRepository κ ε)) w id).2 ∧
    (Service.Exists repo (some c) w id).2 =
      (match (repo.GetByID w.repo id).2 with
        | .error err =>
          (false, if err = .ErrBannerNotFound then none
            else some (.wrap "failed to check banner existence" err))
        | .ok b => (b.IsActive, none)) ∧
    (Service.Exists repo (some c) w id).1.repo = (repo.GetByID w.repo id).1 ∧
    (∃ tail, (Service.Exists repo (some c) w id).1.calls =
      w.calls ++ [.cacheGet id, .repoGetByID id] ++ tail) ∧
    (∀ (J : memory.BannerJSON) (now : click.Time) (wm : World ρ memory.BannerCache)
      (em : memory.Error), (memory.BannerCache.Get J wm.cache id now).2 = .error em →
      (Service.Exists repo (some (memoryCacheRepo J now)) wm id).2 =
        (Service.Exists repo
          (none : Option (CacheRepository memory.BannerCache memory.Error)) wm id).2) := by
  have hgen : ∀ {κ' ε' : Type} (c' : CacheRepository κ' ε') (w' : World ρ κ'),
      (∀ b, (c'.Get w'.cache id).2 ≠ (some b, none)) →
      (Service.Exists repo (some c') w' id).2 =
        (Service.Exists repo (none : Option (CacheRepository κ' ε')) w' id).2 := by
    intro κ' ε' c' w' hmiss
    rw [Exists_miss repo c' w' id hid hmiss, Exists_nocache repo w' id hid]
    cases (repo.GetByID w'.repo id).2 <;> rfl
  have hmiss := miss_of_error c w.cache id e hfail
  refine ⟨hgen c w hmiss, ?_, ?_, ?_, ?_⟩
  · rw [Exists_miss repo c w id hid hmiss]
    cases (repo.GetByID w.repo id).2 <;> rfl
  · rw [Exists_miss repo c w id hid hmiss]
    cases (repo.GetByID w.repo id).2 <;> rfl
  · rw [Exists_miss repo c w id hid hmiss]
    cases hr : (repo.GetByID w.repo id).2 with
    | error err => exact ⟨[], by simp⟩
    | ok b => exact ⟨[.cacheSet b], by simp⟩
  · intro J now wm em hem
    apply hgen (memoryCacheRepo J now) wm
    intro b hb
    simp only [memoryCacheRepo, hem] at hb
    cases hb

/-- Witness of C22: a cache that is out of order in front of a repository that
holds banner 7. -/
theorem C22_cache_failure_falls_back_witness :
    (0 : Int) < 7 ∧
    (brokenCache.Get () 7).2.2 = some "cache down" ∧
    (Service.Exists promoRepo (some brokenCache) ⟨(), (), []⟩ 7).2 = (true, none) ∧
    (Service.Exists promoRepo (none : Option (CacheRepository Unit String)) ⟨(), (), []⟩ 7).2 =
      (true, none) :=
  ⟨by decide, rfl,
    ((C22_cache_failure_falls_back promoRepo brokenCache ⟨(), (), []⟩ 7 "cache down"
      (by decide) rfl).2.1).trans rfl,
    rfl⟩

/-- C23: for an identifier `id > 0`, when the cache gives no banner and the
repository reports `ErrBannerNotFound`, `Exists` returns `false` without error
after one `Get` of the cache and one `GetByID` of the repository, and calls no
`Set`: the cache is in the state its own `Get` left. In every call of `Exists`,
`Set` is called only with a banner the repository has just returned. With the
in-memory banner cache, the next `Exists` for the same identifier, at any later
instant, misses again and consults the repository again. -/
theorem C23_no_negative_caching {ρ κ ε : Type} (repo : Repository ρ)
    (c : CacheRepository κ ε) (w : World ρ κ) (id : Int) (hid : 0 < id)
    (hmiss : ∀ b, (c.Get w.cache id).2 ≠ (some b, none))
    (hnf : (repo.GetByID w.repo id).2 = .error .ErrBannerNotFound) :
    Service.Exists repo (some c) w id =
      ({ repo := (repo.GetByID w.repo id).1
         cache := (c.Get w.cache id).1
         calls := w.calls ++ [.cacheGet id, .repoGetByID id] }, false, none) ∧
    (∀ (w' : World ρ κ) (id' : Int) (b : Banner),
      Call.cacheSet b ∈ (Service.Exists repo (some c) w' id').1.calls →
      Call.cacheSet b ∈ w'.calls ∨ (repo.GetByID w'.repo id').2 = .ok b) ∧
    (∀ (J : memory.BannerJSON) (now now2 : click.Time) (wm : World ρ memory.BannerCache)
      (em : memory.Error), (memory.BannerCache.Get J wm.cache id now).2 = .error em →
      (repo.GetByID wm.repo id).2 = .error .ErrBannerNotFound →
      ∃ tail, (Service.Exists repo (some (memoryCacheRepo J now2))
          (Service.Exists repo (some (memoryCacheRepo J now)) wm id).1 id).1.calls =
        wm.calls ++ [.cacheGet id, .repoGetByID id] ++ [.cacheGet id, .repoGetByID id] ++
          tail) := by
  have hfirst : ∀ {κ' ε' : Type} (c' : CacheRepository κ' ε') (w' : World ρ κ'),
      (∀ b, (c'.Get w'.cache id).2 ≠ (some b, none)) →
      (repo.GetByID w'.repo id).2 = .error .ErrBannerNotFound →
      Service.Exists repo (some c') w' id =
        ({ repo := (repo.GetByID w'.repo id).1
           cache := (c'.Get w'.cache id).1
           calls := w'.calls ++ [.cacheGet id, .repoGetByID id] }, false, none) := by
    intro κ' ε' c' w' hm hn
    rw [Exists_miss repo c' w' id hid hm, hn]
    simp
  refine ⟨hfirst c w hmiss hnf, ?_, ?_⟩
  · intro w' id' b hmem
    by_cases hid' : 0 < id'
    · by_cases hhit : ∃ b', (c.Get w'.cache id').2 = (some b', none)
      · obtain ⟨b', hb'⟩ := hhit
        rw [Exists_hit repo c w' id' hid' b' hb'] at hmem
        simp only [List.mem_append, List.mem_singleton] at hmem
        rcases hmem with h | h
        · exact Or.inl h
        · cases h
      · have hm : ∀ b', (c.Get w'.cache id').2 ≠ (some b', none) :=
          fun b' hb' => hhit ⟨b', hb'⟩
        rw [Exists_miss repo c w' id' hid' hm] at hmem
        cases hr : (repo.GetByID w'.repo id').2 with
        | error err =>
          rw [hr] at hmem
          simp only [List.mem_append, List.mem_cons, List.mem_singleton, List.not_mem_nil,
            or_false] at hmem
          rcases hmem with h | h | h
          · exact Or.inl h
          · cases h
          · cases h
        | ok b0 =>
          rw [hr] at hmem
          simp only [List.mem_append, List.mem_cons, List.mem_singleton, List.not_mem_nil,
            or_false] at hmem
          rcases hmem with h | h | h | h
          · exact Or.inl h
          · cases h
          · cases h
          · right
            cases h
            rfl
    · have hle : id' ≤ 0 := not_lt.mp hid'
      simp only [Service.Exists, hle, if_true] at hmem
      exact Or.inl hmem
  · intro J now now2 wm em hem hn
    have hm1 : ∀ b, ((memoryCacheRepo J now).Get wm.cache id).2 ≠ (some b, none) := by
      intro b hb
      simp only [memoryCacheRepo, hem] at hb
      cases hb
    rw [hfirst (memoryCacheRepo J now) wm hm1 hn]
    obtain ⟨e2, he2⟩ := memory.BannerCache_Get_fails_again J wm.cache id now now2 em hem
    have hm2 : ∀ b, ((memoryCacheRepo J now2).Get
        ((memoryCacheRepo J now).Get wm.cache id).1 id).2 ≠ (some b, none) := by
      intro b hb
      simp only [memoryCacheRepo, he2] at hb
      cases hb
    rw [Exists_miss repo (memoryCacheRepo J now2) _ id hid hm2]
    cases hr : (repo.GetByID (repo.GetByID wm.repo id).1 id).2 with
    | error err => exact ⟨[], by simp⟩
    | ok b => exact ⟨[.cacheSet b], by simp⟩

/-- Witness of C23: an empty in-memory cache in front of a repository that knows
no banner. -/
theorem C23_no_negative_caching_witness :
    (0 : Int) < 7 ∧
    (emptyRepo.GetByID () 7).2 = .error .ErrBannerNotFound ∧
    Service.Exists emptyRepo (some (memoryCacheRepo memory.goJSON 0))
        ⟨(), memory.NewBannerCache memory.NewMemoryCache 60, []⟩ 7 =
      (⟨(), memory.NewBannerCache memory.NewMemoryCache 60, [.cacheGet 7, .repoGetByID 7]⟩,
        false, none) :=
  ⟨by decide, rfl,
    ((C23_no_negative_caching emptyRepo (memoryCacheRepo memory.goJSON 0)
      ⟨(), memory.NewBannerCache memory.NewMemoryCache 60, []⟩ 7 (by decide)
      (fun b hb => by cases hb) rfl).1).trans rfl⟩

end banner

namespace stats

open click (Time Duration Second)

/-! ## The sort -/

theorem getElem?_at_length (pre : List MinuteStat) (x : MinuteStat) (rest : List MinuteStat) :
    (pre ++ x :: rest)[pre.length]? = some x := by
  induction pre with
  | nil => simp
  | cons p pre ih => simpa using ih

theorem getElem?_after_length (pre : List MinuteStat) (x y : MinuteStat)
    (rest : List MinuteStat) : (pre ++ x :: y :: rest)[pre.length + 1]? = some y := by
  induction pre with
  | nil => simp
  | cons p pre ih => simpa using ih

theorem set_swap (pre : List MinuteStat) (x y : MinuteStat) (rest : List MinuteStat) :
    ((pre ++ x :: y :: rest).set pre.length y).set (pre.length + 1) x =
      pre ++ y :: x :: rest := by
  induction pre with
  | nil => rfl
  | cons p pre ih => simp [ih]

/-- The inner loop from index `|pre|` over the bucket `cur` and the buckets `mid`
ahead of it never indexes out of range and is one `bubble` run. -/
theorem innerLoop_eq (mid : List MinuteStat) :
    ∀ (pre : List MinuteStat) (cur : MinuteStat) (post : List MinuteStat),
      innerLoop (pre ++ cur :: (mid ++ post)) pre.length mid.length =
        some (pre ++ (bubble cur mid ++ post)) := by
  induction mid with
  | nil =>
    intro pre cur post
    simp [innerLoop, bubble]
  | cons y mid ih =>
    intro pre cur post
    have h0 := getElem?_at_length pre cur (y :: (mid ++ post))
    have h1 := getElem?_after_length pre cur y (mid ++ post)
    simp only [List.cons_append, List.length_cons, innerLoop, h0, h1]
    by_cases hlt : y.Timestamp < cur.Timestamp
    · rw [if_pos hlt, set_swap pre cur y (mid ++ post)]
      have hrec := ih (pre ++ [y]) cur post
      simp only [List.length_append, List.length_singleton, List.append_assoc,
        List.singleton_append] at hrec
      rw [hrec]
      simp [bubble, hlt]
    · rw [if_neg hlt]
      have hrec := ih (pre ++ [cur]) y post
      simp only [List.length_append, List.length_singleton, List.append_assoc,
        List.singleton_append] at hrec
      rw [hrec]
      simp [bubble, hlt]

theorem bubble_perm (mid : List MinuteStat) :
    ∀ cur : MinuteStat, (bubble cur mid).Perm (cur :: mid) := by
  induction mid with
  | nil => intro cur; exact List.Perm.refl _
  | cons y mid ih =>
    intro cur
    by_cases hlt : y.Timestamp < cur.Timestamp
    · simp only [bubble, hlt, if_true]
      exact ((ih cur).cons y).trans (List.Perm.swap cur y mid)
    · simp only [bubble, hlt, if_false]
      exact (ih y).cons cur

/-- A `bubble` run keeps, for every timestamp, the buckets of that timestamp in their order. -/
theorem bubble_filter (t : Time) (mid : List MinuteStat) :
    ∀ cur : MinuteStat,
      (bubble cur mid).filter (fun s => decide (s.Timestamp = t)) =
        (cur :: mid).filter (fun s => decide (s.Timestamp = t)) := by
  induction mid with
  | nil => intro cur; rfl
  | cons y mid ih =>
    intro cur
    by_cases hlt : y.Timestamp < cur.Timestamp
    · simp only [bubble, hlt, if_true]
      by_cases hy : y.Timestamp = t
      · have hc : ¬ cur.Timestamp = t := by
          intro hc
          rw [hy, hc] at hlt
          exact lt_irrefl _ hlt
        simp [List.filter_cons, hy, hc, ih cur]
      · simp [List.filter_cons, hy, ih cur]
    · simp only [bubble, hlt, if_false]
      simp [List.filter_cons, ih y]

/-- A `bubble` run ends with a bucket that no bucket of the run is after. -/
theorem bubble_last (mid : List MinuteStat) :
    ∀ cur : MinuteStat, ∃ init m, bubble cur mid = init ++ [m] ∧ init.length = mid.length ∧
      (∀ x ∈ init, x.Timestamp ≤ m.Timestamp) ∧ cur.Timestamp ≤ m.Timestamp := by
  induction mid with
  | nil =>
    intro cur
    exact ⟨[], cur, rfl, rfl, fun x hx => absurd hx (List.not_mem_nil x), le_refl _⟩
  | cons y mid ih =>
    intro cur
    by_cases hlt : y.Timestamp < cur.Timestamp
    · obtain ⟨init, m, hb, hl, hinit, hcur⟩ := ih cur
      refine ⟨y :: init, m, ?_, by simp [hl], ?_, hcur⟩
      · simp [bubble, hlt, hb]
      · intro x hx
        rcases List.mem_cons.mp hx with h | h
        · rw [h]
          exact le_trans (le_of_lt hlt) hcur
        · exact hinit x h
    · obtain ⟨init, m, hb, hl, hinit, hy⟩ := ih y
      have hcy : cur.Timestamp ≤ y.Timestamp := not_lt.mp hlt
      refine ⟨cur :: init, m, ?_, by simp [hl], ?_, le_trans hcy hy⟩
      · simp [bubble, hlt, hb]
      · intro x hx
        rcases List.mem_cons.mp hx with h | h
        · rw [h]
          exact le_trans hcy hy
        · exact hinit x h

/-- The outer loop, started with `i` passes done on a slice whose last `i`
buckets are in order and not before any earlier bucket, never indexes out of
range and returns the buckets in order of timestamp, as a permutation that keeps
the buckets of each timestamp in their order. -/
theorem outerLoop_sorts (k : Nat) :
    ∀ (i : Nat) (pre suf : List MinuteStat), suf.length = i → pre.length = k + 1 →
      suf.Pairwise (fun a b => a.Timestamp ≤ b.Timestamp) →
      (∀ x ∈ pre, ∀ y ∈ suf, x.Timestamp ≤ y.Timestamp) →
      ∃ out, outerLoop ((pre ++ suf).length : Int) (pre ++ suf) i k = some out ∧
        out.Pairwise (fun a b => a.Timestamp ≤ b.Timestamp) ∧
        out.Perm (pre ++ suf) ∧
        ∀ t : Time, out.filter (fun s => decide (s.Timestamp = t)) =
          (pre ++ suf).filter (fun s => decide (s.Timestamp = t)) := by
  induction k with
  | zero =>
    intro i pre suf _ hpre hsorted hle
    refine ⟨pre ++ suf, rfl, ?_, List.Perm.refl _, fun _ => rfl⟩
    rw [List.pairwise_append]
    refine ⟨?_, hsorted, hle⟩
    match pre, hpre with
    | [p], _ => exact List.pairwise_singleton _ p
  | succ k ih =>
    intro i pre suf hsuf hpre hsorted hle
    match pre, hpre, hle with
    | cur :: mid, hpre, hle =>
      have hmid : mid.length = k + 1 := by simpa using hpre
      have hsteps : ((((cur :: mid) ++ suf).length : Int) - (i : Int) - 1).toNat = mid.length := by
        simp only [List.length_append, List.length_cons, hsuf]
        omega
      have hinner := innerLoop_eq mid [] cur suf
      simp only [List.nil_append, List.length_nil] at hinner
      obtain ⟨init, m, hb, hl, hinit, _⟩ := bubble_last mid cur
      have hperm := bubble_perm mid cur
      have hm_mem : m ∈ cur :: mid := by
        apply hperm.subset
        rw [hb]
        simp
      have hinit_mem : ∀ x ∈ init, x ∈ cur :: mid := by
        intro x hx
        apply hperm.subset
        rw [hb]
        simp [hx]
      have hrec := ih (i + 1) init (m :: suf) (by simp [hsuf]) (by rw [hl, hmid])
        (List.pairwise_cons.mpr ⟨fun y hy => hle m hm_mem y hy, hsorted⟩)
        (by
          intro x hx y hy
          rcases List.mem_cons.mp hy with h | h
          · rw [h]
            exact hinit x hx
          · exact hle x (hinit_mem x hx) y h)
      have heq : init ++ m :: suf = bubble cur mid ++ suf := by
        rw [hb]
        simp
      have hlen : ((init ++ m :: suf).length : Int) = (((cur :: mid) ++ suf).length : Int) := by
        rw [heq]
        simp only [List.length_append, List.length_cons]
        rw [hperm.length_eq]
        simp
      rw [hlen, heq] at hrec
      obtain ⟨out, hout, hsort, hp, hf⟩ := hrec
      refine ⟨out, ?_, hsort, ?_, ?_⟩
      · simp only [outerLoop]
        rw [hsteps]
        have hinner' : innerLoop ((cur :: mid) ++ suf) 0 mid.length =
            some (bubble cur mid ++ suf) := by
          simpa using hinner
        rw [hinner']
        exact hout
      · exact hp.trans (hperm.append_right suf)
      · intro t
        rw [hf t, List.filter_append, List.filter_append, bubble_filter t mid cur]

/-- The method `SortByTimestamp` never indexes out of range; it changes `Stats`
only, into a permutation in order of timestamp that keeps the buckets of each
timestamp in their order. -/
theorem SortByTimestamp_spec (sr : StatsResponse) :
    ∃ out, sr.SortByTimestamp = some { sr with Stats := out } ∧
      out.Pairwise (fun a b => a.Timestamp ≤ b.Timestamp) ∧
      out.Perm sr.Stats ∧
      ∀ t : Time, out.filter (fun s => decide (s.Timestamp = t)) =
        sr.Stats.filter (fun s => decide (s.Timestamp = t)) := by
  cases hs : sr.Stats with
  | nil =>
    refine ⟨[], ?_, List.Pairwise.nil, List.Perm.refl _, fun _ => rfl⟩
    simp [StatsResponse.SortByTimestamp, hs, outerLoop]
  | cons x rest =>
    have h := outerLoop_sorts rest.length 0 (x :: rest) [] rfl (by simp) List.Pairwise.nil
      (fun _ _ y hy => by cases hy)
    simp only [List.append_nil] at h
    obtain ⟨out, hout, hsort, hp, hf⟩ := h
    refine ⟨out, ?_, hsort, hp, hf⟩
    have hn : (((x :: rest).length : Int) - 1).toNat = rest.length := by
      simp only [List.length_cons]
      omega
    simp only [StatsResponse.SortByTimestamp, hs, hn, hout, Option.map_some']

end stats

namespace stats

open click (Time Duration Second)

/-! ## The statistics service -/

/-- The `int64` sum of `CalculateTotal` is the exact sum wrapped modulo `2^64`. -/
theorem total_foldl (l : List MinuteStat) :
    ∀ a : Int, l.foldl (fun total stat => memory.wrapInt64 (total + stat.Value))
        (memory.wrapInt64 a) = memory.wrapInt64 (a + (l.map MinuteStat.Value).sum) := by
  induction l with
  | nil => intro a; simp
  | cons x rest ih =>
    intro a
    have hw : memory.wrapInt64 (memory.wrapInt64 a + x.Value) = memory.wrapInt64 (a + x.Value) := by
      unfold memory.wrapInt64
      omega
    simp only [List.foldl_cons, List.map_cons, List.sum_cons, hw, ih (a + x.Value)]
    rw [add_assoc]

/-- The response `GetStats` builds from the buckets of the repository. -/
theorem response_spec (bannerID : Int) (period : StatPeriod) (minuteStats : List MinuteStat) :
    ∃ out,
      ((StatsResponse.mk bannerID period minuteStats 0).CalculateTotal.SortByTimestamp).getD
          (StatsResponse.mk bannerID period minuteStats 0).CalculateTotal =
        { BannerID := bannerID, Period := period, Stats := out,
          Total := memory.wrapInt64 ((minuteStats.map MinuteStat.Value).sum) } ∧
      out.Pairwise (fun a b => a.Timestamp ≤ b.Timestamp) ∧
      out.Perm minuteStats ∧
      ∀ t : Time, out.filter (fun s => decide (s.Timestamp = t)) =
        minuteStats.filter (fun s => decide (s.Timestamp = t)) := by
  have htotal : (StatsResponse.mk bannerID period minuteStats 0).CalculateTotal =
      { BannerID := bannerID, Period := period, Stats := minuteStats,
        Total := memory.wrapInt64 ((minuteStats.map MinuteStat.Value).sum) } := by
    have h0 : (0 : Int) = memory.wrapInt64 0 := by decide
    simp only [StatsResponse.CalculateTotal]
    rw [h0, total_foldl minuteStats 0]
    simp
  obtain ⟨out, hout, hsort, hp, hf⟩ := SortByTimestamp_spec
    (StatsResponse.mk bannerID period minuteStats 0).CalculateTotal
  rw [hout, htotal] at *
  exact ⟨out, rfl, hsort, hp, hf⟩

/-- The method `GetStats` for a valid request when the cache returns a response. -/
theorem GetStats_hit {ρ κ ε : Type} (repo : Repository ρ) (c : CacheRepository κ ε)
    (w : World ρ κ) (bannerID : Int) (fromT toT : Time) (period : StatPeriod)
    (cached : StatsResponse) (hid : 0 < bannerID)
    (hperiod : NewStatPeriod fromT toT = .ok period)
    (hhit : (c.GetStats w.cache bannerID fromT toT).2 = (some cached, none)) :
    Service.GetStats repo (some c) w bannerID fromT toT =
      ({ w with
          cache := (c.GetStats w.cache bannerID fromT toT).1
          calls := w.calls ++ [.cacheGetStats bannerID fromT toT] }, .ok cached) := by
  have hid' : ¬ bannerID ≤ 0 := not_le.mpr hid
  simp [Service.GetStats, hid', hperiod, hhit]

/-- The method `GetStats` for a valid request when the cache returns no response. -/
theorem GetStats_miss {ρ κ ε : Type} (repo : Repository ρ) (c : CacheRepository κ ε)
    (w : World ρ κ) (bannerID : Int) (fromT toT : Time) (period : StatPeriod)
    (hid : 0 < bannerID) (hperiod : NewStatPeriod fromT toT = .ok period)
    (hmiss : ∀ cached, (c.GetStats w.cache bannerID fromT toT).2 ≠ (some cached, none)) :
    Service.GetStats repo (some c) w bannerID fromT toT =
      match (repo.GetAggregatedStats w.repo bannerID fromT toT).2 with
      | .error err =>
        ({ repo := (repo.GetAggregatedStats w.repo bannerID fromT toT).1
           cache := (c.GetStats w.cache bannerID fromT toT).1
           calls := w.calls ++ [.cacheGetStats bannerID fromT toT,
             .repoGetAggregatedStats bannerID fromT toT] },
          .error (.wrap "failed to get aggregated stats" err))
      | .ok minuteStats =>
        ({ repo := (repo.GetAggregatedStats w.repo bannerID fromT toT).1
           cache := (c.SetStats (c.GetStats w.cache bannerID fromT toT).1 bannerID fromT toT
             (((StatsResponse.mk bannerID period minuteStats 0).CalculateTotal.SortByTimestamp).getD
               (StatsResponse.mk bannerID period minuteStats 0).CalculateTotal)).1
           calls := w.calls ++ [.cacheGetStats bannerID fromT toT,
             .repoGetAggregatedStats bannerID fromT toT,
             .cacheSetStats bannerID fromT toT
               (((StatsResponse.mk bannerID period minuteStats 0).CalculateTotal.SortByTimestamp).getD
                 (StatsResponse.mk bannerID period minuteStats 0).CalculateTotal)] },
          .ok (((StatsResponse.mk bannerID period minuteStats 0).CalculateTotal.SortByTimestamp).getD
            (StatsResponse.mk bannerID period minuteStats 0).CalculateTotal)) := by
  have hid' : ¬ bannerID ≤ 0 := not_le.mpr hid
  have hnone : (match (c.GetStats w.cache bannerID fromT toT).2 with
      | (some cached, none) => some cached
      | _ => none) = none := by
    rcases hres : (c.GetStats w.cache bannerID fromT toT).2 with ⟨ob, oe⟩
    cases ob with
    | none => rfl
    | some b =>
      cases oe with
      | none => exact absurd hres (hmiss b)
      | some e => rfl
  simp only [Service.GetStats, hid', if_false, hperiod, hnone]
  cases hr : (repo.GetAggregatedStats w.repo bannerID fromT toT).2 with
  | error err => simp
  | ok minuteStats => simp

end stats

namespace stats

open click (Time Duration Second)

/-- C24: for a valid request (`bannerID > 0`, a period `NewStatPeriod` accepts),
`GetStats` first asks the cache. When the cache returns a response, that response
is returned and the repository is not called. When the cache returns none and
the repository returns its buckets, the repository has been called once, the
result holds the request's identifier and period, the repository's buckets in
order of timestamp (a permutation that keeps the buckets of each timestamp in
their order) and as `Total` the `int64` sum of their values (the exact sum when
that is in range), and exactly this result is then stored in the cache under
`(bannerID, from, to)`. -/
theorem C24_get_stats_cache_then_repo {ρ κ ε : Type} (repo : Repository ρ)
    (c : CacheRepository κ ε) (w : World ρ κ) (bannerID : Int) (fromT toT : Time)
    (period : StatPeriod) (hid : 0 < bannerID)
    (hperiod : NewStatPeriod fromT toT = .ok period) :
    (∀ cached, (c.GetStats w.cache bannerID fromT toT).2 = (some cached, none) →
      Service.GetStats repo (some c) w bannerID fromT toT =
        ({ repo := w.repo
           cache := (c.GetStats w.cache bannerID fromT toT).1
           calls := w.calls ++ [.cacheGetStats bannerID fromT toT] }, .ok cached)) ∧
    ((∀ cached, (c.GetStats w.cache bannerID fromT toT).2 ≠ (some cached, none)) →
      ∀ minuteStats, (repo.GetAggregatedStats w.repo bannerID fromT toT).2 = .ok minuteStats →
      ∃ response : StatsResponse,
        Service.GetStats repo (some c) w bannerID fromT toT =
          ({ repo := (repo.GetAggregatedStats w.repo bannerID fromT toT).1
             cache := (c.SetStats (c.GetStats w.cache bannerID fromT toT).1 bannerID fromT toT
               response).1
             calls := w.calls ++ [.cacheGetStats bannerID fromT toT,
               .repoGetAggregatedStats bannerID fromT toT,
               .cacheSetStats bannerID fromT toT response] }, .ok response) ∧
        response.BannerID = bannerID ∧ response.Period = period ∧
        response.Stats.Pairwise (fun a b => a.Timestamp ≤ b.Timestamp) ∧
        response.Stats.Perm minuteStats ∧
        (∀ t : Time, response.Stats.filter (fun s => decide (s.Timestamp = t)) =
          minuteStats.filter (fun s => decide (s.Timestamp = t))) ∧
        response.Total = memory.wrapInt64 ((minuteStats.map MinuteStat.Value).sum) ∧
        (memory.inInt64 ((minuteStats.map MinuteStat.Value).sum) →
          response.Total = (minuteStats.map MinuteStat.Value).sum)) := by
  constructor
  · intro cached hhit
    rw [GetStats_hit repo c w bannerID fromT toT period cached hid hperiod hhit]
  · intro hmiss minuteStats hrepo
    obtain ⟨out, hresp, hsort, hp, hf⟩ := response_spec bannerID period minuteStats
    refine ⟨((StatsResponse.mk bannerID period minuteStats 0).CalculateTotal.SortByTimestamp).getD
      (StatsResponse.mk bannerID period minuteStats 0).CalculateTotal, ?_, ?_⟩
    · rw [GetStats_miss repo c w bannerID fromT toT period hid hperiod hmiss, hrepo]
    · rw [hresp]
      exact ⟨rfl, rfl, hsort, hp, hf, rfl, fun hin => (memory.wrapInt64_spec _).2.2 hin⟩

/-- Witness of C24: an empty cache in front of a table that holds one bucket. -/
theorem C24_get_stats_cache_then_repo_witness :
    (0 : Int) < 1 ∧
    NewStatPeriod 0 (60 * Second) = .ok ⟨0, 60 * Second⟩ ∧
    (∀ cached, (listCache.GetStats [] 1 0 (60 * Second)).2 ≠ (some cached, none)) ∧
    (tableRepo.GetAggregatedStats true 1 0 (60 * Second)).2 = .ok [⟨60 * Second, 5⟩] ∧
    ∃ response : StatsResponse,
      (Service.GetStats tableRepo (some listCache) ⟨true, [], []⟩ 1 0 (60 * Second)).2 =
        .ok response ∧ response.Total = 5 :=
by
  obtain ⟨response, hget, _, _, _, _, _, htotal, _⟩ :=
    (C24_get_stats_cache_then_repo tableRepo listCache ⟨true, [], []⟩ 1 0 (60 * Second)
      ⟨0, 60 * Second⟩ (by decide) rfl).2 (fun cached h => by cases h)
      [⟨60 * Second, 5⟩] rfl
  refine ⟨by decide, rfl, (fun cached h => by cases h), rfl, response, ?_, ?_⟩
  · rw [hget]
  · rw [htotal]
    decide

/-- C26 fails on the code: with a cache configured, the first read of
`GetStatsWithFallback` stores its empty result in the cache, and after the
aggregation the second read gets that empty result back from the cache: the
function returns no bucket although the repository now holds one. The
repository is read once only (before the aggregation). With no cache the same
call returns the freshly aggregated bucket. -/
theorem C26_fallback_returns_cached_result :
    (Service.GetStatsWithFallback tableRepo (some tableAgg) (some listCache) ⟨false, [], []⟩
      1 0 (60 * Second)).2 = .ok ⟨1, ⟨0, 60 * Second⟩, [], 0⟩ ∧
    (Service.GetStatsWithFallback tableRepo (some tableAgg) (some listCache) ⟨false, [], []⟩
      1 0 (60 * Second)).1.repo = true ∧
    (tableRepo.GetAggregatedStats true 1 0 (60 * Second)).2 = .ok [⟨60 * Second, 5⟩] ∧
    (Service.GetStatsWithFallback tableRepo (some tableAgg) (some listCache) ⟨false, [], []⟩
      1 0 (60 * Second)).1.calls =
      [.cacheGetStats 1 0 (60 * Second), .repoGetAggregatedStats 1 0 (60 * Second),
        .cacheSetStats 1 0 (60 * Second) ⟨1, ⟨0, 60 * Second⟩, [], 0⟩,
        .aggregateClicks 1 0 (60 * Second), .cacheGetStats 1 0 (60 * Second)] ∧
    (Service.GetStatsWithFallback tableRepo (some tableAgg)
      (none : Option (CacheRepository Unit String)) ⟨false, (), []⟩ 1 0 (60 * Second)).2 =
      .ok ⟨1, ⟨0, 60 * Second⟩, [⟨60 * Second, 5⟩], 5⟩ := by
  refine ⟨?_, ?_, ?_, ?_, ?_⟩ <;> rfl

/-- C27: for every list of buckets, `SortByTimestamp` ends without indexing out
of range (the empty and the one-element list included) and leaves `Stats` as a
permutation of the original list in order of non-decreasing timestamp, in which
the buckets of each timestamp keep their original relative order; the other
fields are unchanged. -/
theorem C27_sort_by_timestamp (sr : StatsResponse) :
    (∃ out, sr.SortByTimestamp = some { sr with Stats := out } ∧
      out.Pairwise (fun a b => a.Timestamp ≤ b.Timestamp) ∧
      out.Perm sr.Stats ∧
      ∀ t : Time, out.filter (fun s => decide (s.Timestamp = t)) =
        sr.Stats.filter (fun s => decide (s.Timestamp = t))) ∧
    (sr.Stats = [] → sr.SortByTimestamp = some sr) ∧
    (∀ x, sr.Stats = [x] → sr.SortByTimestamp = some sr) ∧
    (StatsResponse.SortByTimestamp ⟨1, ⟨0, 0⟩, [⟨3, 1⟩, ⟨1, 2⟩, ⟨2, 3⟩, ⟨1, 4⟩, ⟨0, 5⟩], 0⟩ =
      some ⟨1, ⟨0, 0⟩, [⟨0, 5⟩, ⟨1, 2⟩, ⟨1, 4⟩, ⟨2, 3⟩, ⟨3, 1⟩], 0⟩) := by
  refine ⟨SortByTimestamp_spec sr, ?_, ?_, by decide⟩
  · intro hnil
    cases sr with
    | mk id period statsList total =>
      simp only at hnil
      subst hnil
      rfl
  · intro x hx
    cases sr with
    | mk id period statsList total =>
      simp only at hx
      subst hx
      rfl

end stats

namespace handlers

open click (Time Duration Second)

/-! ## The statuses of the statistics handler -/

/-- No error of the use case has the text "banner not found" or the text "time
period is too large". -/
theorem usecase_error_text (bannerExists : Int → Bool × Option banner.Error)
    (getStatsWithFallback : Int → Time → Time → Except stats.Error stats.StatsResponse)
    (req : Option usecase.GetStatsRequest) (text : String)
    (h : usecase.StatsUseCase.GetStats bannerExists getStatsWithFallback req = .error text) :
    text ≠ "banner not found" ∧ text ≠ "time period is too large" := by
  have hne : ∀ (p x : String), text = p ++ x →
      (∀ y : List Char, p.data ++ y ≠ "banner not found".data) →
      (∀ y : List Char, p.data ++ y ≠ "time period is too large".data) →
      text ≠ "banner not found" ∧ text ≠ "time period is too large" := by
    intro p x htext h1 h2
    constructor
    · intro heq
      have hd := congrArg String.data (htext.symm.trans heq)
      rw [String.data_append] at hd
      exact h1 x.data hd
    · intro heq
      have hd := congrArg String.data (htext.symm.trans heq)
      rw [String.data_append] at hd
      exact h2 x.data hd
  unfold usecase.StatsUseCase.GetStats at h
  cases req with
  | none =>
    simp only [Except.error.injEq] at h
    rw [← h]
    exact ⟨by decide, by decide⟩
  | some r =>
    simp only at h
    split_ifs at h with h1 h2 h3
    · simp only [Except.error.injEq] at h
      exact hne "invalid banner ID: " _ h.symm (fun y hy => by simp at hy)
        (fun y hy => by simp at hy)
    · simp only [Except.error.injEq] at h
      rw [← h]
      exact ⟨by decide, by decide⟩
    · simp only [Except.error.injEq] at h
      exact hne "period too large, maximum allowed: " _ h.symm (fun y hy => by simp at hy)
        (fun y hy => by simp at hy)
    · rcases hex : bannerExists r.BannerID with ⟨found, oerr⟩
      rw [hex] at h
      cases oerr with
      | some err =>
        simp only [Except.error.injEq] at h
        exact hne "failed to check banner existence: " _ h.symm (fun y hy => by simp at hy)
          (fun y hy => by simp at hy)
      | none =>
        simp only at h
        cases found with
        | false =>
          simp only [Bool.not_false, if_true, Except.error.injEq] at h
          exact hne "banner not found: " _ h.symm (fun y hy => by simp at hy)
            (fun y hy => by simp at hy)
        | true =>
          simp only [Bool.not_true, Bool.false_eq_true, if_false] at h
          cases hst : getStatsWithFallback r.BannerID r.From r.To with
          | error err =>
            rw [hst] at h
            simp only [Except.error.injEq] at h
            exact hne "failed to get stats: " _ h.symm (fun y hy => by simp at hy)
              (fun y hy => by simp at hy)
          | ok resp =>
            rw [hst] at h
            cases h

/-- Every failure of the use case on a parsed request with a positive identifier
and `from` not after `to` is answered with status 500. -/
theorem handler_failure_status (bannerExists : Int → Bool × Option banner.Error)
    (getStatsWithFallback : Int → Time → Time → Except stats.Error stats.StatsResponse)
    (bannerID : Int) (fromTime toTime : Time) (text : String) (hid : 0 < bannerID)
    (hle : fromTime ≤ toTime)
    (h : usecase.StatsUseCase.GetStats bannerExists getStatsWithFallback
      (some ⟨bannerID, fromTime, toTime⟩) = .error text) :
    StatsHandler.GetStats bannerExists getStatsWithFallback bannerID fromTime toTime = 500 := by
  have htext := usecase_error_text bannerExists getStatsWithFallback _ text h
  have hid' : ¬ bannerID ≤ 0 := not_le.mpr hid
  have hle' : ¬ toTime < fromTime := not_lt.mpr hle
  simp only [StatsHandler.GetStats, hid', hle', if_false, h, htext.1, htext.2]

/-- The use case's error for a banner that does not exist. -/
theorem usecase_banner_missing
    (getStatsWithFallback : Int → Time → Time → Except stats.Error stats.StatsResponse) :
    usecase.StatsUseCase.GetStats (fun _ => (false, none)) getStatsWithFallback
      (some ⟨42, 0, 60 * Second⟩) = .error "banner not found: 42" := by
  have hfmt : memory.formatInt 42 = "42" := by
    simp [memory.formatInt, memory.decimal]
    decide
  have h1 : ¬ ((60 * Second : Time) < 0) := by decide
  have h2 : ¬ (30 * 24 * memory.Hour < stats.Sub (60 * Second) 0) := by decide
  have h0 : ¬ ((42 : Int) ≤ 0) := by decide
  have hcat : ("banner not found: " ++ "42" : String) = "banner not found: 42" := by decide
  simp only [usecase.StatsUseCase.GetStats, h0, h1, h2, hfmt, if_false, Bool.not_false,
    if_true, hcat]

/-- The use case's error for a period of 31 days. -/
theorem usecase_period_too_large (bannerExists : Int → Bool × Option banner.Error)
    (getStatsWithFallback : Int → Time → Time → Except stats.Error stats.StatsResponse) :
    usecase.StatsUseCase.GetStats bannerExists getStatsWithFallback
      (some ⟨42, 0, 31 * 24 * memory.Hour⟩) =
      .error "period too large, maximum allowed: 720h0m0s" := by
  have h1 : ¬ ((31 * 24 * memory.Hour : Time) < 0) := by decide
  have h2 : 30 * 24 * memory.Hour < stats.Sub (31 * 24 * memory.Hour) 0 := by decide
  have h0 : ¬ ((42 : Int) ≤ 0) := by decide
  have hcat : "period too large, maximum allowed: " ++ usecase.maxPeriodText =
      "period too large, maximum allowed: 720h0m0s" := by decide
  simp only [usecase.StatsUseCase.GetStats, h0, h1, h2, if_false, if_true, hcat]

/-- C25 fails on the code: for banner 42, which does not exist, the use case
fails with the text "banner not found: 42" and the handler answers 500 (the
claim: 404); for a period of 31 days the use case fails with the text "period
too large, maximum allowed: 720h0m0s" and the handler answers 500 (the claim:
400). The handler compares the text with "banner not found" and "time period is
too large", which no error of the use case has. -/
theorem C25_handler_answers_500 :
    usecase.StatsUseCase.GetStats (fun _ => (false, none))
      (fun _ _ _ => .ok ⟨42, ⟨0, 60 * Second⟩, [], 0⟩) (some ⟨42, 0, 60 * Second⟩) =
      .error "banner not found: 42" ∧
    StatsHandler.GetStats (fun _ => (false, none))
      (fun _ _ _ => .ok ⟨42, ⟨0, 60 * Second⟩, [], 0⟩) 42 0 (60 * Second) = 500 ∧
    usecase.StatsUseCase.GetStats (fun _ => (true, none))
      (fun _ _ _ => .ok ⟨42, ⟨0, 60 * Second⟩, [], 0⟩) (some ⟨42, 0, 31 * 24 * memory.Hour⟩) =
      .error "period too large, maximum allowed: 720h0m0s" ∧
    StatsHandler.GetStats (fun _ => (true, none))
      (fun _ _ _ => .ok ⟨42, ⟨0, 60 * Second⟩, [], 0⟩) 42 0 (31 * 24 * memory.Hour) = 500 :=
  ⟨usecase_banner_missing _,
    handler_failure_status _ _ 42 0 (60 * Second) _ (by decide) (by decide)
      (usecase_banner_missing _),
    usecase_period_too_large _ _,
    handler_failure_status _ _ 42 0 (31 * 24 * memory.Hour) _ (by decide) (by decide)
      (usecase_period_too_large _ _)⟩

end handlers
